import Mathlib

/-!
# Top-level code emission (`lib/SILGen/SILGenTopLevel.cpp`)

A shallow embedding of the entry-point emission code of SILGen:

* `SILGenTopLevel.visitTopLevelCodeDecl` (unreachable-code handling),
* `SILGenFunction.emitMarkFunctionEscapeForTopLevelCodeGlobals`,
* `SILGenModule.emitEntryPoint` (both overloads),
* `SILGenFunction.emitCallToMain`.

The emitter state is passed explicitly.  A `SILValue` is identified with the
instruction or block argument that defines it; source locations of
instructions are not recorded.  Code that lives in other files of the compiler
(statement lowering, epilog preparation, cleanups, ...) enters as a parameter.
-/

namespace Swift

/-! ## AST -/

abbrev SourceLoc := Nat

/-- A statement, as far as top-level emission looks at it. -/
structure Stmt where
  id : Nat
  isImplicit : Bool
  startLoc : SourceLoc
deriving DecidableEq, Repr

/-- An expression, as far as top-level emission looks at it. -/
structure Expr where
  id : Nat
  isImplicit : Bool
  startLoc : SourceLoc
deriving DecidableEq, Repr

/-- A declaration appearing as an element of a brace statement. -/
structure Decl where
  id : Nat
  isImplicit : Bool
  startLoc : SourceLoc
deriving DecidableEq, Repr

/-- The element type of a brace statement: `ASTNode` is a pointer union of
`Stmt *`, `Expr *` and `Decl *`. -/
inductive ASTNode where
  | stmt (S : Stmt)
  | expr (E : Expr)
  | decl (D : Decl)
deriving DecidableEq, Repr

def ASTNode.getStartLoc : ASTNode → SourceLoc
  | .stmt S => S.startLoc
  | .expr E => E.startLoc
  | .decl D => D.startLoc

/-- A top-level code declaration; `body` is `TD->getBody()->getElements()`. -/
structure TopLevelCodeDecl where
  body : List ASTNode
deriving DecidableEq, Repr

/-- The diagnostics this file reports. -/
inductive Diag where
  | unreachable_code
deriving DecidableEq, Repr

/-! ## SIL -/

abbrev BlockId := Nat

/-- AST-level types, as far as this file distinguishes them. -/
inductive CanType where
  | builtinInteger (bits : Nat)
  | emptyTuple
  | errorExistential
  | never
  | nominal (name : String)
  | optional (object : CanType)
deriving DecidableEq, Repr

/-- A lowered type: an AST type with the address/object category. -/
structure SILType where
  astType : CanType
  isAddress : Bool
deriving DecidableEq, Repr

def SILType.getPrimitiveObjectType (t : CanType) : SILType := ⟨t, false⟩

def SILType.getBuiltinIntegerType (bits : Nat) : SILType :=
  SILType.getPrimitiveObjectType (.builtinInteger bits)

def SILType.getObjectType (t : SILType) : SILType := ⟨t.astType, false⟩

def SILType.getAddressType (t : SILType) : SILType := ⟨t.astType, true⟩

def SILType.getEmptyTupleType : SILType := SILType.getPrimitiveObjectType .emptyTuple

/-- Is `SILType::getOptionalType(type)`: the optional of the type, in the
category of the type. -/
def SILType.getOptionalType (t : SILType) : SILType := ⟨.optional t.astType, t.isAddress⟩

inductive OwnershipKind where
  | owned
  | guaranteed
  | none
deriving DecidableEq, Repr

/-- A value is identified with what defines it. -/
inductive SILValue where
  | integerLiteral (ty : SILType) (value : Nat)
  | struct (ty : SILType) (operand : SILValue)
  | phiArgument (block : BlockId) (index : Nat) (ty : SILType) (ownership : OwnershipKind)
  | functionArgument (block : BlockId) (index : Nat) (ty : SILType)
  | functionRef (name : String)
  | metatype (ty : SILType)
  | load (ty : SILType) (address : SILValue)
  | allocStack (ty : SILType)
  | optionalSome (ty : SILType) (operand : SILValue)
  | external (id : Nat) (ty : SILType)
deriving DecidableEq, Repr

def SILValue.getType : SILValue → SILType
  | .integerLiteral ty _ => ty
  | .struct ty _ => ty
  | .phiArgument _ _ ty _ => ty
  | .functionArgument _ _ ty => ty
  | .functionRef name => SILType.getPrimitiveObjectType (.nominal name)
  | .metatype ty => ty
  | .load ty _ => ty
  | .allocStack ty => ty.getAddressType
  | .optionalSome ty _ => ty
  | .external _ ty => ty

/-- Instructions.  `other` stands for any instruction emitted by code outside
this file; it records only whether it is a terminator and its successors. -/
inductive SILInstruction where
  | integerLiteral (ty : SILType) (value : Nat)
  | struct (ty : SILType) (operand : SILValue)
  | functionRef (name : String)
  | metatype (ty : SILType)
  | optionalSome (ty : SILType) (operand : SILValue)
  | builtin (name : String) (resultType : SILType) (args : List SILValue)
  | endLifetime (operand : SILValue)
  | markFunctionEscape (operands : List SILValue)
  | allocStack (ty : SILType)
  | load (ty : SILType) (address : SILValue)
  | store (src : SILValue) (dest : SILValue)
  | apply (callee : SILValue) (args : List SILValue)
  | tryApply (callee : SILValue) (args : List SILValue) (normalBB : BlockId) (errorBB : BlockId)
  | branch (dest : BlockId) (args : List SILValue)
  | ret (operand : SILValue)
  | unreachable
  | other (terminator : Bool) (succs : List BlockId)
deriving DecidableEq, Repr

def SILInstruction.isTerminator : SILInstruction → Bool
  | .tryApply _ _ _ _ => true
  | .branch _ _ => true
  | .ret _ => true
  | .unreachable => true
  | .other t _ => t
  | _ => false

def SILInstruction.successors : SILInstruction → List BlockId
  | .tryApply _ _ n e => [n, e]
  | .branch d _ => [d]
  | .other _ succs => succs
  | _ => []

structure SILBasicBlock where
  id : BlockId
  args : List SILValue
  insts : List SILInstruction
deriving DecidableEq, Repr

def SILBasicBlock.successors (b : SILBasicBlock) : List BlockId :=
  b.insts.flatMap SILInstruction.successors

/-- A block that ends in exactly one terminator: its last instruction is a
terminator and no earlier one is. -/
def SILBasicBlock.isTerminated (b : SILBasicBlock) : Bool :=
  match b.insts.getLast? with
  | some t => t.isTerminator && b.insts.dropLast.all (fun i => !i.isTerminator)
  | none => false

/-- A block still under construction: no terminator in it. -/
def SILBasicBlock.isOpen (b : SILBasicBlock) : Bool :=
  b.insts.all (fun i => !i.isTerminator)

/-! ## Module-level state -/

/-- A lowered function type: parameter types and the error result, if any. -/
structure SILFunctionType where
  parameters : List CanType
  errorResult : Option SILType
deriving DecidableEq, Repr

def SILFunctionType.hasErrorResult (t : SILFunctionType) : Bool := t.errorResult.isSome

/-- A function declaration of the AST. -/
structure FuncDecl where
  name : String
  params : List CanType
  result : CanType
  hasAsync : Bool
  throws : Bool
  isImplicit : Bool
  externC : Bool
  selfType : CanType
  loweredType : SILFunctionType
deriving DecidableEq, Repr

/-- A function of the SIL module (its body is tracked by the emitter that
builds it, see `SILGenFunction`). -/
structure SILFunction where
  name : String
  isBare : Bool
  loweredType : SILFunctionType
deriving DecidableEq, Repr

def SILFunction.setBare (f : SILFunction) : SILFunction := { f with isBare := true }

structure SILModule where
  functions : List SILFunction
deriving DecidableEq, Repr

def SILModule.lookUpFunction (M : SILModule) (name : String) : Option SILFunction :=
  M.functions.find? (fun f => f.name == name)

/-- A reference to a declaration to emit: the mangled name and lowered type of
the function it denotes. -/
structure SILDeclRef where
  mangledName : String
  loweredType : SILFunctionType
deriving DecidableEq, Repr

/-- The part of the AST context this file consults. -/
structure ASTContext where
  entryPointFunctionName : String
  asyncEntryPointFunctionName : String
  entryPointType : SILFunctionType
  errorInMainTyped : FuncDecl
deriving DecidableEq, Repr

structure SILGenModule where
  M : SILModule
  ctx : ASTContext
  exitDecl : Option FuncDecl
deriving DecidableEq, Repr

def SILGenModule.getASTContext (SGM : SILGenModule) : ASTContext := SGM.ctx

def SILGenModule.getExit (SGM : SILGenModule) : Option FuncDecl := SGM.exitDecl

/-- Modelled from the spec: `SILDeclRef::getMainFileEntryPoint` is not part of
this file.  The entry function is "named per a fixed module entry point naming
rule" (spec, section 6): its name is the context's entry-point function name. -/
def SILDeclRef.getMainFileEntryPoint (ctx : ASTContext) : SILDeclRef :=
  ⟨ctx.entryPointFunctionName, ctx.entryPointType⟩

/-- Modelled from the spec: `SILDeclRef::getAsyncMainFileEntryPoint` is not
part of this file; it denotes the asynchronous entry variant (spec, 4.1). -/
def SILDeclRef.getAsyncMainFileEntryPoint (ctx : ASTContext) : SILDeclRef :=
  ⟨ctx.asyncEntryPointFunctionName, ⟨[], none⟩⟩

/-- The reference `SILDeclRef(decl, SILDeclRef::Kind::Func, ...)` to a function
declaration. -/
def SILDeclRef.ofFuncDecl (d : FuncDecl) : SILDeclRef := ⟨d.name, d.loweredType⟩

/-- Modelled from the spec: `SILGenModule::getFunction` is not part of this
file.  It "returns an existing or freshly declared" function (spec, section 6):
the function of that name if the module has one, else a new one added to the
module. -/
def SILGenModule.getFunction (SGM : SILGenModule) (ref : SILDeclRef) :
    SILFunction × SILGenModule :=
  match SGM.M.lookUpFunction ref.mangledName with
  | some f => (f, SGM)
  | none =>
    let f : SILFunction := ⟨ref.mangledName, false, ref.loweredType⟩
    (f, { SGM with M := ⟨SGM.M.functions ++ [f]⟩ })

/-! ## Function-level emitter state -/

abbrev ValueDecl := Nat

/-- The location recorded for a variable in `VarLocs`. -/
structure VarLoc where
  value : SILValue
deriving DecidableEq, Repr

/-- The state of a `SILGenFunction`: the function `F` under construction (its
blocks, result and parameter types), the builder `B` (its insertion block; the
builder always inserts at the end of that block), and the emitter's fields. -/
structure SILGenFunction where
  SGM : SILGenModule
  F : SILFunction
  resultType : SILType
  paramTypes : List SILType
  blocks : List SILBasicBlock
  nextBlock : BlockId
  insertionBB : Option BlockId
  ThrowDest : Option BlockId
  VarLocs : List (ValueDecl × VarLoc)
  IndirectErrorResult : Option SILValue
  ExpectedExecutor : Option SILValue
  IsEmittingTopLevelCode : Bool
deriving DecidableEq, Repr

namespace SILGenFunction

/-- Apply `f` to the block(s) named `bb`. -/
def modifyBlock (bb : BlockId) (f : SILBasicBlock → SILBasicBlock)
    (blocks : List SILBasicBlock) : List SILBasicBlock :=
  blocks.map (fun b => if b.id = bb then f b else b)

def findBlock (s : SILGenFunction) (bb : BlockId) : Option SILBasicBlock :=
  s.blocks.find? (fun b => b.id == bb)

/-- Modelled from the spec: the builder is not part of this file.  Exactly one
block is current, the insertion point (spec, section 3), or none is after a
block was terminated (spec, 4.2): `B.hasValidInsertionPoint()` holds when there
is an insertion block. -/
def hasValidInsertionPoint (s : SILGenFunction) : Bool := s.insertionBB.isSome

def setInsertionPoint (s : SILGenFunction) (bb : BlockId) : SILGenFunction :=
  { s with insertionBB := some bb }

def clearInsertionPoint (s : SILGenFunction) : SILGenFunction :=
  { s with insertionBB := none }

/-- Modelled from the spec: the builder's `insert` is not part of this file.
A block is an ordered sequence of instructions (spec, section 3) built at the
insertion point: the instruction goes to the end of the insertion block;
without an insertion block nothing is inserted. -/
def insert (s : SILGenFunction) (i : SILInstruction) : SILGenFunction :=
  match s.insertionBB with
  | none => s
  | some bb =>
    { s with blocks := modifyBlock bb (fun b => { b with insts := b.insts ++ [i] }) s.blocks }

/-- Modelled from the spec: the builder's `insertTerminator` is not part of
this file.  A block ends "in exactly one terminator" and an element that
"terminated the block" leaves no valid insertion point (spec, sections 3 and
4.2): insert, then clear the insertion point. -/
def insertTerminator (s : SILGenFunction) (i : SILInstruction) : SILGenFunction :=
  (s.insert i).clearInsertionPoint

/-- Modelled from the spec: `createBasicBlock` is not part of this file.
Blocks are "addressed by stable identifiers" (spec, section 9): a new, empty
block of the function with a fresh identity.  The place of a block in the list
has no meaning. -/
def createBasicBlock (s : SILGenFunction) : BlockId × SILGenFunction :=
  (s.nextBlock,
    { s with blocks := s.blocks ++ [⟨s.nextBlock, [], []⟩], nextBlock := s.nextBlock + 1 })

/-- Modelled from the spec: the builder's `emitBlock(BB)` is not part of this
file; the block becomes the current one (spec, section 3). -/
def emitBlock (s : SILGenFunction) (bb : BlockId) : SILGenFunction := s.setInsertionPoint bb

/-- Modelled from the spec: `eraseBasicBlock` is not part of this file;
"deletion is an explicit arena operation" (spec, section 9). -/
def eraseBasicBlock (s : SILGenFunction) (bb : BlockId) : SILGenFunction :=
  { s with blocks := s.blocks.filter (fun b => b.id != bb) }

/-- Modelled from the spec: `pred_empty` is not part of this file.  It holds
when "no predecessor ever branches to" the block (spec, 4.1): no block of the
function has `bb` as a successor. -/
def pred_empty (s : SILGenFunction) (bb : BlockId) : Bool :=
  s.blocks.all (fun b => !b.successors.contains bb)

/-- Modelled from the spec: `createPhiArgument` is not part of this file.  A
block may declare block parameters (spec, section 3): the new parameter is
the last argument of the block. -/
def createPhiArgument (s : SILGenFunction) (bb : BlockId) (ty : SILType)
    (ownership : OwnershipKind) : SILValue × SILGenFunction :=
  let index := match s.findBlock bb with
    | some b => b.args.length
    | none => 0
  let v := SILValue.phiArgument bb index ty ownership
  (v, { s with blocks := modifyBlock bb (fun b => { b with args := b.args ++ [v] }) s.blocks })

/-- Modelled from the spec: `createFunctionArgument` is not part of this
file; the parameters of the function are arguments of its entry block (spec,
4.1). -/
def createFunctionArgument (s : SILGenFunction) (bb : BlockId) (ty : SILType) :
    SILValue × SILGenFunction :=
  let index := match s.findBlock bb with
    | some b => b.args.length
    | none => 0
  let v := SILValue.functionArgument bb index ty
  (v, { s with blocks := modifyBlock bb (fun b => { b with args := b.args ++ [v] }) s.blocks })

def createIntegerLiteral (s : SILGenFunction) (ty : SILType) (value : Nat) :
    SILValue × SILGenFunction :=
  (.integerLiteral ty value, s.insert (.integerLiteral ty value))

def createStruct (s : SILGenFunction) (ty : SILType) (operand : SILValue) :
    SILValue × SILGenFunction :=
  (.struct ty operand, s.insert (.struct ty operand))

def createFunctionRef (s : SILGenFunction) (f : SILFunction) : SILValue × SILGenFunction :=
  (.functionRef f.name, s.insert (.functionRef f.name))

def createMetatype (s : SILGenFunction) (ty : SILType) : SILValue × SILGenFunction :=
  (.metatype ty, s.insert (.metatype ty))

def createOptionalSome (s : SILGenFunction) (operand : SILValue) (ty : SILType) :
    SILValue × SILGenFunction :=
  (.optionalSome ty operand, s.insert (.optionalSome ty operand))

def createAllocStack (s : SILGenFunction) (ty : SILType) : SILValue × SILGenFunction :=
  (.allocStack ty, s.insert (.allocStack ty))

def createBuiltin (s : SILGenFunction) (name : String) (resultType : SILType)
    (args : List SILValue) : SILGenFunction :=
  s.insert (.builtin name resultType args)

def createEndLifetime (s : SILGenFunction) (v : SILValue) : SILGenFunction :=
  s.insert (.endLifetime v)

def createMarkFunctionEscape (s : SILGenFunction) (vars : List SILValue) : SILGenFunction :=
  s.insert (.markFunctionEscape vars)

def createApply (s : SILGenFunction) (callee : SILValue) (args : List SILValue) :
    SILGenFunction :=
  s.insert (.apply callee args)

def createTryApply (s : SILGenFunction) (callee : SILValue) (args : List SILValue)
    (normalBB errorBB : BlockId) : SILGenFunction :=
  s.insertTerminator (.tryApply callee args normalBB errorBB)

def createBranch (s : SILGenFunction) (dest : BlockId) (args : List SILValue) :
    SILGenFunction :=
  s.insertTerminator (.branch dest args)

def createReturn (s : SILGenFunction) (v : SILValue) : SILGenFunction :=
  s.insertTerminator (.ret v)

def createUnreachable (s : SILGenFunction) : SILGenFunction :=
  s.insertTerminator .unreachable

end SILGenFunction

/-! ## `SILGenTopLevel::visitTopLevelCodeDecl` -/

/-- What `visitTopLevelCodeDecl` does to the outside: the diagnostics it
reports and the calls it makes into the lowering code of other files. -/
inductive Event where
  | emitProfilerIncrement
  | diagnose (loc : SourceLoc) (d : Diag)
  | emitStmt (S : Stmt)
  | emitIgnoredExpr (E : Expr)
  | visit (D : Decl)
deriving DecidableEq, Repr

def Event.isDiagnose : Event → Bool
  | .diagnose _ _ => true
  | _ => false

/-- Does the event hand an element to `emitStmt`, `emitIgnoredExpr` or the
declaration visitor. -/
def Event.isLowering : Event → Bool
  | .emitStmt _ => true
  | .emitIgnoredExpr _ => true
  | .visit _ => true
  | _ => false

/-- The lowering routines of `SILGenFunction` that `visitTopLevelCodeDecl`
calls; they are defined in other files. -/
structure Lowering where
  emitProfilerIncrement : List ASTNode → SILGenFunction → SILGenFunction
  emitStmt : Stmt → SILGenFunction → SILGenFunction
  emitIgnoredExpr : Expr → SILGenFunction → SILGenFunction
  visit : Decl → SILGenFunction → SILGenFunction

/-- How the loop over the elements ended: it ran to the end of the elements,
or left through the `return` after the diagnostic. -/
inductive LoopExit where
  | completed
  | returned
deriving DecidableEq, Repr

structure VisitResult where
  exit : LoopExit
  SGF : SILGenFunction
  events : List Event
deriving DecidableEq, Repr

namespace SILGenTopLevel

/-- The loop of `visitTopLevelCodeDecl` over the elements of the body. -/
def visitElements (L : Lowering) : List ASTNode → SILGenFunction → VisitResult
  | [], SGF => ⟨.completed, SGF, []⟩
  | ESD :: rest, SGF =>
    if !SGF.hasValidInsertionPoint then
      match ESD with
      | .stmt S =>
        if S.isImplicit then visitElements L rest SGF
        else ⟨.returned, SGF, [.diagnose ESD.getStartLoc .unreachable_code]⟩
      | .expr E =>
        if E.isImplicit then visitElements L rest SGF
        else ⟨.returned, SGF, [.diagnose ESD.getStartLoc .unreachable_code]⟩
      | .decl _ => ⟨.returned, SGF, [.diagnose ESD.getStartLoc .unreachable_code]⟩
    else
      match ESD with
      | .stmt S =>
        let r := visitElements L rest (L.emitStmt S SGF)
        ⟨r.exit, r.SGF, .emitStmt S :: r.events⟩
      | .expr E =>
        let r := visitElements L rest (L.emitIgnoredExpr E SGF)
        ⟨r.exit, r.SGF, .emitIgnoredExpr E :: r.events⟩
      | .decl D =>
        let r := visitElements L rest (L.visit D SGF)
        ⟨r.exit, r.SGF, .visit D :: r.events⟩

/-- The debug scope opened for the declaration has no effect on the emitter
state recorded here. -/
def visitTopLevelCodeDecl (L : Lowering) (TD : TopLevelCodeDecl) (SGF : SILGenFunction) :
    VisitResult :=
  let r := visitElements L TD.body (L.emitProfilerIncrement TD.body SGF)
  ⟨r.exit, r.SGF, .emitProfilerIncrement :: r.events⟩

end SILGenTopLevel

/-! ## `SILGenFunction::emitMarkFunctionEscapeForTopLevelCodeGlobals` -/

structure CapturedValue where
  decl : ValueDecl
deriving DecidableEq, Repr

def CapturedValue.getDecl (c : CapturedValue) : ValueDecl := c.decl

structure CaptureInfo where
  captures : List CapturedValue
deriving DecidableEq, Repr

def CaptureInfo.getCaptures (c : CaptureInfo) : List CapturedValue := c.captures

namespace SILGenFunction

/-- Is `VarLocs.find(decl)`. -/
def findVarLoc (s : SILGenFunction) (decl : ValueDecl) : Option VarLoc :=
  (s.VarLocs.find? (fun p => p.1 == decl)).map Prod.snd

/-- The loop filling `Captures`. -/
def collectEscapes (s : SILGenFunction) : List CapturedValue → List SILValue → List SILValue
  | [], Captures => Captures
  | Capture :: rest, Captures =>
    match s.findVarLoc Capture.getDecl with
    | none => collectEscapes s rest Captures
    | some It =>
      if !It.value.getType.isAddress then collectEscapes s rest Captures
      else collectEscapes s rest (Captures ++ [It.value])

def emitMarkFunctionEscapeForTopLevelCodeGlobals (s : SILGenFunction)
    (CaptureInfo : CaptureInfo) : SILGenFunction :=
  let Captures := collectEscapes s CaptureInfo.getCaptures []
  if !Captures.isEmpty then s.createMarkFunctionEscape Captures else s

/-- The operands the specification asks for: the `VarLocs` values of the
captures that have an entry whose value is address-typed, in capture order. -/
def escapingLocations (s : SILGenFunction) (captures : List CapturedValue) : List SILValue :=
  captures.filterMap (fun c =>
    match s.findVarLoc c.decl with
    | some loc => if loc.value.getType.isAddress then some loc.value else none
    | none => none)

def isMarkFunctionEscape (i : SILInstruction) : Bool :=
  match i with
  | .markFunctionEscape _ => true
  | _ => false

/-- The number of `mark_function_escape` instructions in the blocks of the
function. -/
def countMarkFunctionEscape (s : SILGenFunction) : Nat :=
  (s.blocks.map (fun b => b.insts.countP isMarkFunctionEscape)).sum

end SILGenFunction

/-! ## `SILGenModule::emitEntryPoint` -/

structure SourceFile where
  isAsyncContext : Bool
deriving DecidableEq, Repr

/-- The code of other files that `emitEntryPoint` calls.  `visitSourceFile`
stands for the walk over the declarations of the file together with the
cleanup scope around it (lines 85-88). -/
structure EntryPointEnv where
  emitAsyncMainThreadStart : SILDeclRef → SILFunction → SILGenModule → SILGenModule
  newSILGenFunction : SILGenModule → SILFunction → SILGenFunction
  prepareEpilog : SILGenFunction → SILGenFunction
  emitMainExecutor : SILGenFunction → SILValue × SILGenFunction
  visitSourceFile : SourceFile → SILGenFunction → SILGenFunction
  emitEpilogBB : SILGenFunction → SILGenFunction
  cleanupsForReturn : SILGenFunction → List SILInstruction

/-- The declaration `synthesizeExit` builds:
`@_extern(c) func exit(_: Int32) -> Never`. -/
def synthesizeExit : FuncDecl :=
  { name := "exit"
    params := [.nominal "Int32"]
    result := .never
    hasAsync := false
    throws := false
    isImplicit := true
    externC := true
    selfType := .emptyTuple
    loweredType := ⟨[.nominal "Int32"], none⟩ }

namespace SILGenFunction

/-- Insert instructions one after the other at the insertion point. -/
def insertAll (s : SILGenFunction) (is : List SILInstruction) : SILGenFunction :=
  is.foldl insert s

def stopEmittingTopLevelCode (s : SILGenFunction) : SILGenFunction :=
  { s with IsEmittingTopLevelCode := false }

end SILGenFunction

namespace SILGenModule

/-- The lambda `emitTopLevelReturnValue` of `emitEntryPoint`. -/
def emitTopLevelReturnValue (returnType : SILType) (TopLevelSGF : SILGenFunction)
    (value : Nat) : SILValue × SILGenFunction :=
  let litType := SILType.getBuiltinIntegerType 32
  let (retValue, s) := TopLevelSGF.createIntegerLiteral litType value
  if litType != returnType then s.createStruct returnType retValue else (retValue, s)

/-- Lines 42-98 of `emitEntryPoint(SF, TopLevel)`: the emitter is set up, the
parameters are created, the top-level code is lowered and the epilog block is
emitted.  `none` stands for the dereference of a null block or a missing
parameter type. -/
def lowerTopLevel (env : EntryPointEnv) (SF : SourceFile) (SGM : SILGenModule)
    (TopLevel : SILFunction) : Option SILGenFunction := do
  let (TopLevel, SGM) :=
    if SF.isAsyncContext then
      let asyncEntryRef := SILDeclRef.getAsyncMainFileEntryPoint SGM.getASTContext
      let (asyncTopLevel, SGM1) := SGM.getFunction asyncEntryRef
      (asyncTopLevel, env.emitAsyncMainThreadStart asyncEntryRef TopLevel SGM1)
    else (TopLevel, SGM)
  let TopLevelSGF := env.prepareEpilog
    { env.newSILGenFunction SGM TopLevel with IsEmittingTopLevelCode := true }
  let TopLevelSGF ←
    if SF.isAsyncContext then
      let (executor, s) := env.emitMainExecutor TopLevelSGF
      let (some_, s) := s.createOptionalSome executor
        (SILType.getOptionalType executor.getType)
      pure { s with ExpectedExecutor := some some_ }
    else do
      let entry ← TopLevelSGF.insertionBB
      let argc ← TopLevelSGF.paramTypes[0]?
      let argv ← TopLevelSGF.paramTypes[1]?
      let (_, s) := TopLevelSGF.createFunctionArgument entry argc
      let (_, s) := s.createFunctionArgument entry argv
      pure s
  let TopLevelSGF := env.visitSourceFile SF TopLevelSGF
  let TopLevelSGF := TopLevelSGF.stopEmittingTopLevelCode
  pure (env.emitEpilogBB TopLevelSGF)

/-- Lines 100-119 of `emitEntryPoint(SF, TopLevel)`: the function `exit` (for
the asynchronous entry point) and the type of the exit code.  `none` stands for
`front()` of an empty parameter list. -/
def exitConvention (isAsyncTopLevel : Bool) (TopLevelSGF : SILGenFunction) :
    Option (Option SILFunction × SILType × SILGenFunction) :=
  if isAsyncTopLevel then do
    let exitFuncDecl := match TopLevelSGF.SGM.getExit with
      | some d => d
      | none => synthesizeExit
    let (exitFunc, SGM1) := TopLevelSGF.SGM.getFunction (SILDeclRef.ofFuncDecl exitFuncDecl)
    let param ← exitFunc.loweredType.parameters.head?
    pure (some exitFunc, SILType.getPrimitiveObjectType param, { TopLevelSGF with SGM := SGM1 })
  else pure (none, TopLevelSGF.resultType, TopLevelSGF)

/-- Lines 155-176 of `emitEntryPoint(SF, TopLevel)`, "Emit the rethrow block":
under a saved insertion point, the block logs the error, ends its lifetime,
runs the cleanups and branches to the return block with exit code 1.  `none`
stands for the use of a null block or a missing argument. -/
def emitRethrowBlock (env : EntryPointEnv) (returnType : SILType) (returnBB rethrowBB : BlockId)
    (TopLevelSGF : SILGenFunction) : Option SILGenFunction := do
  let savedIP := TopLevelSGF.insertionBB
  let s := TopLevelSGF.setInsertionPoint rethrowBB
  -- Log the error.
  let rethrow ← s.findBlock rethrowBB
  let error ← rethrow.args.head?
  let s := s.createBuiltin "errorInMain" SILType.getEmptyTupleType [error]
  -- Then end the lifetime of the error.
  let s := s.createEndLifetime error
  -- Signal an abnormal exit by returning 1.
  let s := s.insertAll (env.cleanupsForReturn s)
  let (one, s) := emitTopLevelReturnValue returnType s 1
  let s := s.createBranch returnBB [one]
  pure { s with insertionBB := savedIP }

/-- Lines 143-177 of `emitEntryPoint(SF, TopLevel)`, "Handle the implicit
rethrow block": an unused rethrow block is erased; otherwise the unified return
block is created, the fallthrough path branches to it, and the rethrow block is
emitted.  The result is the value to return and the emitter. -/
def handleRethrowBlock (env : EntryPointEnv) (returnType : SILType)
    (returnValue : Option SILValue) (rethrowBB : BlockId) (TopLevelSGF : SILGenFunction) :
    Option (Option SILValue × SILGenFunction) :=
  -- If the rethrow block wasn't actually used, just remove it.
  if TopLevelSGF.pred_empty rethrowBB then
    pure (returnValue, TopLevelSGF.eraseBasicBlock rethrowBB)
  else do
    -- Otherwise, we need to produce a unified return block.
    let (returnBB, s) := TopLevelSGF.createBasicBlock
    let s ←
      if s.hasValidInsertionPoint then do
        let v ← returnValue
        pure (s.createBranch returnBB [v])
      else pure s
    let (phi, s) := s.createPhiArgument returnBB returnType .owned
    let s := s.emitBlock returnBB
    let s ← emitRethrowBlock env returnType returnBB rethrowBB s
    pure (some phi, s)

/-- Lines 179-189 of `emitEntryPoint(SF, TopLevel)`, "Return.".  `none` stands
for the use of a null value. -/
def emitReturn (isAsyncTopLevel : Bool) (exitFunc : Option SILFunction)
    (returnValue : Option SILValue) (TopLevelSGF : SILGenFunction) : Option SILGenFunction :=
  if TopLevelSGF.hasValidInsertionPoint then do
    let v ← returnValue
    if isAsyncTopLevel then do
      let exitFunc ← exitFunc
      let (exitCall, s) := TopLevelSGF.createFunctionRef exitFunc
      let s := s.createApply exitCall [v]
      pure s.createUnreachable
    else pure (TopLevelSGF.createReturn v)
  else pure TopLevelSGF

/-- Lines 100-189 of `emitEntryPoint(SF, TopLevel)`: the exit code of the
fallthrough path, the rethrow block, the unified return block and the return
or the call to `exit`. -/
def finishEntryPoint (env : EntryPointEnv) (isAsyncTopLevel : Bool)
    (TopLevelSGF : SILGenFunction) : Option SILGenFunction := do
  let (exitFunc, returnType, s) ← exitConvention isAsyncTopLevel TopLevelSGF
  -- Fallthrough should signal a normal exit by returning 0.
  let (returnValue, s) :=
    if s.hasValidInsertionPoint then
      let (v, s1) := emitTopLevelReturnValue returnType s 0
      (some v, s1)
    else (none, s)
  -- Handle the implicit rethrow block.
  let rethrowBB ← s.ThrowDest
  let s := { s with ThrowDest := none }
  let (returnValue, s) ← handleRethrowBlock env returnType returnValue rethrowBB s
  -- Return.
  emitReturn isAsyncTopLevel exitFunc returnValue s

/-- The overload `emitEntryPoint(SourceFile *SF, SILFunction *TopLevel)`.  The
profiler, the magic function name, the verification of the finished function
and the emission of lazy conformances do not change the state recorded
here. -/
def emitEntryPoint (env : EntryPointEnv) (SF : SourceFile) (SGM : SILGenModule)
    (TopLevel : SILFunction) : Option SILGenFunction := do
  let TopLevelSGF ← lowerTopLevel env SF SGM TopLevel
  finishEntryPoint env SF.isAsyncContext TopLevelSGF

/-- `TopLevel->setBare(IsBare)` on the function of that name in the module. -/
def setBare (SGM : SILGenModule) (name : String) : SILGenModule :=
  { SGM with M := ⟨SGM.M.functions.map (fun f => if f.name == name then f.setBare else f)⟩ }

/-- How a call of `emitEntryPoint(SourceFile *SF)` ends: the assertion stops
the compiler (in the module state `SGM`), or emission runs.  The assertion
can stop the compiler only in a build in which `assert` is compiled in. -/
inductive EntryPointOutcome where
  | assertionFailure (message : String) (SGM : SILGenModule)
  | emitted (TopLevelSGF : Option SILGenFunction)
deriving DecidableEq, Repr

/-- The overload `emitEntryPoint(SourceFile *SF)`.  Its first statement is a
C `assert`: with `NDEBUG` defined (`NDEBUG = true`) the statement is compiled
out, its condition is not evaluated, and the function goes on to
`getFunction`, `setBare` and the emission whatever the module holds. -/
def emitEntryPointOfSourceFile (NDEBUG : Bool) (env : EntryPointEnv) (SF : SourceFile)
    (SGM : SILGenModule) : EntryPointOutcome :=
  if !NDEBUG && (SGM.M.lookUpFunction SGM.getASTContext.entryPointFunctionName).isSome then
    .assertionFailure "already emitted toplevel?!" SGM
  else
    let mainEntryRef := SILDeclRef.getMainFileEntryPoint SGM.getASTContext
    let (TopLevel, SGM1) := SGM.getFunction mainEntryRef
    let SGM2 := SGM1.setBare TopLevel.name
    .emitted (emitEntryPoint env SF SGM2 TopLevel.setBare)

end SILGenModule

/-! ## `SILGenFunction::emitCallToMain` -/

namespace SILGenFunction

/-- Modelled from the spec: `emitLoad` is not part of this file.  The error is
"loaded from an indirect out-parameter" (spec, 4.4): one load at the insertion
point. -/
def emitLoad (s : SILGenFunction) (address : SILValue) : SILValue × SILGenFunction :=
  let ty := address.getType.getObjectType
  (.load ty address, s.insert (.load ty address))

/-- Modelled from the spec: `emitSemanticStore` is not part of this file.  The
error is "materialized into addressable storage" (spec, 4.4): one store at the
insertion point. -/
def emitSemanticStore (s : SILGenFunction) (src dest : SILValue) : SILGenFunction :=
  s.insert (.store src dest)

/-- Modelled from the spec: `emitApplyOfLibraryIntrinsic` is not part of this
file.  It "invokes the generically-typed diagnostic/logging call" (spec, 4.4):
a reference to the intrinsic and its application at the insertion point. -/
def emitApplyOfLibraryIntrinsic (s : SILGenFunction) (fn : FuncDecl) (args : List SILValue) :
    SILGenFunction :=
  (s.insert (.functionRef fn.name)).insert (.apply (.functionRef fn.name) args)

/-- Lines 229-253 of `emitCallToMain`: the exit block returns the exit value
(synchronous `main`) or calls `exit` with it (asynchronous `main`).  `none`
stands for `front()` of an empty parameter list. -/
def emitMainExit (s : SILGenFunction) (mainFunc : FuncDecl) (exitCode : SILValue) :
    Option SILGenFunction :=
  if !mainFunc.hasAsync then
    let returnType := s.resultType
    let (exitCode, s) :=
      if exitCode.getType != returnType then s.createStruct returnType exitCode
      else (exitCode, s)
    pure (s.createReturn exitCode)
  else do
    let exitFuncDecl := match s.SGM.getExit with
      | some d => d
      | none => synthesizeExit
    let (exitSILFunc, SGM2) := s.SGM.getFunction (SILDeclRef.ofFuncDecl exitFuncDecl)
    let s := { s with SGM := SGM2 }
    let param ← exitSILFunc.loweredType.parameters.head?
    let retType := SILType.getPrimitiveObjectType param
    let (exitCode, s) := s.createStruct retType exitCode
    let (exitCall, s) := s.createFunctionRef exitSILFunc
    let s := s.createApply exitCall [exitCode]
    pure s.createUnreachable

/-- Lines 280-322 of `emitCallToMain`, "Log the error". -/
def emitErrorInMain (s : SILGenFunction) (errorType : SILType) (error : SILValue) :
    SILGenFunction :=
  if errorType.astType == .errorExistential then
    -- Load the indirect error, if needed.
    let (error, s) :=
      match s.IndirectErrorResult with
      | some address => s.emitLoad address
      | none => (error, s)
    -- Call the errorInMain entrypoint, which takes an existential error.
    s.createBuiltin "errorInMain" SILType.getEmptyTupleType [error]
  else
    -- Call the _errorInMainTyped entrypoint, which handles arbitrary error types.
    -- Generic errors are passed indirectly.
    let (error, s) :=
      if !error.getType.isAddress then
        let (tmp, s) := s.createAllocStack error.getType.getObjectType
        (tmp, s.emitSemanticStore error tmp)
      else (error, s)
    s.emitApplyOfLibraryIntrinsic s.SGM.getASTContext.errorInMainTyped [error]

/-- Lines 255-335 of `emitCallToMain`, "Form a call to the main function": a
`try_apply` with a success and a failure block when `main` has an error result,
else an `apply` and the branch to the exit block.  `none` stands for the use of
a missing error result. -/
def formCallToMain (s : SILGenFunction) (mainFunction : SILFunction)
    (mainFunctionRef metatype : SILValue) (entryBlock exitBlock : BlockId) :
    Option SILGenFunction :=
  let builtinInt32Type := SILType.getBuiltinIntegerType 32
  let mainFnType := mainFunction.loweredType
  if mainFnType.hasErrorResult then do
    let (successBlock, s) := s.createBasicBlock
    let s := s.setInsertionPoint successBlock
    let (_, s) := s.createPhiArgument successBlock SILType.getEmptyTupleType .none
    let (zeroReturnValue, s) := s.createIntegerLiteral builtinInt32Type 0
    let s := s.createBranch exitBlock [zeroReturnValue]
    let errorType ← mainFnType.errorResult
    let (failureBlock, s) := s.createBasicBlock
    let s := s.setInsertionPoint failureBlock
    let (error, s) :=
      match s.IndirectErrorResult with
      | some e => (e, s)
      | none => s.createPhiArgument failureBlock errorType .owned
    -- Log the error.
    let s := s.emitErrorInMain errorType error
    let s := s.createUnreachable
    let s := s.setInsertionPoint entryBlock
    pure (s.createTryApply mainFunctionRef [metatype] successBlock failureBlock)
  else
    let s := s.setInsertionPoint entryBlock
    let s := s.createApply mainFunctionRef [metatype]
    let (returnValue, s) := s.createIntegerLiteral builtinInt32Type 0
    pure (s.createBranch exitBlock [returnValue])

/-- Generate code for calling the given main function.  `none` stands for the
use of a null insertion block (and see `emitMainExit`, `formCallToMain`). -/
def emitCallToMain (s0 : SILGenFunction) (mainFunc : FuncDecl) : Option SILGenFunction := do
  let entryBlock ← s0.insertionBB
  let (mainFunction, SGM1) := s0.SGM.getFunction (SILDeclRef.ofFuncDecl mainFunc)
  let s := { s0 with SGM := SGM1 }
  let (metatype, s) := s.createMetatype (SILType.getPrimitiveObjectType mainFunc.selfType)
  let (mainFunctionRef, s) := s.createFunctionRef mainFunction
  let builtinInt32Type := SILType.getBuiltinIntegerType 32
  -- Set up the exit block, which will either return the exit value
  -- (for synchronous main()) or call exit() with the return value (for
  -- asynchronous main()).
  let (exitBlock, s) := s.createBasicBlock
  let (exitCode, s) := s.createPhiArgument exitBlock builtinInt32Type .none
  let s := s.setInsertionPoint exitBlock
  let s ← s.emitMainExit mainFunc exitCode
  -- Form a call to the main function.
  s.formCallToMain mainFunction mainFunctionRef metatype entryBlock exitBlock

end SILGenFunction

/-! ## Notions used to state the theorems -/

/-- The block with instructions added at its end. -/
def SILBasicBlock.appendInsts (is : List SILInstruction) (b : SILBasicBlock) : SILBasicBlock :=
  { b with insts := b.insts ++ is }

/-- The block with one more argument. -/
def SILBasicBlock.appendArg (v : SILValue) (b : SILBasicBlock) : SILBasicBlock :=
  { b with args := b.args ++ [v] }

/-- The instructions `emitTopLevelReturnValue` creates for an exit code. -/
def exitCodeInsts (returnType : SILType) (value : Nat) : List SILInstruction :=
  if SILType.getBuiltinIntegerType 32 != returnType then
    [.integerLiteral (SILType.getBuiltinIntegerType 32) value,
      .struct returnType (.integerLiteral (SILType.getBuiltinIntegerType 32) value)]
  else [.integerLiteral (SILType.getBuiltinIntegerType 32) value]

/-- The value `emitTopLevelReturnValue` returns for an exit code: the 32-bit
integer literal, wrapped in a struct of the return type when that type is not
`Builtin.Int32`. -/
def exitCodeValue (returnType : SILType) (value : Nat) : SILValue :=
  if SILType.getBuiltinIntegerType 32 != returnType then
    .struct returnType (.integerLiteral (SILType.getBuiltinIntegerType 32) value)
  else .integerLiteral (SILType.getBuiltinIntegerType 32) value

/-- The function the asynchronous entry point calls to exit, and the module
after it was looked up: the `exit` the module knows, or the synthesized one. -/
def SILGenModule.exitFunction (SGM : SILGenModule) : SILFunction × SILGenModule :=
  SGM.getFunction (SILDeclRef.ofFuncDecl
    (match SGM.getExit with
      | some d => d
      | none => synthesizeExit))

/-- The instructions that end the function: a return of `v`, or for the
asynchronous entry point the call of `exit` with `v` and `unreachable`. -/
def exitSequence (isAsync : Bool) (exitName : String) (v : SILValue) : List SILInstruction :=
  if isAsync then
    [.functionRef exitName, .apply (.functionRef exitName) [v], .unreachable]
  else [.ret v]

/-- One step of control flow in the function: `b` is the `a` of a block that
has `b` among the successors of its instructions. -/
def SILGenFunction.Edge (s : SILGenFunction) (a b : BlockId) : Prop :=
  ∃ blk ∈ s.blocks, blk.id = a ∧ b ∈ blk.successors

/-- Reachability of a block from a block along control-flow edges. -/
def SILGenFunction.Reachable (s : SILGenFunction) (a b : BlockId) : Prop :=
  Relation.ReflTransGen s.Edge a b

/-- The type of the exit code `emitEntryPoint` works with (lines 100-119): the
type of the first parameter of `exit` for the asynchronous entry point, else the
result type of the function.  `none` when `exit` has no parameter. -/
def SILGenFunction.entryReturnType (isAsync : Bool) (s : SILGenFunction) : Option SILType :=
  if isAsync then
    s.SGM.exitFunction.1.loweredType.parameters.head?.map SILType.getPrimitiveObjectType
  else some s.resultType

/-- The emitter after `exit` was looked up for the asynchronous entry point. -/
def SILGenFunction.withExitFunction (isAsync : Bool) (s : SILGenFunction) : SILGenFunction :=
  if isAsync then { s with SGM := s.SGM.exitFunction.2 } else s

/-- The blocks after the builder inserted `is` with insertion block `ip`. -/
def blocksAfterInsert (ip : Option BlockId) (is : List SILInstruction)
    (l : List SILBasicBlock) : List SILBasicBlock :=
  match ip with
  | none => l
  | some bb => SILGenFunction.modifyBlock bb (SILBasicBlock.appendInsts is) l

/-- The instructions `emitCallToMain` puts into the exit block whose parameter
is `phi`: for an asynchronous `main` the exit code wrapped in a struct of the
parameter type of `exit`, the call of `exit` and `unreachable`; for a
synchronous `main` the return of the exit code, wrapped in a struct of the
result type when that type differs from the type of `phi`. -/
def mainExitInsts (hasAsync : Bool) (resultType : SILType) (exitName : String)
    (exitParam : SILType) (phi : SILValue) : List SILInstruction :=
  if hasAsync then
    [.struct exitParam phi, .functionRef exitName,
      .apply (.functionRef exitName) [.struct exitParam phi], .unreachable]
  else if phi.getType != resultType then
    [.struct resultType phi, .ret (.struct resultType phi)]
  else [.ret phi]

/-- The instructions `emitErrorInMain` emits to log the error: with `indirect`
the indirect error result of the emitter and `intrinsic` the typed logging
entry point. -/
def errorInMainInsts (indirect : Option SILValue) (intrinsic : FuncDecl)
    (errorType : SILType) (error : SILValue) : List SILInstruction :=
  if errorType.astType == .errorExistential then
    match indirect with
    | some address =>
      [.load address.getType.getObjectType address,
        .builtin "errorInMain" SILType.getEmptyTupleType
          [.load address.getType.getObjectType address]]
    | none => [.builtin "errorInMain" SILType.getEmptyTupleType [error]]
  else if !error.getType.isAddress then
    [.allocStack error.getType.getObjectType,
      .store error (.allocStack error.getType.getObjectType),
      .functionRef intrinsic.name,
      .apply (.functionRef intrinsic.name) [.allocStack error.getType.getObjectType]]
  else [.functionRef intrinsic.name, .apply (.functionRef intrinsic.name) [error]]

/-- The error value of the failure block of `emitCallToMain`: the indirect
error result if there is one, else the argument of the block. -/
def failureError (indirect : Option SILValue) (failureBlock : BlockId) (errorType : SILType) :
    SILValue :=
  match indirect with
  | some e => e
  | none => .phiArgument failureBlock 0 errorType .owned

/-- The arguments of the failure block of `emitCallToMain`. -/
def failureArgs (indirect : Option SILValue) (failureBlock : BlockId) (errorType : SILType) :
    List SILValue :=
  match indirect with
  | some _ => []
  | none => [.phiArgument failureBlock 0 errorType .owned]

/-- The event that hands an element to its lowering routine. -/
def ASTNode.loweringEvent : ASTNode → Event
  | .stmt S => .emitStmt S
  | .expr E => .emitIgnoredExpr E
  | .decl D => .visit D

/-! ## Concrete inputs used to exercise the theorems -/

namespace Examples

def ctx : ASTContext :=
  { entryPointFunctionName := "main"
    asyncEntryPointFunctionName := "async_Main"
    entryPointType := ⟨[.nominal "Int32", .nominal "UnsafeMutablePointer"], none⟩
    errorInMainTyped :=
      { name := "_errorInMainTyped", params := [.nominal "E"], result := .never,
        hasAsync := false, throws := false, isImplicit := false, externC := false,
        selfType := .emptyTuple, loweredType := ⟨[.nominal "E"], none⟩ } }

def SGM : SILGenModule := { M := ⟨[]⟩, ctx := ctx, exitDecl := none }

def Int32 : SILType := SILType.getPrimitiveObjectType (.nominal "Int32")

/-- An emitter whose function has the single block `bb0`, which is the
insertion block. -/
def SGF : SILGenFunction :=
  { SGM := SGM
    F := ⟨"main", true, ctx.entryPointType⟩
    resultType := Int32
    paramTypes := [Int32, SILType.getPrimitiveObjectType (.nominal "UnsafeMutablePointer")]
    blocks := [⟨0, [], []⟩]
    nextBlock := 1
    insertionBB := some 0
    ThrowDest := none
    VarLocs := []
    IndirectErrorResult := none
    ExpectedExecutor := none
    IsEmittingTopLevelCode := true }

/-- Statement lowering in which a statement with an odd `id` ends the current
block with a terminator (as a `return` or `throw` does) and anything else emits
one ordinary instruction. -/
def lowering : Lowering :=
  { emitProfilerIncrement := fun _ s => s
    emitStmt := fun S s =>
      if S.id % 2 = 1 then s.insertTerminator (.other true []) else s.insert (.other false [])
    emitIgnoredExpr := fun _ s => s.insert (.other false [])
    visit := fun _ s => s.insert (.other false []) }

/-- The error value a throwing statement hands to the rethrow block. -/
def thrownError : SILValue := .external 7 ⟨.errorExistential, false⟩

/-- Top-level code that does nothing. -/
def bodyEmpty : SILGenFunction → SILGenFunction := fun s => s

/-- Top-level code with a call that may throw: the current block ends in a
`try_apply` whose error successor is the rethrow block, and emission goes on in
the normal successor. -/
def bodyMayThrow : SILGenFunction → SILGenFunction := fun s =>
  match s.ThrowDest with
  | some r =>
    let (normal, s1) := s.createBasicBlock
    (s1.createTryApply (.functionRef "f") [] normal r).setInsertionPoint normal
  | none => s

/-- Top-level code that always throws: the current block ends in a branch to
the rethrow block. -/
def bodyThrows : SILGenFunction → SILGenFunction := fun s =>
  match s.ThrowDest with
  | some r => s.createBranch r [thrownError]
  | none => s

/-- Top-level code that ends in a call that never returns. -/
def bodyNoReturn : SILGenFunction → SILGenFunction := fun s =>
  (s.createApply (.functionRef "fatalError") []).createUnreachable

/-- Collaborators of `emitEntryPoint`: the emitter of a function starts with an
entry block, `prepareEpilog` creates the rethrow block with the error as its
argument, and the top-level code is lowered by `body`. -/
def env (body : SILGenFunction → SILGenFunction) (cleanups : List SILInstruction) :
    EntryPointEnv :=
  { emitAsyncMainThreadStart := fun _ _ M => M
    newSILGenFunction := fun M F => { SGF with SGM := M, F := F }
    prepareEpilog := fun s =>
      let (r, s1) := s.createBasicBlock
      let (_, s2) := s1.createPhiArgument r ⟨.errorExistential, false⟩ .owned
      { s2 with ThrowDest := some r }
    emitMainExecutor := fun s =>
      (.external 0 ⟨.nominal "Executor", false⟩, s.insert (.other false []))
    visitSourceFile := fun _ s => body s
    emitEpilogBB := fun s => s
    cleanupsForReturn := fun _ => cleanups }

/-- The entry function `main` as `emitEntryPoint(SF)` hands it over. -/
def TopLevel : SILFunction := ⟨"main", true, ctx.entryPointType⟩

/-- A synchronous `main` that can throw an existential error. -/
def throwingMain : FuncDecl :=
  { name := "$main", params := [], result := .emptyTuple, hasAsync := false, throws := true,
    isImplicit := false, externC := false, selfType := .nominal "App",
    loweredType := ⟨[], some ⟨.errorExistential, false⟩⟩ }

/-- A synchronous `main` that cannot throw. -/
def plainMain : FuncDecl :=
  { name := "$main", params := [], result := .emptyTuple, hasAsync := false, throws := false,
    isImplicit := false, externC := false, selfType := .nominal "App",
    loweredType := ⟨[], none⟩ }

/-- An asynchronous `main` that can throw an existential error. -/
def asyncMain : FuncDecl :=
  { name := "$main", params := [], result := .emptyTuple, hasAsync := true, throws := true,
    isImplicit := false, externC := false, selfType := .nominal "App",
    loweredType := ⟨[], some ⟨.errorExistential, false⟩⟩ }

/-- The function `emitCallToMain` builds for `throwingMain`. -/
def throwingMainIR : SILGenFunction :=
  (SILGenFunction.emitCallToMain SGF throwingMain).getD SGF

/-- The emitter after the top-level code `body` of a source file was lowered. -/
def lowered (body : SILGenFunction → SILGenFunction) (isAsync : Bool) : SILGenFunction :=
  (SILGenModule.lowerTopLevel (env body []) ⟨isAsync⟩ SGM TopLevel).getD SGF

/-- The emitter `emitEntryPoint(SF)` leaves for a source file with empty
top-level code. -/
def emittedMain : SILGenFunction :=
  ((SILGenModule.emitEntryPoint (env bodyEmpty []) ⟨false⟩
    ((SGM.getFunction (SILDeclRef.getMainFileEntryPoint ctx)).2.setBare "main")
    (SGM.getFunction (SILDeclRef.getMainFileEntryPoint ctx)).1.setBare)).getD SGF

end Examples

open SILGenFunction SILGenTopLevel SILGenModule

/-! ## Theorems: `visitTopLevelCodeDecl` -/

theorem visitElements_append_completed (L : Lowering) (pre post : List ASTNode)
    (s s1 : SILGenFunction) (ev1 : List Event)
    (h : visitElements L pre s = ⟨.completed, s1, ev1⟩) :
    visitElements L (pre ++ post) s =
      ⟨(visitElements L post s1).exit, (visitElements L post s1).SGF,
        ev1 ++ (visitElements L post s1).events⟩ := by
  induction pre generalizing s ev1 with
  | nil =>
    simp [visitElements] at h
    obtain ⟨rfl, rfl⟩ := h
    simp
  | cons e pre ih =>
    rw [List.cons_append]
    cases hv : s.hasValidInsertionPoint <;> cases e <;>
      simp only [visitElements, hv, Bool.not_false, Bool.not_true, if_true, if_false,
        Bool.false_eq_true] at h ⊢
    · split at h
      · rename_i hi; simp only [hi, if_true]; exact ih _ _ h
      · simp at h
    · split at h
      · rename_i hi; simp only [hi, if_true]; exact ih _ _ h
      · simp at h
    · simp at h
    all_goals
      simp only [VisitResult.mk.injEq] at h
      obtain ⟨h1, h2, h3⟩ := h
      rw [ih _ (visitElements L pre _).events (by rw [← h1, ← h2])]
      simp [← h3]


theorem visitElements_completed_no_diagnose (L : Lowering) (l : List ASTNode)
    (s : SILGenFunction) (h : (visitElements L l s).exit = .completed) :
    ∀ ev ∈ (visitElements L l s).events, ev.isDiagnose = false := by
  induction l generalizing s with
  | nil => simp [visitElements]
  | cons e l ih =>
    cases hv : s.hasValidInsertionPoint <;> cases e <;>
      simp only [visitElements, hv, Bool.not_false, Bool.not_true, if_true, if_false,
        Bool.false_eq_true] at h ⊢
    · split at h
      · rename_i hi; simp only [hi, if_true]; exact ih _ h
      · simp at h
    · split at h
      · rename_i hi; simp only [hi, if_true]; exact ih _ h
      · simp at h
    · simp at h
    all_goals
      intro ev hev
      rcases List.mem_cons.1 hev with rfl | hev
      · rfl
      · exact ih _ h ev hev

theorem visitElements_lowering_sublist (L : Lowering) (l : List ASTNode) (s : SILGenFunction) :
    ((visitElements L l s).events.filter Event.isLowering).Sublist
      (l.map ASTNode.loweringEvent) := by
  induction l generalizing s with
  | nil => simp [visitElements]
  | cons e l ih =>
    cases hv : s.hasValidInsertionPoint <;> cases e <;>
      simp only [visitElements, hv, Bool.not_false, Bool.not_true, if_true, if_false,
        Bool.false_eq_true, List.map_cons]
    · split
      · exact (ih s).cons _
      · simp [Event.isLowering]
    · split
      · exact (ih s).cons _
      · simp [Event.isLowering]
    · simp [Event.isLowering]
    all_goals
      simp only [Event.isLowering, List.filter_cons_of_pos, ASTNode.loweringEvent]
      exact (ih _).cons₂ _

/-- C1: let `ESD` be an explicit statement or expression of a top-level code
block, reached while the insertion point is invalid: the loop over the elements
`pre` before it, started after the profiler increment of the block, runs to
their end and leaves the state `s1`, with events `ev1`, and `s1` has no valid
insertion point.  Then the visit returns early in the state `s1`; its events
are the profiler increment, `ev1`, and one `unreachable_code` diagnostic at the
start of `ESD`; that diagnostic is the only one of the block; and the
elements handed to `emitStmt`, `emitIgnoredExpr` or the declaration visitor are
exactly those handed over for the elements before `ESD`: neither `ESD` nor an
element after it is lowered. -/
theorem visitTopLevelCodeDecl_unreachable_explicit (L : Lowering)
    (pre post : List ASTNode) (ESD : ASTNode) (SGF s1 : SILGenFunction) (ev1 : List Event)
    (hreach : visitElements L pre (L.emitProfilerIncrement (pre ++ ESD :: post) SGF) =
      ⟨.completed, s1, ev1⟩)
    (hinvalid : s1.hasValidInsertionPoint = false)
    (hexplicit : (∃ S, ESD = .stmt S ∧ S.isImplicit = false) ∨
      (∃ E, ESD = .expr E ∧ E.isImplicit = false)) :
    visitTopLevelCodeDecl L ⟨pre ++ ESD :: post⟩ SGF =
        ⟨.returned, s1,
          .emitProfilerIncrement :: ev1 ++ [.diagnose ESD.getStartLoc .unreachable_code]⟩ ∧
      (visitTopLevelCodeDecl L ⟨pre ++ ESD :: post⟩ SGF).events.filter Event.isDiagnose =
        [.diagnose ESD.getStartLoc .unreachable_code] ∧
      (visitTopLevelCodeDecl L ⟨pre ++ ESD :: post⟩ SGF).events.filter Event.isLowering =
        ev1.filter Event.isLowering ∧
      (ev1.filter Event.isLowering).Sublist (pre.map ASTNode.loweringEvent) := by
  have hexit : (visitElements L pre
      (L.emitProfilerIncrement (pre ++ ESD :: post) SGF)).exit = .completed := by
    rw [hreach]
  have hev : (visitElements L pre
      (L.emitProfilerIncrement (pre ++ ESD :: post) SGF)).events = ev1 := by
    rw [hreach]
  have hnd := visitElements_completed_no_diagnose L pre _ hexit
  have hsub := visitElements_lowering_sublist L pre
    (L.emitProfilerIncrement (pre ++ ESD :: post) SGF)
  rw [hev] at hnd hsub
  have hstep : visitElements L (ESD :: post) s1 =
      ⟨.returned, s1, [.diagnose ESD.getStartLoc .unreachable_code]⟩ := by
    rcases hexplicit with ⟨S, rfl, hS⟩ | ⟨E, rfl, hE⟩
    · simp [visitElements, hinvalid, hS]
    · simp [visitElements, hinvalid, hE]
  have hfilter : ev1.filter Event.isDiagnose = [] := by
    rw [List.filter_eq_nil_iff]
    intro ev hmem
    simp [hnd ev hmem]
  have hall : visitTopLevelCodeDecl L ⟨pre ++ ESD :: post⟩ SGF =
      ⟨.returned, s1,
        .emitProfilerIncrement :: ev1 ++ [.diagnose ESD.getStartLoc .unreachable_code]⟩ := by
    simp only [visitTopLevelCodeDecl]
    rw [visitElements_append_completed L pre (ESD :: post) _ s1 _ hreach, hstep]
    simp
  refine ⟨hall, ?_, ?_, hsub⟩
  · rw [hall]
    simp [List.filter_append, hfilter, Event.isDiagnose]
  · rw [hall]
    simp [List.filter_append, Event.isLowering]

/-- Witness for C1: a block whose first statement ends the current block and
whose second, explicit statement is then unreachable. -/
theorem visitTopLevelCodeDecl_unreachable_explicit_witness :
    visitTopLevelCodeDecl Examples.lowering
        ⟨[.stmt ⟨1, false, 10⟩] ++ .stmt ⟨2, false, 20⟩ :: [.expr ⟨3, false, 30⟩]⟩ Examples.SGF =
        ⟨.returned, Examples.SGF.insertTerminator (.other true []),
          .emitProfilerIncrement :: [.emitStmt ⟨1, false, 10⟩] ++
            [.diagnose (ASTNode.stmt ⟨2, false, 20⟩).getStartLoc .unreachable_code]⟩ ∧
      (visitTopLevelCodeDecl Examples.lowering
        ⟨[.stmt ⟨1, false, 10⟩] ++ .stmt ⟨2, false, 20⟩ :: [.expr ⟨3, false, 30⟩]⟩
        Examples.SGF).events.filter Event.isDiagnose =
        [.diagnose (ASTNode.stmt ⟨2, false, 20⟩).getStartLoc .unreachable_code] ∧
      (visitTopLevelCodeDecl Examples.lowering
        ⟨[.stmt ⟨1, false, 10⟩] ++ .stmt ⟨2, false, 20⟩ :: [.expr ⟨3, false, 30⟩]⟩
        Examples.SGF).events.filter Event.isLowering =
        [Event.emitStmt ⟨1, false, 10⟩].filter Event.isLowering ∧
      ([Event.emitStmt ⟨1, false, 10⟩].filter Event.isLowering).Sublist
        ([ASTNode.stmt ⟨1, false, 10⟩].map ASTNode.loweringEvent) :=
  visitTopLevelCodeDecl_unreachable_explicit Examples.lowering
    [.stmt ⟨1, false, 10⟩] [.expr ⟨3, false, 30⟩] (.stmt ⟨2, false, 20⟩) Examples.SGF
    (Examples.SGF.insertTerminator (.other true []))
    [.emitStmt ⟨1, false, 10⟩]
    (by decide) (by decide) (Or.inl ⟨⟨2, false, 20⟩, rfl, rfl⟩)

/-- C10, as the code has it: let `ESD` be reached while the insertion point is
invalid (the loop over the elements `pre` before it, started after the profiler
increment of the block, runs to their end and leaves the state `s1`, with events
`ev1`, and `s1` has no valid insertion point).  If `ESD` is an implicit
statement or expression it is skipped, with no diagnostic and no lowering, and
the visit goes on with the elements after it in the same state.  If `ESD` is a
declaration it is not skipped, implicit or not: it gets the `unreachable_code`
diagnostic and ends the visit of the block. -/
theorem visitTopLevelCodeDecl_unreachable_implicit (L : Lowering)
    (pre post : List ASTNode) (ESD : ASTNode) (SGF s1 : SILGenFunction) (ev1 : List Event)
    (hreach : visitElements L pre (L.emitProfilerIncrement (pre ++ ESD :: post) SGF) =
      ⟨.completed, s1, ev1⟩)
    (hinvalid : s1.hasValidInsertionPoint = false) :
    (((∃ S, ESD = .stmt S ∧ S.isImplicit = true) ∨ (∃ E, ESD = .expr E ∧ E.isImplicit = true)) →
      visitTopLevelCodeDecl L ⟨pre ++ ESD :: post⟩ SGF =
        ⟨(visitElements L post s1).exit, (visitElements L post s1).SGF,
          .emitProfilerIncrement :: ev1 ++ (visitElements L post s1).events⟩) ∧
    ((∃ D, ESD = .decl D) →
      visitTopLevelCodeDecl L ⟨pre ++ ESD :: post⟩ SGF =
        ⟨.returned, s1,
          .emitProfilerIncrement :: ev1 ++ [.diagnose ESD.getStartLoc .unreachable_code]⟩) := by
  constructor
  · intro himplicit
    have hstep : visitElements L (ESD :: post) s1 = visitElements L post s1 := by
      rcases himplicit with ⟨S, rfl, hS⟩ | ⟨E, rfl, hE⟩
      · simp [visitElements, hinvalid, hS]
      · simp [visitElements, hinvalid, hE]
    simp only [visitTopLevelCodeDecl]
    rw [visitElements_append_completed L pre (ESD :: post) _ s1 _ hreach, hstep]
    simp
  · rintro ⟨D, rfl⟩
    simp only [visitTopLevelCodeDecl]
    rw [visitElements_append_completed L pre (.decl D :: post) _ s1 _ hreach]
    simp [visitElements, hinvalid]

/-- Witness for C10: an implicit expression after a statement that ended the
block is skipped, and the explicit expression after it is then diagnosed. -/
theorem visitTopLevelCodeDecl_unreachable_implicit_witness :
    visitTopLevelCodeDecl Examples.lowering
        ⟨[.stmt ⟨1, false, 10⟩] ++ .expr ⟨2, true, 20⟩ :: [.expr ⟨3, false, 30⟩]⟩ Examples.SGF =
      ⟨.returned, Examples.SGF.insertTerminator (.other true []),
        [.emitProfilerIncrement, .emitStmt ⟨1, false, 10⟩, .diagnose 30 .unreachable_code]⟩ :=
  (visitTopLevelCodeDecl_unreachable_implicit Examples.lowering
    [.stmt ⟨1, false, 10⟩] [.expr ⟨3, false, 30⟩] (.expr ⟨2, true, 20⟩) Examples.SGF
    (Examples.SGF.insertTerminator (.other true []))
    [.emitStmt ⟨1, false, 10⟩]
    (by decide) (by decide)).1 (Or.inr ⟨⟨2, true, 20⟩, rfl, rfl⟩)

/-- Counterexample to C10 as stated: an implicit declaration reached while the
insertion point is invalid is not skipped.  The block is a statement that ends
the current block, an implicit declaration and an implicit expression; the
declaration gets the `unreachable_code` diagnostic at its start location 20 and
the visit returns, which is not what the block without the declaration does. -/
theorem visitTopLevelCodeDecl_implicit_decl_is_diagnosed :
    visitTopLevelCodeDecl Examples.lowering
        ⟨[.stmt ⟨1, false, 10⟩, .decl ⟨2, true, 20⟩, .expr ⟨3, true, 30⟩]⟩ Examples.SGF =
        ⟨.returned, Examples.SGF.insertTerminator (.other true []),
          [.emitProfilerIncrement, .emitStmt ⟨1, false, 10⟩, .diagnose 20 .unreachable_code]⟩ ∧
      visitTopLevelCodeDecl Examples.lowering
        ⟨[.stmt ⟨1, false, 10⟩, .decl ⟨2, true, 20⟩, .expr ⟨3, true, 30⟩]⟩ Examples.SGF ≠
      visitTopLevelCodeDecl Examples.lowering
        ⟨[.stmt ⟨1, false, 10⟩, .expr ⟨3, true, 30⟩]⟩ Examples.SGF := by
  decide

/-! ## Theorems: `emitEntryPoint(SourceFile *SF)` -/

theorem lookUpFunction_getFunction (SGM : SILGenModule) (ref : SILDeclRef) :
    ((SGM.getFunction ref).2.M.lookUpFunction ref.mangledName).isSome = true := by
  simp only [SILGenModule.getFunction]
  cases h : SGM.M.lookUpFunction ref.mangledName with
  | some f => simp [h]
  | none =>
    simp only [SILModule.lookUpFunction, List.find?_append]
    simp only [SILModule.lookUpFunction] at h
    simp [h]

theorem lookUpFunction_setBare (SGM : SILGenModule) (name x : String) :
    ((SGM.setBare name).M.lookUpFunction x).isSome = (SGM.M.lookUpFunction x).isSome := by
  have hcomp : ((fun f : SILFunction => f.name == x) ∘
      fun f => if f.name == name then f.setBare else f) = (fun f => f.name == x) := by
    funext f
    simp only [Function.comp]
    split <;> rfl
  simp only [SILGenModule.setBare, SILModule.lookUpFunction, List.find?_map, hcomp]
  cases List.find? (fun f => f.name == x) SGM.M.functions <;> rfl

/-- C8 (amended): `emitEntryPoint(SF)` checks its precondition by a C `assert`.
In a build with assertions (`NDEBUG` not defined): if the module has a function
with the entry-point function name, the assertion "already emitted toplevel?!"
fails in the unchanged module, so no function is created or modified; emission
is reached only when no such function existed; and a second invocation, on the
module a first emission left (which keeps the context and the functions the
module had when the body was emitted), fails the assertion.  In a build
without assertions, or when no such function exists, the entry function is
looked up or created, marked bare and emitted, and the module in which its
emission starts has a function of that name. -/
theorem emitEntryPointOfSourceFile_precondition (NDEBUG : Bool) (env : EntryPointEnv)
    (SF : SourceFile) (SGM : SILGenModule) :
    (NDEBUG = false →
      (SGM.M.lookUpFunction SGM.ctx.entryPointFunctionName).isSome = true →
      emitEntryPointOfSourceFile NDEBUG env SF SGM =
        .assertionFailure "already emitted toplevel?!" SGM) ∧
    ((NDEBUG = true ∨ (SGM.M.lookUpFunction SGM.ctx.entryPointFunctionName).isSome = false) →
      emitEntryPointOfSourceFile NDEBUG env SF SGM =
          .emitted (emitEntryPoint env SF
            ((SGM.getFunction (SILDeclRef.getMainFileEntryPoint SGM.ctx)).2.setBare
              (SGM.getFunction (SILDeclRef.getMainFileEntryPoint SGM.ctx)).1.name)
            (SGM.getFunction (SILDeclRef.getMainFileEntryPoint SGM.ctx)).1.setBare) ∧
        ((((SGM.getFunction (SILDeclRef.getMainFileEntryPoint SGM.ctx)).2.setBare
          (SGM.getFunction (SILDeclRef.getMainFileEntryPoint SGM.ctx)).1.name).M.lookUpFunction
            SGM.ctx.entryPointFunctionName).isSome = true)) ∧
    (NDEBUG = false → ∀ r, emitEntryPointOfSourceFile NDEBUG env SF SGM = .emitted r →
      SGM.M.lookUpFunction SGM.ctx.entryPointFunctionName = none) ∧
    (∀ final, emitEntryPointOfSourceFile NDEBUG env SF SGM = .emitted (some final) →
      final.SGM.ctx = SGM.ctx →
      (∀ name, (((SGM.getFunction (SILDeclRef.getMainFileEntryPoint SGM.ctx)).2.setBare
          (SGM.getFunction (SILDeclRef.getMainFileEntryPoint SGM.ctx)).1.name).M.lookUpFunction
            name).isSome = true → (final.SGM.M.lookUpFunction name).isSome = true) →
      ∀ env2 SF2, emitEntryPointOfSourceFile false env2 SF2 final.SGM =
        .assertionFailure "already emitted toplevel?!" final.SGM) := by
  have hstart : ((((SGM.getFunction (SILDeclRef.getMainFileEntryPoint SGM.ctx)).2.setBare
      (SGM.getFunction (SILDeclRef.getMainFileEntryPoint SGM.ctx)).1.name).M.lookUpFunction
        SGM.ctx.entryPointFunctionName).isSome = true) := by
    rw [lookUpFunction_setBare]
    exact lookUpFunction_getFunction SGM (SILDeclRef.getMainFileEntryPoint SGM.ctx)
  refine ⟨?_, ?_, ?_, ?_⟩
  · intro hn h
    simp [emitEntryPointOfSourceFile, SILGenModule.getASTContext, h, hn]
  · intro h
    refine ⟨?_, hstart⟩
    rcases h with h | h
    · simp [emitEntryPointOfSourceFile, SILGenModule.getASTContext, h]
    · simp [emitEntryPointOfSourceFile, SILGenModule.getASTContext, h]
  · intro hn r h
    cases hl : SGM.M.lookUpFunction SGM.ctx.entryPointFunctionName with
    | none => rfl
    | some f => simp [emitEntryPointOfSourceFile, SILGenModule.getASTContext, hl, hn] at h
  · intro final _ hctx hkeep env2 SF2
    have := hkeep _ hstart
    rw [← hctx] at this
    simp [emitEntryPointOfSourceFile, SILGenModule.getASTContext, this]

/-- Witness for C8: in a module without functions the entry point of a source
file with empty top-level code is emitted; in a build with assertions a second
invocation on the module this leaves fails the assertion. -/
theorem emitEntryPointOfSourceFile_precondition_witness :
    emitEntryPointOfSourceFile false (Examples.env Examples.bodyEmpty []) ⟨false⟩
          Examples.SGM =
        .emitted (some Examples.emittedMain) ∧
      emitEntryPointOfSourceFile false (Examples.env Examples.bodyEmpty []) ⟨false⟩
          Examples.emittedMain.SGM =
        .assertionFailure "already emitted toplevel?!" Examples.emittedMain.SGM :=
  ⟨by decide,
    (emitEntryPointOfSourceFile_precondition false (Examples.env Examples.bodyEmpty [])
      ⟨false⟩ Examples.SGM).2.2.2 Examples.emittedMain (by decide) (by decide)
      (by
        intro name h
        have hn : name = "main" := by
          by_contra hne
          have hb : ("main" == name) = false := by
            simp only [beq_eq_false_iff_ne, ne_eq]
            exact fun e => hne e.symm
          revert h
          simp [Examples.SGM, Examples.ctx, SILGenModule.getFunction, SILGenModule.setBare,
            SILModule.lookUpFunction, SILDeclRef.getMainFileEntryPoint, SILFunction.setBare, hb]
        subst hn
        decide)
      (Examples.env Examples.bodyEmpty []) ⟨false⟩⟩

/-- Counterexample to C8 as stated: the module a first emission left has a
function named `main`, and in a build without assertions the second invocation
does not fail: it runs the emission again and ends with an emitter of the
entry function. -/
theorem emitEntryPointOfSourceFile_second_call_without_assertions :
    (Examples.emittedMain.SGM.M.lookUpFunction
        Examples.emittedMain.SGM.ctx.entryPointFunctionName).isSome = true ∧
      emitEntryPointOfSourceFile true (Examples.env Examples.bodyEmpty []) ⟨false⟩
          Examples.emittedMain.SGM ≠
        .assertionFailure "already emitted toplevel?!" Examples.emittedMain.SGM ∧
      emitEntryPointOfSourceFile true (Examples.env Examples.bodyEmpty []) ⟨false⟩
          Examples.emittedMain.SGM =
        .emitted (some Examples.emittedMain) := by
  decide

/-! ## The builder on the list of blocks -/

theorem modifyBlock_appendInsts_nil (bb : BlockId) (l : List SILBasicBlock) :
    modifyBlock bb (SILBasicBlock.appendInsts []) l = l := by
  induction l with
  | nil => rfl
  | cons b l ih =>
    simp only [modifyBlock, List.map_cons] at ih ⊢
    rw [ih]
    split <;> simp [SILBasicBlock.appendInsts]

theorem modifyBlock_appendInsts_appendInsts (bb : BlockId) (is1 is2 : List SILInstruction)
    (l : List SILBasicBlock) :
    modifyBlock bb (SILBasicBlock.appendInsts is2) (modifyBlock bb (SILBasicBlock.appendInsts is1) l) =
      modifyBlock bb (SILBasicBlock.appendInsts (is1 ++ is2)) l := by
  simp only [modifyBlock, List.map_map]
  apply List.map_congr_left
  intro b _
  by_cases h : b.id = bb <;> simp [h, SILBasicBlock.appendInsts]

theorem insert_some (s : SILGenFunction) (i : SILInstruction) (bb : BlockId)
    (h : s.insertionBB = some bb) :
    s.insert i = { s with blocks := modifyBlock bb (SILBasicBlock.appendInsts [i]) s.blocks } := by
  simp only [SILGenFunction.insert, h]
  rfl

theorem insert_none (s : SILGenFunction) (i : SILInstruction) (h : s.insertionBB = none) :
    s.insert i = s := by
  simp only [SILGenFunction.insert, h]

theorem insertAll_some (s : SILGenFunction) (is : List SILInstruction) (bb : BlockId)
    (h : s.insertionBB = some bb) :
    s.insertAll is =
      { s with blocks := modifyBlock bb (SILBasicBlock.appendInsts is) s.blocks } := by
  induction is generalizing s with
  | nil => simp [insertAll, modifyBlock_appendInsts_nil]
  | cons i is ih =>
    simp only [insertAll, List.foldl_cons] at ih ⊢
    rw [ih (s.insert i) (by rw [insert_some s i bb h]; exact h)]
    rw [insert_some s i bb h]
    simp [modifyBlock_appendInsts_appendInsts]

theorem insertAll_none (s : SILGenFunction) (is : List SILInstruction)
    (h : s.insertionBB = none) : s.insertAll is = s := by
  induction is generalizing s with
  | nil => rfl
  | cons i is ih =>
    simp only [insertAll, List.foldl_cons] at ih ⊢
    rw [insert_none s i h]
    exact ih s h

theorem emitTopLevelReturnValue_eq (returnType : SILType) (s : SILGenFunction) (value : Nat) :
    emitTopLevelReturnValue returnType s value =
      (exitCodeValue returnType value, s.insertAll (exitCodeInsts returnType value)) := by
  simp only [emitTopLevelReturnValue, exitCodeValue, exitCodeInsts, createIntegerLiteral,
    createStruct]
  split <;> simp [insertAll]

theorem filter_modifyBlock (bb r : BlockId) (f : SILBasicBlock → SILBasicBlock)
    (hid : ∀ b, (f b).id = b.id) (l : List SILBasicBlock) :
    (modifyBlock bb f l).filter (fun b => b.id != r) =
      modifyBlock bb f (l.filter (fun b => b.id != r)) := by
  induction l with
  | nil => rfl
  | cons b l ih =>
    simp only [modifyBlock, List.map_cons, List.filter_cons] at ih ⊢
    have hb : (if b.id = bb then f b else b).id = b.id := by
      split
      · exact hid b
      · rfl
    rw [hb]
    split
    · simp [ih]
    · exact ih

theorem find?_modifyBlock (bb x : BlockId) (f : SILBasicBlock → SILBasicBlock)
    (hid : ∀ b, (f b).id = b.id) (l : List SILBasicBlock) :
    (modifyBlock bb f l).find? (fun b => b.id == x) =
      (l.find? (fun b => b.id == x)).map (fun b => if b.id = bb then f b else b) := by
  induction l with
  | nil => rfl
  | cons b l ih =>
    simp only [modifyBlock, List.map_cons, List.find?_cons] at ih ⊢
    have hb : (if b.id = bb then f b else b).id = b.id := by
      split
      · exact hid b
      · rfl
    rw [hb]
    cases b.id == x
    · simpa using ih
    · simp

theorem successors_appendInsts (is : List SILInstruction) (b : SILBasicBlock) :
    (b.appendInsts is).successors = b.successors ++ is.flatMap SILInstruction.successors := by
  simp [SILBasicBlock.successors, SILBasicBlock.appendInsts]

theorem all_modifyBlock_appendInsts (l : List SILBasicBlock) (bb r : BlockId)
    (is : List SILInstruction) (h : ∀ i ∈ is, r ∉ i.successors) :
    (modifyBlock bb (SILBasicBlock.appendInsts is) l).all (fun b => !b.successors.contains r) =
      l.all (fun b => !b.successors.contains r) := by
  simp only [modifyBlock, List.all_map]
  congr 1
  funext b
  simp only [Function.comp]
  split
  · rw [successors_appendInsts]
    have : (is.flatMap SILInstruction.successors).contains r = false := by
      simp only [List.contains_eq_any_beq, List.any_eq_false, beq_iff_eq]
      intro t ht htr
      obtain ⟨i, hi, hti⟩ := List.mem_flatMap.1 ht
      exact h i hi (by rw [htr]; exact hti)
    simp only [List.contains_eq_any_beq, List.any_append] at this ⊢
    rw [this]
    simp
  · rfl

theorem exitCodeInsts_successors (returnType : SILType) (value : Nat) :
    ∀ i ∈ exitCodeInsts returnType value, i.successors = [] ∧ i.isTerminator = false := by
  intro i hi
  simp only [exitCodeInsts] at hi
  split at hi <;> simp at hi <;> rcases hi with rfl | rfl <;>
    simp [SILInstruction.successors, SILInstruction.isTerminator]

theorem insert_eq (s : SILGenFunction) (i : SILInstruction) :
    s.insert i = { s with blocks := blocksAfterInsert s.insertionBB [i] s.blocks } := by
  cases h : s.insertionBB with
  | none => rw [insert_none s i h]; cases s; simp_all [blocksAfterInsert]
  | some bb => rw [insert_some s i bb h]; simp [blocksAfterInsert, h]

theorem insertAll_eq (s : SILGenFunction) (is : List SILInstruction) :
    s.insertAll is = { s with blocks := blocksAfterInsert s.insertionBB is s.blocks } := by
  cases h : s.insertionBB with
  | none => rw [insertAll_none s is h]; cases s; simp_all [blocksAfterInsert]
  | some bb => rw [insertAll_some s is bb h]; simp [blocksAfterInsert, h]

theorem blocksAfterInsert_some (bb : BlockId) (is : List SILInstruction)
    (l : List SILBasicBlock) :
    blocksAfterInsert (some bb) is l = modifyBlock bb (SILBasicBlock.appendInsts is) l := rfl

theorem blocksAfterInsert_none (is : List SILInstruction) (l : List SILBasicBlock) :
    blocksAfterInsert none is l = l := rfl

theorem filter_modifyBlock_appendInsts (bb r : BlockId) (is : List SILInstruction)
    (l : List SILBasicBlock) :
    (modifyBlock bb (SILBasicBlock.appendInsts is) l).filter (fun b => b.id != r) =
      modifyBlock bb (SILBasicBlock.appendInsts is) (l.filter (fun b => b.id != r)) :=
  filter_modifyBlock bb r (SILBasicBlock.appendInsts is) (fun _ => rfl) l

theorem modifyBlock_append (bb : BlockId) (f : SILBasicBlock → SILBasicBlock)
    (l1 l2 : List SILBasicBlock) :
    modifyBlock bb f (l1 ++ l2) = modifyBlock bb f l1 ++ modifyBlock bb f l2 := by
  simp [modifyBlock]

theorem modifyBlock_of_ne (bb : BlockId) (f : SILBasicBlock → SILBasicBlock)
    (l : List SILBasicBlock) (h : ∀ b ∈ l, b.id ≠ bb) : modifyBlock bb f l = l := by
  induction l with
  | nil => rfl
  | cons b l ih =>
    simp only [modifyBlock, List.map_cons] at ih ⊢
    rw [ih (fun x hx => h x (List.mem_cons_of_mem _ hx)), if_neg (h b (List.mem_cons_self _ _))]

theorem modifyBlock_ids (bb : BlockId) (f : SILBasicBlock → SILBasicBlock)
    (hid : ∀ b, (f b).id = b.id) (l : List SILBasicBlock) :
    ∀ b ∈ modifyBlock bb f l, ∃ b0 ∈ l, b.id = b0.id := by
  intro b hb
  obtain ⟨b0, hb0, rfl⟩ := List.mem_map.1 hb
  refine ⟨b0, hb0, ?_⟩
  split
  · exact hid b0
  · rfl

theorem find?_of_ne (l : List SILBasicBlock) (x : BlockId) (h : ∀ b ∈ l, b.id ≠ x) :
    l.find? (fun b => b.id == x) = none := by
  simp only [List.find?_eq_none, beq_iff_eq]
  exact fun b hb => h b hb

theorem createPhiArgument_eq (s : SILGenFunction) (bb : BlockId) (ty : SILType)
    (ownership : OwnershipKind) :
    s.createPhiArgument bb ty ownership =
      (.phiArgument bb (match s.findBlock bb with
          | some b => b.args.length
          | none => 0) ty ownership,
        { s with blocks := modifyBlock bb (SILBasicBlock.appendArg
          (.phiArgument bb (match s.findBlock bb with
            | some b => b.args.length
            | none => 0) ty ownership)) s.blocks }) := rfl

/-! ## Closed forms of lines 100-189 of `emitEntryPoint` -/

theorem exitConvention_eq (isAsync : Bool) (L : SILGenFunction) (rt : SILType)
    (hrt : L.entryReturnType isAsync = some rt) :
    exitConvention isAsync L =
      some (if isAsync then some L.SGM.exitFunction.1 else none, rt,
        L.withExitFunction isAsync) := by
  cases isAsync
  · simp only [entryReturnType, Bool.false_eq_true, if_false, Option.some.injEq] at hrt
    subst hrt
    simp [exitConvention, withExitFunction]
  · simp only [entryReturnType, if_true, Option.map_eq_some'] at hrt
    obtain ⟨p, hp, rfl⟩ := hrt
    simp only [SILGenModule.exitFunction] at hp ⊢
    simp only [exitConvention, if_true, hp, withExitFunction, Option.pure_def,
      Option.bind_eq_bind, Option.some_bind]
    rfl

theorem emitReturn_valid (isAsync : Bool) (f : SILFunction) (v : SILValue)
    (s : SILGenFunction) (n : BlockId) (hip : s.insertionBB = some n) :
    emitReturn isAsync (if isAsync then some f else none) (some v) s =
      some { s with
        insertionBB := none
        blocks := modifyBlock n (SILBasicBlock.appendInsts (exitSequence isAsync f.name v))
          s.blocks } := by
  cases isAsync
  · simp only [emitReturn, hasValidInsertionPoint, hip, Option.isSome_some, if_true,
      Bool.false_eq_true, if_false, Option.pure_def, Option.bind_eq_bind, Option.some_bind,
      createReturn, insertTerminator, insert_eq, blocksAfterInsert_some, clearInsertionPoint,
      exitSequence]
  · simp only [emitReturn, hasValidInsertionPoint, hip, Option.isSome_some, if_true,
      Option.pure_def, Option.bind_eq_bind, Option.some_bind,
      createFunctionRef, createApply, createUnreachable,
      insertTerminator, insert_eq, blocksAfterInsert_some, clearInsertionPoint,
      exitSequence, modifyBlock_appendInsts_appendInsts, List.cons_append, List.nil_append]

theorem emitReturn_invalid (isAsync : Bool) (f : Option SILFunction) (v : Option SILValue)
    (s : SILGenFunction) (hip : s.insertionBB = none) :
    emitReturn isAsync f v s = some s := by
  simp [emitReturn, hasValidInsertionPoint, hip]

theorem emitRethrowBlock_eq (env : EntryPointEnv) (rt : SILType) (n r : BlockId)
    (s : SILGenFunction) (rb : SILBasicBlock) (err : SILValue)
    (hrb : s.findBlock r = some rb) (herr : rb.args.head? = some err) :
    ∃ sC, emitRethrowBlock env rt n r s =
      some { s with
        blocks := modifyBlock r
          (SILBasicBlock.appendInsts
            ([.builtin "errorInMain" SILType.getEmptyTupleType [err], .endLifetime err] ++
              env.cleanupsForReturn sC ++ exitCodeInsts rt 1 ++
              [.branch n [exitCodeValue rt 1]]))
          s.blocks } := by
  have hrb2 : (s.setInsertionPoint r).findBlock r = some rb := hrb
  refine ⟨((s.setInsertionPoint r).createBuiltin "errorInMain" SILType.getEmptyTupleType
    [err]).createEndLifetime err, ?_⟩
  simp only [emitRethrowBlock, hrb2, herr, Option.pure_def, Option.bind_eq_bind,
    Option.some_bind, emitTopLevelReturnValue_eq]
  generalize env.cleanupsForReturn _ = cl
  simp only [createBranch, createEndLifetime, createBuiltin, insertTerminator, insertAll_eq,
    insert_eq, setInsertionPoint, blocksAfterInsert_some, clearInsertionPoint,
    modifyBlock_appendInsts_appendInsts, List.cons_append, List.nil_append, List.append_assoc]

theorem handleRethrowBlock_unused (env : EntryPointEnv) (rt : SILType)
    (rv : Option SILValue) (r : BlockId) (s : SILGenFunction)
    (hunused : s.pred_empty r = true) :
    handleRethrowBlock env rt rv r s = some (rv, s.eraseBasicBlock r) := by
  simp [handleRethrowBlock, hunused]

theorem blocksAfterInsert_ids (ip : Option BlockId) (is : List SILInstruction)
    (l : List SILBasicBlock) :
    ∀ b ∈ blocksAfterInsert ip is l, ∃ b0 ∈ l, b.id = b0.id := by
  cases ip with
  | none => intro b hb; exact ⟨b, hb, rfl⟩
  | some c => exact modifyBlock_ids c (SILBasicBlock.appendInsts is) (fun _ => rfl) l

theorem find?_blocksAfterInsert_args (ip : Option BlockId) (is : List SILInstruction)
    (l : List SILBasicBlock) (x : BlockId) (b : SILBasicBlock)
    (h : l.find? (fun b => b.id == x) = some b) :
    ∃ b1, (blocksAfterInsert ip is l).find? (fun b => b.id == x) = some b1 ∧
      b1.args = b.args := by
  cases ip with
  | none => exact ⟨b, h, rfl⟩
  | some c =>
    rw [blocksAfterInsert_some, find?_modifyBlock c x (SILBasicBlock.appendInsts is) (fun _ => rfl), h]
    refine ⟨_, rfl, ?_⟩
    by_cases hbc : b.id = c <;> simp [hbc, SILBasicBlock.appendInsts]

theorem handleRethrowBlock_used (env : EntryPointEnv) (rt : SILType)
    (rv : Option SILValue) (v0 : SILValue) (r : BlockId) (s : SILGenFunction)
    (rb : SILBasicBlock) (err : SILValue)
    (hused : s.pred_empty r = false)
    (hrb : s.findBlock r = some rb) (herr : rb.args.head? = some err)
    (hfresh : ∀ b ∈ s.blocks, b.id ≠ s.nextBlock)
    (hipfresh : ∀ c, s.insertionBB = some c → c ≠ s.nextBlock)
    (hrv : s.insertionBB.isSome = true → rv = some v0) :
    ∃ sC, handleRethrowBlock env rt rv r s =
      some (some (.phiArgument s.nextBlock 0 rt .owned),
        { s with
          nextBlock := s.nextBlock + 1
          insertionBB := some s.nextBlock
          blocks :=
            modifyBlock r
              (SILBasicBlock.appendInsts
                ([.builtin "errorInMain" SILType.getEmptyTupleType [err], .endLifetime err] ++
                  env.cleanupsForReturn sC ++ exitCodeInsts rt 1 ++
                  [.branch s.nextBlock [exitCodeValue rt 1]]))
              (blocksAfterInsert s.insertionBB [.branch s.nextBlock [v0]] s.blocks) ++
            [⟨s.nextBlock, [.phiArgument s.nextBlock 0 rt .owned], []⟩] }) := by
  have hrn : r ≠ s.nextBlock := by
    simp only [findBlock] at hrb
    have hmem := List.mem_of_find?_eq_some hrb
    have hid := List.find?_some hrb
    simp only [beq_iff_eq] at hid
    rw [← hid]
    exact hfresh rb hmem
  -- the blocks after the fallthrough branch
  have hX : ∀ b ∈ blocksAfterInsert s.insertionBB [.branch s.nextBlock [v0]] s.blocks,
      b.id ≠ s.nextBlock := by
    intro b hb
    obtain ⟨b0, hb0, hid⟩ := blocksAfterInsert_ids _ _ _ b hb
    rw [hid]
    exact hfresh b0 hb0
  obtain ⟨rb1, hrb1, hargs⟩ := find?_blocksAfterInsert_args s.insertionBB
    [.branch s.nextBlock [v0]] s.blocks r rb hrb
  have hfind : (blocksAfterInsert s.insertionBB [.branch s.nextBlock [v0]] s.blocks ++
      [(⟨s.nextBlock, [], []⟩ : SILBasicBlock)]).find? (fun b => b.id == s.nextBlock) =
      some ⟨s.nextBlock, [], []⟩ := by
    rw [List.find?_append, find?_of_ne _ _ hX]
    simp
  have hfindr : (blocksAfterInsert s.insertionBB [.branch s.nextBlock [v0]] s.blocks ++
      [(⟨s.nextBlock, [.phiArgument s.nextBlock 0 rt .owned], []⟩ : SILBasicBlock)]).find?
        (fun b => b.id == r) = some rb1 := by
    rw [List.find?_append, hrb1]
    rfl
  obtain ⟨sC, hsC⟩ := emitRethrowBlock_eq env rt s.nextBlock r
    { s with
      nextBlock := s.nextBlock + 1
      insertionBB := some s.nextBlock
      blocks := blocksAfterInsert s.insertionBB [.branch s.nextBlock [v0]] s.blocks ++
        [⟨s.nextBlock, [.phiArgument s.nextBlock 0 rt .owned], []⟩] } rb1 err hfindr
    (by rw [hargs]; exact herr)
  refine ⟨sC, ?_⟩
  simp only [modifyBlock_append] at hsC
  rw [modifyBlock_of_ne r _ [⟨s.nextBlock, _, []⟩] (by
    intro b hb
    simp only [List.mem_singleton] at hb
    subst hb
    exact fun h => hrn h.symm)] at hsC
  have hnew : modifyBlock s.nextBlock
      (SILBasicBlock.appendArg (.phiArgument s.nextBlock 0 rt .owned))
      (blocksAfterInsert s.insertionBB [.branch s.nextBlock [v0]] s.blocks ++
        [⟨s.nextBlock, [], []⟩]) =
      blocksAfterInsert s.insertionBB [.branch s.nextBlock [v0]] s.blocks ++
        [⟨s.nextBlock, [.phiArgument s.nextBlock 0 rt .owned], []⟩] := by
    rw [modifyBlock_append, modifyBlock_of_ne s.nextBlock _ _ hX]
    simp [modifyBlock, SILBasicBlock.appendArg]
  cases hip : s.insertionBB with
  | none =>
    simp only [hip, blocksAfterInsert_none] at hsC hfind hnew
    simp only [handleRethrowBlock, hused, Bool.false_eq_true, if_false, createBasicBlock,
      hasValidInsertionPoint, hip, Option.isSome_none, Option.pure_def, Option.bind_eq_bind,
      Option.some_bind, createPhiArgument_eq, findBlock, hfind, emitBlock, setInsertionPoint,
      List.length_nil, hnew, hsC, blocksAfterInsert_none]
  | some c =>
    have hc := hipfresh c hip
    have hrv2 := hrv (by simp [hip])
    subst hrv2
    simp only [hip, blocksAfterInsert_some] at hsC hfind hnew
    have hcnew : modifyBlock c (SILBasicBlock.appendInsts [.branch s.nextBlock [v0]])
        [(⟨s.nextBlock, [], []⟩ : SILBasicBlock)] = [⟨s.nextBlock, [], []⟩] :=
      modifyBlock_of_ne c _ _ (by
        intro b hb
        simp only [List.mem_singleton] at hb
        subst hb
        exact fun h => hc h.symm)
    simp only [handleRethrowBlock, hused, Bool.false_eq_true, if_false, createBasicBlock,
      hasValidInsertionPoint, hip, Option.isSome_some, if_true, Option.pure_def,
      Option.bind_eq_bind, Option.some_bind, createBranch, insertTerminator, insert_eq,
      blocksAfterInsert_some, clearInsertionPoint, modifyBlock_append, hcnew,
      createPhiArgument_eq, findBlock, hfind, emitBlock, setInsertionPoint,
      List.length_nil]
    rw [← modifyBlock_append, hnew, hsC]
    rfl

theorem withExitFunction_fields (isAsync : Bool) (L : SILGenFunction) :
    (L.withExitFunction isAsync).blocks = L.blocks ∧
      (L.withExitFunction isAsync).insertionBB = L.insertionBB ∧
      (L.withExitFunction isAsync).ThrowDest = L.ThrowDest ∧
      (L.withExitFunction isAsync).nextBlock = L.nextBlock ∧
      (L.withExitFunction isAsync).resultType = L.resultType := by
  cases isAsync <;> simp [withExitFunction]

theorem finishEntryPoint_unused (env : EntryPointEnv) (isAsync : Bool)
    (L : SILGenFunction) (r : BlockId) (rt : SILType)
    (hrt : L.entryReturnType isAsync = some rt)
    (hthrow : L.ThrowDest = some r)
    (hunused : L.pred_empty r = true) :
    finishEntryPoint env isAsync L =
      some { L.withExitFunction isAsync with
        ThrowDest := none
        insertionBB := none
        blocks := blocksAfterInsert L.insertionBB
          (exitCodeInsts rt 0 ++
            exitSequence isAsync L.SGM.exitFunction.1.name (exitCodeValue rt 0))
          (L.blocks.filter (fun b => b.id != r)) } := by
  obtain ⟨hWb, hWi, hWt, -, -⟩ := withExitFunction_fields isAsync L
  simp only [finishEntryPoint, exitConvention_eq isAsync L rt hrt, Option.pure_def,
    Option.bind_eq_bind, Option.some_bind]
  generalize L.SGM.exitFunction.1 = f
  generalize L.withExitFunction isAsync = W at hWb hWi hWt ⊢
  rw [hthrow] at hWt
  simp only [pred_empty] at hunused
  cases hip : L.insertionBB with
  | none =>
    rw [hip] at hWi
    simp only [hasValidInsertionPoint, hWi, Option.isSome_none, Bool.false_eq_true,
      if_false, hWt, Option.some_bind, handleRethrowBlock, pred_empty, hWb, hunused, if_true,
      Option.pure_def, eraseBasicBlock, emitReturn, blocksAfterInsert_none]
  | some c =>
    rw [hip] at hWi
    have hpe : (modifyBlock c (SILBasicBlock.appendInsts (exitCodeInsts rt 0)) L.blocks).all
        (fun b => !b.successors.contains r) = true := by
      rw [all_modifyBlock_appendInsts _ c r _ (fun i hi => by
        rw [(exitCodeInsts_successors rt 0 i hi).1]; simp)]
      exact hunused
    simp only [hasValidInsertionPoint, hWi, Option.isSome_some, if_true,
      emitTopLevelReturnValue_eq, insertAll_eq, blocksAfterInsert_some, hWt,
      Option.some_bind, handleRethrowBlock, pred_empty, hWb, hpe, Option.pure_def,
      eraseBasicBlock]
    rw [emitReturn_valid isAsync f _ _ c rfl]
    simp only [filter_modifyBlock_appendInsts, modifyBlock_appendInsts_appendInsts]

theorem finishEntryPoint_used (env : EntryPointEnv) (isAsync : Bool)
    (L : SILGenFunction) (r : BlockId) (rt : SILType) (rb : SILBasicBlock) (err : SILValue)
    (hrt : L.entryReturnType isAsync = some rt)
    (hthrow : L.ThrowDest = some r)
    (hused : L.pred_empty r = false)
    (hrb : L.findBlock r = some rb) (herr : rb.args.head? = some err)
    (hfresh : ∀ b ∈ L.blocks, b.id ≠ L.nextBlock)
    (hipfresh : ∀ c, L.insertionBB = some c → c ≠ L.nextBlock) :
    ∃ sC, finishEntryPoint env isAsync L =
      some { L.withExitFunction isAsync with
        ThrowDest := none
        insertionBB := none
        nextBlock := L.nextBlock + 1
        blocks :=
          modifyBlock r
            (SILBasicBlock.appendInsts
              ([.builtin "errorInMain" SILType.getEmptyTupleType [err], .endLifetime err] ++
                env.cleanupsForReturn sC ++ exitCodeInsts rt 1 ++
                [.branch L.nextBlock [exitCodeValue rt 1]]))
            (blocksAfterInsert L.insertionBB
              (exitCodeInsts rt 0 ++ [.branch L.nextBlock [exitCodeValue rt 0]]) L.blocks) ++
          [⟨L.nextBlock, [.phiArgument L.nextBlock 0 rt .owned],
            exitSequence isAsync L.SGM.exitFunction.1.name
              (.phiArgument L.nextBlock 0 rt .owned)⟩] } := by
  obtain ⟨hWb, hWi, hWt, hWn, -⟩ := withExitFunction_fields isAsync L
  simp only [finishEntryPoint, exitConvention_eq isAsync L rt hrt, Option.pure_def,
    Option.bind_eq_bind, Option.some_bind]
  generalize L.SGM.exitFunction.1 = f
  generalize L.withExitFunction isAsync = W at hWb hWi hWt hWn ⊢
  rw [hthrow] at hWt
  simp only [pred_empty] at hused
  simp only [findBlock] at hrb
  -- the emitter in which the rethrow block is handled
  have key : ∀ (s : SILGenFunction) (rv : Option SILValue),
      s.blocks = blocksAfterInsert L.insertionBB (exitCodeInsts rt 0) L.blocks →
      s.insertionBB = L.insertionBB → s.nextBlock = L.nextBlock →
      (s.insertionBB.isSome = true → rv = some (exitCodeValue rt 0)) →
      ∃ sC, (handleRethrowBlock env rt rv r s).bind
          (fun a => emitReturn isAsync (if isAsync = true then some f else none) a.1 a.2) =
        some { s with
          insertionBB := none
          nextBlock := L.nextBlock + 1
          blocks :=
            modifyBlock r
              (SILBasicBlock.appendInsts
                ([.builtin "errorInMain" SILType.getEmptyTupleType [err], .endLifetime err] ++
                  env.cleanupsForReturn sC ++ exitCodeInsts rt 1 ++
                  [.branch L.nextBlock [exitCodeValue rt 1]]))
              (blocksAfterInsert L.insertionBB
                (exitCodeInsts rt 0 ++ [.branch L.nextBlock [exitCodeValue rt 0]]) L.blocks) ++
            [⟨L.nextBlock, [.phiArgument L.nextBlock 0 rt .owned],
              exitSequence isAsync f.name (.phiArgument L.nextBlock 0 rt .owned)⟩] } := by
    intro s rv hsb hsi hsn hrv
    have hsids : ∀ b ∈ s.blocks, ∃ b0 ∈ L.blocks, b.id = b0.id := by
      rw [hsb]
      exact blocksAfterInsert_ids _ _ _
    have hsfresh : ∀ b ∈ s.blocks, b.id ≠ s.nextBlock := by
      intro b hb
      obtain ⟨b0, hb0, hid⟩ := hsids b hb
      rw [hid, hsn]
      exact hfresh b0 hb0
    have hspe : s.pred_empty r = false := by
      simp only [pred_empty, hsb]
      cases hip : L.insertionBB with
      | none => simpa [blocksAfterInsert_none] using hused
      | some c =>
        rw [blocksAfterInsert_some, all_modifyBlock_appendInsts _ c r _ (fun i hi => by
          rw [(exitCodeInsts_successors rt 0 i hi).1]; simp)]
        exact hused
    obtain ⟨rb1, hrb1, hargs⟩ := find?_blocksAfterInsert_args L.insertionBB
      (exitCodeInsts rt 0) L.blocks r rb hrb
    obtain ⟨sC, hsC⟩ := handleRethrowBlock_used env rt rv (exitCodeValue rt 0) r s rb1 err hspe
      (by simp only [findBlock, hsb]; exact hrb1) (by rw [hargs]; exact herr) hsfresh
      (by intro c hc; rw [hsn]; exact hipfresh c (by rw [← hsi]; exact hc)) hrv
    refine ⟨sC, ?_⟩
    rw [hsC, Option.some_bind]
    rw [emitReturn_valid isAsync f _ _ s.nextBlock rfl]
    simp only [modifyBlock_append, hsn, hsi, hsb]
    have hX : ∀ b ∈ modifyBlock r
        (SILBasicBlock.appendInsts
          ([.builtin "errorInMain" SILType.getEmptyTupleType [err], .endLifetime err] ++
            env.cleanupsForReturn sC ++ exitCodeInsts rt 1 ++
            [.branch L.nextBlock [exitCodeValue rt 1]]))
        (blocksAfterInsert L.insertionBB [.branch L.nextBlock [exitCodeValue rt 0]]
          (blocksAfterInsert L.insertionBB (exitCodeInsts rt 0) L.blocks)),
        b.id ≠ L.nextBlock := by
      intro b hb
      obtain ⟨b1, hb1, hid1⟩ := modifyBlock_ids r (SILBasicBlock.appendInsts _) (fun _ => rfl) _ b hb
      obtain ⟨b2, hb2, hid2⟩ := blocksAfterInsert_ids _ _ _ b1 hb1
      obtain ⟨b3, hb3, hid3⟩ := blocksAfterInsert_ids _ _ _ b2 hb2
      rw [hid1, hid2, hid3]
      exact hfresh b3 hb3
    rw [modifyBlock_of_ne L.nextBlock _ _ hX]
    have hcomb : blocksAfterInsert L.insertionBB [.branch L.nextBlock [exitCodeValue rt 0]]
        (blocksAfterInsert L.insertionBB (exitCodeInsts rt 0) L.blocks) =
        blocksAfterInsert L.insertionBB
          (exitCodeInsts rt 0 ++ [.branch L.nextBlock [exitCodeValue rt 0]]) L.blocks := by
      cases L.insertionBB with
      | none => rfl
      | some c => simp only [blocksAfterInsert_some, modifyBlock_appendInsts_appendInsts]
    rw [hcomb]
    simp [modifyBlock, SILBasicBlock.appendInsts]
  cases hip : L.insertionBB with
  | none =>
    rw [hip] at hWi
    simp only [hasValidInsertionPoint, hWi, Option.isSome_none, Bool.false_eq_true,
      if_false, hWt, Option.some_bind]
    obtain ⟨sC, hsC⟩ := key { W with ThrowDest := none } none
      (by simp [hWb, hip, blocksAfterInsert_none]) (by simp [hWi, hip]) hWn
      (by simp [hWi])
    refine ⟨sC, ?_⟩
    simpa [hWi, hip] using hsC
  | some c =>
    rw [hip] at hWi
    simp only [hasValidInsertionPoint, hWi, Option.isSome_some, if_true,
      emitTopLevelReturnValue_eq, insertAll_eq, blocksAfterInsert_some, hWt,
      Option.some_bind]
    obtain ⟨sC, hsC⟩ := key
      { W with
        blocks := modifyBlock c (SILBasicBlock.appendInsts (exitCodeInsts rt 0)) W.blocks
        ThrowDest := none }
      (some (exitCodeValue rt 0))
      (by simp [hWb, hip, blocksAfterInsert_some]) (by simp [hWi, hip]) hWn
      (by simp)
    refine ⟨sC, ?_⟩
    simpa [hWi, hip] using hsC

/-! ## Theorems: `emitMarkFunctionEscapeForTopLevelCodeGlobals` -/

theorem collectEscapes_eq (s : SILGenFunction) (captures : List CapturedValue)
    (acc : List SILValue) :
    s.collectEscapes captures acc = acc ++ s.escapingLocations captures := by
  induction captures generalizing acc with
  | nil => simp [collectEscapes, escapingLocations]
  | cons c rest ih =>
    simp only [collectEscapes, CapturedValue.getDecl, escapingLocations, List.filterMap_cons]
    cases hfind : s.findVarLoc c.decl with
    | none => simpa [escapingLocations] using ih acc
    | some loc =>
      cases haddr : loc.value.getType.isAddress
      · simpa [escapingLocations, haddr] using ih acc
      · simpa [escapingLocations, haddr] using ih (acc ++ [loc.value])

theorem findBlock_modifyBlock_self (s : SILGenFunction) (bb : BlockId) (b : SILBasicBlock)
    (f : SILBasicBlock → SILBasicBlock) (hid : ∀ x, (f x).id = x.id)
    (h : s.findBlock bb = some b) :
    ({ s with blocks := modifyBlock bb f s.blocks } : SILGenFunction).findBlock bb =
      some (f b) := by
  simp only [findBlock] at h ⊢
  generalize s.blocks = l at h
  induction l with
  | nil => simp at h
  | cons x l ih =>
    simp only [modifyBlock, List.map_cons, List.find?_cons] at h ⊢
    by_cases hx : x.id = bb
    · simp only [hx, beq_self_eq_true, if_true, hid] at h ⊢
      simp only [Option.some.injEq] at h
      simp [hid, hx, h]
    · have hx2 : (x.id == bb) = false := by simpa using hx
      simp only [hx2, hx, if_false] at h ⊢
      simpa [modifyBlock] using ih h

theorem sum_count_modifyBlock (bb : BlockId) (i : SILInstruction) (l : List SILBasicBlock)
    (b : SILBasicBlock) (hnd : (l.map (fun x => x.id)).Nodup)
    (hb : l.find? (fun x => x.id == bb) = some b) :
    ((modifyBlock bb (SILBasicBlock.appendInsts [i]) l).map
        (fun x => x.insts.countP isMarkFunctionEscape)).sum =
      (l.map (fun x => x.insts.countP isMarkFunctionEscape)).sum +
        (if isMarkFunctionEscape i then 1 else 0) := by
  induction l with
  | nil => simp at hb
  | cons x l ih =>
    simp only [List.map_cons, List.nodup_cons, List.mem_map, not_exists, not_and] at hnd
    by_cases hx : x.id = bb
    · have hrest : modifyBlock bb (SILBasicBlock.appendInsts [i]) l = l :=
        modifyBlock_of_ne bb _ l (fun y hy e => hnd.1 y hy (e.trans hx.symm))
      have hcons : modifyBlock bb (SILBasicBlock.appendInsts [i]) (x :: l) =
          SILBasicBlock.appendInsts [i] x :: modifyBlock bb (SILBasicBlock.appendInsts [i]) l := by
        simp [modifyBlock, hx]
      rw [hcons, hrest]
      simp only [List.map_cons, List.sum_cons, SILBasicBlock.appendInsts, List.countP_append,
        List.countP_cons, List.countP_nil]
      omega
    · have hx2 : (x.id == bb) = false := by simpa using hx
      have hcons : modifyBlock bb (SILBasicBlock.appendInsts [i]) (x :: l) =
          x :: modifyBlock bb (SILBasicBlock.appendInsts [i]) l := by
        simp [modifyBlock, hx]
      rw [hcons]
      simp only [List.find?_cons, hx2] at hb
      simp only [List.map_cons, List.sum_cons, ih hnd.2 hb]
      omega

theorem mem_escapingLocations (s : SILGenFunction) (captures : List CapturedValue)
    (v : SILValue) :
    v ∈ s.escapingLocations captures ↔
      ∃ c ∈ captures, ∃ loc, s.findVarLoc c.decl = some loc ∧
        loc.value.getType.isAddress = true ∧ loc.value = v := by
  simp only [escapingLocations, List.mem_filterMap]
  constructor
  · rintro ⟨c, hc, h⟩
    refine ⟨c, hc, ?_⟩
    cases hfind : s.findVarLoc c.decl with
    | none => simp [hfind] at h
    | some loc =>
      simp only [hfind] at h
      split at h
      · rename_i haddr
        exact ⟨loc, rfl, haddr, by simpa using h⟩
      · simp at h
  · rintro ⟨c, hc, loc, hfind, haddr, rfl⟩
    exact ⟨c, hc, by simp [hfind, haddr]⟩

theorem escapingLocations_ne_nil (s : SILGenFunction) (captures : List CapturedValue) :
    s.escapingLocations captures ≠ [] ↔
      ∃ c ∈ captures, ∃ loc, s.findVarLoc c.decl = some loc ∧
        loc.value.getType.isAddress = true := by
  constructor
  · intro hne
    cases hl : s.escapingLocations captures with
    | nil => exact absurd hl hne
    | cons v l =>
      obtain ⟨c, hc, loc, hfind, haddr, _⟩ :=
        (mem_escapingLocations s captures v).1 (by rw [hl]; simp)
      exact ⟨c, hc, loc, hfind, haddr⟩
  · rintro ⟨c, hc, loc, hfind, haddr⟩ hnil
    have : loc.value ∈ s.escapingLocations captures :=
      (mem_escapingLocations s captures loc.value).2 ⟨c, hc, loc, hfind, haddr, rfl⟩
    rw [hnil] at this
    simp at this

theorem emitMarkFunctionEscapeForTopLevelCodeGlobals_eq (s : SILGenFunction)
    (CI : CaptureInfo) :
    s.emitMarkFunctionEscapeForTopLevelCodeGlobals CI =
      if s.escapingLocations CI.captures = [] then s
      else s.createMarkFunctionEscape (s.escapingLocations CI.captures) := by
  simp only [emitMarkFunctionEscapeForTopLevelCodeGlobals, CaptureInfo.getCaptures,
    collectEscapes_eq, List.nil_append]
  cases s.escapingLocations CI.captures <;> simp

/-- C2 (amended): `emitMarkFunctionEscapeForTopLevelCodeGlobals` adds at most
one `mark_function_escape` instruction to the function.  It adds one if and
only if the builder has an insertion block of the function and some capture has
a `VarLocs` entry with an address-typed value; in every other case, also
without an insertion block, the emitter is unchanged.  The instruction is the
last one of the insertion block, the other blocks are unchanged, and its
operands are `escapingLocations`: the `VarLocs` values of the captures that
have an entry with an address-typed value, in capture order, so that a capture
without an entry or with a by-value location is never an operand. -/
theorem emitMarkFunctionEscapeForTopLevelCodeGlobals_spec (s : SILGenFunction)
    (CI : CaptureInfo) (hids : (s.blocks.map (fun b => b.id)).Nodup) :
    (s.emitMarkFunctionEscapeForTopLevelCodeGlobals CI).countMarkFunctionEscape ≤
      s.countMarkFunctionEscape + 1 ∧
    ((s.emitMarkFunctionEscapeForTopLevelCodeGlobals CI).countMarkFunctionEscape =
        s.countMarkFunctionEscape + 1 ↔
      (∃ bb, s.insertionBB = some bb ∧ (s.findBlock bb).isSome = true) ∧
        ∃ c ∈ CI.captures, ∃ loc, s.findVarLoc c.decl = some loc ∧
          loc.value.getType.isAddress = true) ∧
    ((s.emitMarkFunctionEscapeForTopLevelCodeGlobals CI).countMarkFunctionEscape ≠
        s.countMarkFunctionEscape + 1 →
      s.emitMarkFunctionEscapeForTopLevelCodeGlobals CI = s) ∧
    (∀ bb b, s.insertionBB = some bb → s.findBlock bb = some b →
      s.escapingLocations CI.captures ≠ [] →
      s.emitMarkFunctionEscapeForTopLevelCodeGlobals CI =
          { s with blocks := (modifyBlock bb
            (SILBasicBlock.appendInsts [.markFunctionEscape (s.escapingLocations CI.captures)])
            s.blocks) } ∧
        (s.emitMarkFunctionEscapeForTopLevelCodeGlobals CI).findBlock bb =
          some { b with insts := b.insts ++
            [.markFunctionEscape (s.escapingLocations CI.captures)] } ∧
        ∀ x, x ≠ bb →
          (s.emitMarkFunctionEscapeForTopLevelCodeGlobals CI).findBlock x = s.findBlock x) ∧
    (∀ v, v ∈ s.escapingLocations CI.captures ↔
      ∃ c ∈ CI.captures, ∃ loc, s.findVarLoc c.decl = some loc ∧
        loc.value.getType.isAddress = true ∧ loc.value = v) := by
  have hrun := emitMarkFunctionEscapeForTopLevelCodeGlobals_eq s CI
  have hne := escapingLocations_ne_nil s CI.captures
  -- the emitter is unchanged unless there is an operand and an insertion block
  have hsame : (s.escapingLocations CI.captures = [] ∨
      ∀ bb, s.insertionBB = some bb → s.findBlock bb = none) →
      s.emitMarkFunctionEscapeForTopLevelCodeGlobals CI = s := by
    intro h
    rw [hrun]
    by_cases he : s.escapingLocations CI.captures = []
    · rw [if_pos he]
    · rw [if_neg he]
      rcases h with h | h
      · exact absurd h he
      · cases hip : s.insertionBB with
        | none => exact insert_none s _ hip
        | some bb =>
          simp only [createMarkFunctionEscape]
          rw [insert_some s _ bb hip, modifyBlock_of_ne]
          intro y hy e
          have := h bb hip
          simp only [findBlock, List.find?_eq_none, beq_iff_eq] at this
          exact this y hy e
  -- with both, one instruction is added to the insertion block
  have hadd : ∀ bb b, s.insertionBB = some bb → s.findBlock bb = some b →
      s.escapingLocations CI.captures ≠ [] →
      s.emitMarkFunctionEscapeForTopLevelCodeGlobals CI =
        { s with blocks := (modifyBlock bb
          (SILBasicBlock.appendInsts [.markFunctionEscape (s.escapingLocations CI.captures)])
          s.blocks) } := by
    intro bb b hip _ he
    rw [hrun, if_neg he]
    simp only [createMarkFunctionEscape]
    exact insert_some s _ bb hip
  have hcount : ∀ bb b, s.insertionBB = some bb → s.findBlock bb = some b →
      s.escapingLocations CI.captures ≠ [] →
      (s.emitMarkFunctionEscapeForTopLevelCodeGlobals CI).countMarkFunctionEscape =
        s.countMarkFunctionEscape + 1 := by
    intro bb b hip hb he
    rw [hadd bb b hip hb he]
    simp only [countMarkFunctionEscape]
    rw [sum_count_modifyBlock bb _ s.blocks b hids hb]
    simp [isMarkFunctionEscape]
  have hcases : (∃ bb b, s.insertionBB = some bb ∧ s.findBlock bb = some b ∧
      s.escapingLocations CI.captures ≠ []) ∨
      (s.escapingLocations CI.captures = [] ∨
        ∀ bb, s.insertionBB = some bb → s.findBlock bb = none) := by
    by_cases he : s.escapingLocations CI.captures = []
    · exact Or.inr (Or.inl he)
    · cases hip : s.insertionBB with
      | none => exact Or.inr (Or.inr (fun bb h => by simp at h))
      | some bb =>
        cases hb : s.findBlock bb with
        | none =>
          refine Or.inr (Or.inr (fun x h => ?_))
          simp only [Option.some.injEq] at h
          rw [← h]
          exact hb
        | some b => exact Or.inl ⟨bb, b, rfl, hb, he⟩
  refine ⟨?_, ?_, ?_, ?_, mem_escapingLocations s CI.captures⟩
  · rcases hcases with ⟨bb, b, hip, hb, he⟩ | h
    · rw [hcount bb b hip hb he]
    · rw [hsame h]
      exact Nat.le_succ _
  · constructor
    · intro h
      rcases hcases with ⟨bb, b, hip, hb, he⟩ | hc
      · exact ⟨⟨bb, hip, by simp [hb]⟩, hne.1 he⟩
      · rw [hsame hc] at h
        omega
    · rintro ⟨⟨bb, hip, hb⟩, hex⟩
      cases hb2 : s.findBlock bb with
      | none => simp [hb2] at hb
      | some b => exact hcount bb b hip hb2 (hne.2 hex)
  · intro h
    rcases hcases with ⟨bb, b, hip, hb, he⟩ | hc
    · exact absurd (hcount bb b hip hb he) h
    · exact hsame hc
  · intro bb b hip hb he
    refine ⟨hadd bb b hip hb he, ?_, ?_⟩
    · rw [hadd bb b hip hb he]
      exact findBlock_modifyBlock_self s bb b _ (fun _ => rfl) hb
    · intro x hx
      rw [hadd bb b hip hb he]
      simp only [findBlock]
      rw [find?_modifyBlock bb x (SILBasicBlock.appendInsts _) (fun _ => rfl)]
      cases hf : s.blocks.find? (fun b => b.id == x) with
      | none => rfl
      | some y =>
        have hy : y.id = x := by
          have := List.find?_some hf
          simpa using this
        simp only [Option.map_some']
        rw [if_neg (by rw [hy]; exact hx)]

/-- Witness for C2: of four captures, the first and the last have an
address-typed location, the second is captured by value and the third has no
entry in `VarLocs`; with the entry block as insertion block, one
`mark_function_escape` that lists the first and the last is added to it. -/
theorem emitMarkFunctionEscapeForTopLevelCodeGlobals_spec_witness :
    (({ Examples.SGF with VarLocs :=
        [(1, ⟨.external 11 ⟨.nominal "Int", true⟩⟩), (2, ⟨.external 12 ⟨.nominal "Int", false⟩⟩),
          (4, ⟨.external 14 ⟨.nominal "Int", true⟩⟩)] } :
        SILGenFunction).emitMarkFunctionEscapeForTopLevelCodeGlobals
          ⟨[⟨1⟩, ⟨2⟩, ⟨3⟩, ⟨4⟩]⟩).findBlock 0 =
      some ⟨0, [], [.markFunctionEscape
        [.external 11 ⟨.nominal "Int", true⟩, .external 14 ⟨.nominal "Int", true⟩]]⟩ :=
  ((emitMarkFunctionEscapeForTopLevelCodeGlobals_spec
    { Examples.SGF with VarLocs :=
        [(1, ⟨.external 11 ⟨.nominal "Int", true⟩⟩), (2, ⟨.external 12 ⟨.nominal "Int", false⟩⟩),
          (4, ⟨.external 14 ⟨.nominal "Int", true⟩⟩)] }
    ⟨[⟨1⟩, ⟨2⟩, ⟨3⟩, ⟨4⟩]⟩ (by decide)).2.2.2.1 0 ⟨0, [], []⟩ rfl (by decide) (by decide)).2.1

/-- Counterexample to C2 as stated: the capture has an address-typed entry in
`VarLocs`, but the builder has no insertion block (the current block was
terminated), and no `mark_function_escape` is emitted: the emitter is
unchanged and its function has none. -/
theorem emitMarkFunctionEscapeForTopLevelCodeGlobals_without_insertion_point :
    (∃ c ∈ [(⟨1⟩ : CapturedValue)], ∃ loc,
        ({ Examples.SGF with
            insertionBB := none
            VarLocs := [(1, ⟨.external 11 ⟨.nominal "Int", true⟩⟩)] } :
          SILGenFunction).findVarLoc c.decl = some loc ∧
        loc.value.getType.isAddress = true) ∧
      ({ Examples.SGF with
          insertionBB := none
          VarLocs := [(1, ⟨.external 11 ⟨.nominal "Int", true⟩⟩)] } :
        SILGenFunction).emitMarkFunctionEscapeForTopLevelCodeGlobals ⟨[⟨1⟩]⟩ =
        { Examples.SGF with
          insertionBB := none
          VarLocs := [(1, ⟨.external 11 ⟨.nominal "Int", true⟩⟩)] } ∧
      (({ Examples.SGF with
          insertionBB := none
          VarLocs := [(1, ⟨.external 11 ⟨.nominal "Int", true⟩⟩)] } :
        SILGenFunction).emitMarkFunctionEscapeForTopLevelCodeGlobals
          ⟨[⟨1⟩]⟩).countMarkFunctionEscape = 0 :=
  ⟨⟨⟨1⟩, by simp, ⟨.external 11 ⟨.nominal "Int", true⟩⟩, by decide, by decide⟩,
    by decide, by decide⟩

/-! ## Theorems: `emitEntryPoint(SF, TopLevel)` -/

theorem emitEntryPoint_eq (env : EntryPointEnv) (SF : SourceFile) (SGM : SILGenModule)
    (TopLevel : SILFunction) (L : SILGenFunction)
    (hL : lowerTopLevel env SF SGM TopLevel = some L) :
    emitEntryPoint env SF SGM TopLevel = finishEntryPoint env SF.isAsyncContext L := by
  simp [emitEntryPoint, hL]

theorem findBlock_blocks (s : SILGenFunction) (l : List SILBasicBlock) (x : BlockId) :
    ({ s with blocks := l } : SILGenFunction).findBlock x = l.find? (fun b => b.id == x) := rfl

theorem find?_filter_ne (l : List SILBasicBlock) (x r : BlockId) (h : x ≠ r) :
    (l.filter (fun b => b.id != r)).find? (fun b => b.id == x) =
      l.find? (fun b => b.id == x) := by
  induction l with
  | nil => rfl
  | cons b l ih =>
    by_cases hb : b.id = r
    · have hbx : (b.id == x) = false := by
        simp only [beq_eq_false_iff_ne, ne_eq, hb]
        exact fun h2 => h h2.symm
      have hbr : (b.id != r) = false := by simp [hb]
      simp only [List.filter_cons, hbr, Bool.false_eq_true, if_false, List.find?_cons, hbx, ih]
    · have hbr : (b.id != r) = true := by simpa using hb
      simp only [List.filter_cons, hbr, if_true, List.find?_cons, ih]

/-- C3: synchronous source file, the insertion point valid after top-level
lowering (block `c`, with contents `cb`) and the rethrow block `r` without
predecessor.  Then `emitEntryPoint` erases the rethrow block (no block named `r`
is left), creates no block (in particular no unified exit block: every block of
the result is a block of the lowered function, and the next block identity is
unchanged), leaves the blocks other than `c` as they were, and ends `c` with
the 32-bit integer literal 0 and a single return of it: of the literal itself
when the result type is `Builtin.Int32`, else of the literal wrapped in a struct
of the result type.  No insertion point is left. -/
theorem emitEntryPoint_fallthrough_no_throw (env : EntryPointEnv) (SF : SourceFile)
    (SGM : SILGenModule) (TopLevel : SILFunction) (L : SILGenFunction) (c r : BlockId)
    (cb : SILBasicBlock)
    (hsync : SF.isAsyncContext = false)
    (hL : lowerTopLevel env SF SGM TopLevel = some L)
    (hip : L.insertionBB = some c) (hcb : L.findBlock c = some cb)
    (hthrow : L.ThrowDest = some r) (hunused : L.pred_empty r = true) (hcr : c ≠ r) :
    ∃ final, emitEntryPoint env SF SGM TopLevel = some final ∧
      (∀ b ∈ final.blocks, b.id ≠ r) ∧
      final.nextBlock = L.nextBlock ∧
      (∀ b ∈ final.blocks, ∃ b0 ∈ L.blocks, b0.id = b.id) ∧
      (∀ b ∈ final.blocks, b.id ≠ c → b ∈ L.blocks) ∧
      final.insertionBB = none ∧
      (L.resultType = SILType.getBuiltinIntegerType 32 →
        final.findBlock c = some (cb.appendInsts
          [.integerLiteral (SILType.getBuiltinIntegerType 32) 0,
            .ret (.integerLiteral (SILType.getBuiltinIntegerType 32) 0)])) ∧
      (L.resultType ≠ SILType.getBuiltinIntegerType 32 →
        final.findBlock c = some (cb.appendInsts
          [.integerLiteral (SILType.getBuiltinIntegerType 32) 0,
            .struct L.resultType (.integerLiteral (SILType.getBuiltinIntegerType 32) 0),
            .ret (.struct L.resultType
              (.integerLiteral (SILType.getBuiltinIntegerType 32) 0))])) := by
  have hrt : L.entryReturnType SF.isAsyncContext = some L.resultType := by
    simp [entryReturnType, hsync]
  refine ⟨_, by rw [emitEntryPoint_eq env SF SGM TopLevel L hL,
    finishEntryPoint_unused env _ L r _ hrt hthrow hunused], ?_⟩
  simp only [hsync, withExitFunction, Bool.false_eq_true, if_false, hip,
    blocksAfterInsert_some, exitSequence]
  have hfind : (modifyBlock c (SILBasicBlock.appendInsts
      (exitCodeInsts L.resultType 0 ++ [.ret (exitCodeValue L.resultType 0)]))
      (L.blocks.filter (fun b => b.id != r))).find? (fun b => b.id == c) =
      some (cb.appendInsts
        (exitCodeInsts L.resultType 0 ++ [.ret (exitCodeValue L.resultType 0)])) := by
    rw [find?_modifyBlock c c (SILBasicBlock.appendInsts _) (fun _ => rfl),
      find?_filter_ne _ _ _ hcr]
    simp only [findBlock] at hcb
    rw [hcb]
    have hid := List.find?_some hcb
    simp only [beq_iff_eq] at hid
    simp [hid]
  refine ⟨?_, trivial, ?_, ?_, trivial, ?_, ?_⟩
  · intro b hb
    obtain ⟨b0, hb0, hid⟩ := modifyBlock_ids c (SILBasicBlock.appendInsts _) (fun _ => rfl) _ b hb
    rw [hid]
    have := (List.mem_filter.1 hb0).2
    simpa using this
  · intro b hb
    obtain ⟨b0, hb0, hid⟩ := modifyBlock_ids c (SILBasicBlock.appendInsts _) (fun _ => rfl) _ b hb
    exact ⟨b0, (List.mem_filter.1 hb0).1, hid.symm⟩
  · intro b hb hbc
    obtain ⟨b0, hb0, rfl⟩ := List.mem_map.1 hb
    by_cases h0 : b0.id = c
    · simp only [h0, if_true] at hbc
      exact absurd h0 hbc
    · simp only [h0, if_false]
      exact (List.mem_filter.1 hb0).1
  · intro hty
    simp only [findBlock, hfind]
    simp [exitCodeInsts, exitCodeValue, hty]
  · intro hty
    simp only [findBlock, hfind]
    have : (SILType.getBuiltinIntegerType 32 != L.resultType) = true := by
      simpa using fun h => hty h.symm
    simp [exitCodeInsts, exitCodeValue, this]

/-- Witness for C3: an empty top-level body in a synchronous source file. -/
theorem emitEntryPoint_fallthrough_no_throw_witness :
    ∃ final, emitEntryPoint (Examples.env Examples.bodyEmpty []) ⟨false⟩ Examples.SGM
        Examples.TopLevel = some final ∧
      (∀ b ∈ final.blocks, b.id ≠ 1) ∧
      final.nextBlock = 2 ∧
      final.insertionBB = none ∧
      final.findBlock 0 = some ⟨0,
          [.functionArgument 0 0 Examples.Int32,
            .functionArgument 0 1 (SILType.getPrimitiveObjectType (.nominal "UnsafeMutablePointer"))],
          [.integerLiteral (SILType.getBuiltinIntegerType 32) 0,
            .struct Examples.Int32 (.integerLiteral (SILType.getBuiltinIntegerType 32) 0),
            .ret (.struct Examples.Int32
              (.integerLiteral (SILType.getBuiltinIntegerType 32) 0))]⟩ := by
  obtain ⟨final, h1, h2, h3, -, -, h6, -, h8⟩ :=
    emitEntryPoint_fallthrough_no_throw (Examples.env Examples.bodyEmpty []) ⟨false⟩
      Examples.SGM Examples.TopLevel
      { Examples.SGF with
        blocks := [⟨0, [.functionArgument 0 0 Examples.Int32,
            .functionArgument 0 1
              (SILType.getPrimitiveObjectType (.nominal "UnsafeMutablePointer"))], []⟩,
          ⟨1, [.phiArgument 1 0 ⟨.errorExistential, false⟩ .owned], []⟩]
        nextBlock := 2
        ThrowDest := some 1
        IsEmittingTopLevelCode := false }
      0 1 ⟨0, [.functionArgument 0 0 Examples.Int32,
            .functionArgument 0 1
              (SILType.getPrimitiveObjectType (.nominal "UnsafeMutablePointer"))], []⟩
      rfl (by decide) rfl (by decide) rfl (by decide) (by decide)
  exact ⟨final, h1, h2, h3, h6, h8 (by decide)⟩

theorem isTerminated_appendInsts (b : SILBasicBlock) (is : List SILInstruction)
    (t : SILInstruction) (hopen : b.isOpen = true)
    (his : ∀ i ∈ is, i.isTerminator = false) (ht : t.isTerminator = true) :
    (b.appendInsts (is ++ [t])).isTerminated = true := by
  simp only [SILBasicBlock.isOpen, List.all_eq_true, Bool.not_eq_true'] at hopen
  simp only [SILBasicBlock.isTerminated, SILBasicBlock.appendInsts, ← List.append_assoc,
    List.getLast?_append, List.getLast?_singleton, Option.or, ht, Bool.true_and,
    List.dropLast_concat, List.all_eq_true, Bool.not_eq_true', List.mem_append]
  rintro i (hi | hi)
  · exact hopen i hi
  · exact his i hi

theorem exitSequence_split (isAsync : Bool) (name : String) (v : SILValue) :
    ∃ is t, exitSequence isAsync name v = is ++ [t] ∧
      (∀ i ∈ is, i.isTerminator = false) ∧ t.isTerminator = true := by
  cases isAsync
  · exact ⟨[], .ret v, rfl, by simp, rfl⟩
  · refine ⟨[.functionRef name, .apply (.functionRef name) [v]], .unreachable, rfl, ?_, rfl⟩
    intro i hi
    simp only [List.mem_cons, List.mem_singleton, List.not_mem_nil, or_false] at hi
    rcases hi with rfl | rfl <;> rfl

theorem map_id_modifyBlock (bb : BlockId) (f : SILBasicBlock → SILBasicBlock)
    (hid : ∀ b, (f b).id = b.id) (l : List SILBasicBlock) :
    (modifyBlock bb f l).map (fun b => b.id) = l.map (fun b => b.id) := by
  simp only [modifyBlock, List.map_map]
  apply List.map_congr_left
  intro b _
  simp only [Function.comp]
  split
  · exact hid b
  · rfl

theorem map_id_blocksAfterInsert (ip : Option BlockId) (is : List SILInstruction)
    (l : List SILBasicBlock) :
    (blocksAfterInsert ip is l).map (fun b => b.id) = l.map (fun b => b.id) := by
  cases ip with
  | none => rfl
  | some c => exact map_id_modifyBlock c (SILBasicBlock.appendInsts is) (fun _ => rfl) l

theorem mem_blocksAfterInsert (ip : Option BlockId) (is : List SILInstruction)
    (l : List SILBasicBlock) (b : SILBasicBlock) (hb : b ∈ blocksAfterInsert ip is l) :
    ∃ b0 ∈ l, (ip = some b0.id ∧ b = b0.appendInsts is) ∨ (ip ≠ some b0.id ∧ b = b0) := by
  cases ip with
  | none => exact ⟨b, hb, Or.inr ⟨by simp, rfl⟩⟩
  | some c =>
    obtain ⟨b0, hb0, rfl⟩ := List.mem_map.1 hb
    refine ⟨b0, hb0, ?_⟩
    by_cases h : b0.id = c
    · exact Or.inl ⟨by rw [h], by simp [h]⟩
    · exact Or.inr ⟨by simpa using fun h2 => h h2.symm, by simp [h]⟩

/-- C9: assume that top-level lowering leaves the function in this state: the
rethrow block `r` exists, has the error as argument and is still empty; it is
not the insertion block; the insertion block, if there is one, is a block of
the function and has no terminator yet; every other block ends in exactly
one terminator; no block has the identity the next created block gets; and the
cleanups of the unwind path are not terminators.  Then, for a synchronous and
for an asynchronous source file (whose `exit` has a parameter), with or
without an insertion point and with or without a predecessor of the rethrow
block, `emitEntryPoint` finishes, leaves no insertion point, and every block of
the function ends in exactly one terminator.  If the rethrow block was unused
the blocks are those of the lowered function without the rethrow block, and no
other block is removed; otherwise no block is removed and one block, the
unified return block, is added. -/
theorem emitEntryPoint_all_blocks_terminated (env : EntryPointEnv) (SF : SourceFile)
    (SGM : SILGenModule) (TopLevel : SILFunction) (L : SILGenFunction) (r : BlockId)
    (rb : SILBasicBlock) (err : SILValue) (rt : SILType)
    (hL : lowerTopLevel env SF SGM TopLevel = some L)
    (hrt : L.entryReturnType SF.isAsyncContext = some rt)
    (hthrow : L.ThrowDest = some r)
    (hrb : L.findBlock r = some rb) (herr : rb.args.head? = some err)
    (hrempty : ∀ b ∈ L.blocks, b.id = r → b.insts = [])
    (hipne : L.insertionBB ≠ some r)
    (hipmem : ∀ c, L.insertionBB = some c → ∃ b ∈ L.blocks, b.id = c)
    (hopen : ∀ b ∈ L.blocks, L.insertionBB = some b.id → b.isOpen = true)
    (hterm : ∀ b ∈ L.blocks, b.id ≠ r → L.insertionBB ≠ some b.id → b.isTerminated = true)
    (hfresh : ∀ b ∈ L.blocks, b.id ≠ L.nextBlock)
    (hclean : ∀ s, ∀ i ∈ env.cleanupsForReturn s, i.isTerminator = false) :
    ∃ final, emitEntryPoint env SF SGM TopLevel = some final ∧
      final.insertionBB = none ∧
      (∀ b ∈ final.blocks, b.isTerminated = true) ∧
      (L.pred_empty r = true →
        final.blocks.map (fun b => b.id) = (L.blocks.map (fun b => b.id)).filter (fun x => x != r)) ∧
      (L.pred_empty r = false →
        final.blocks.map (fun b => b.id) = L.blocks.map (fun b => b.id) ++ [L.nextBlock]) := by
  have hipfresh : ∀ c, L.insertionBB = some c → c ≠ L.nextBlock := by
    intro c hc
    obtain ⟨b, hb, hid⟩ := hipmem c hc
    rw [← hid]
    exact hfresh b hb
  have hlits : ∀ k, ∀ i ∈ exitCodeInsts rt k, i.isTerminator = false :=
    fun k i hi => (exitCodeInsts_successors rt k i hi).2
  rw [emitEntryPoint_eq env SF SGM TopLevel L hL]
  cases hpe : L.pred_empty r with
  | true =>
    refine ⟨_, finishEntryPoint_unused env _ L r rt hrt hthrow hpe, rfl, ?_, ?_, ?_⟩
    · intro b hb
      simp only at hb
      obtain ⟨is, t, hsplit, his, ht⟩ := exitSequence_split SF.isAsyncContext
        L.SGM.exitFunction.1.name (exitCodeValue rt 0)
      obtain ⟨b0, hb0, h | h⟩ := mem_blocksAfterInsert _ _ _ b hb
      · obtain ⟨hip, rfl⟩ := h
        rw [hsplit, ← List.append_assoc]
        refine isTerminated_appendInsts b0 _ t (hopen b0 (List.mem_filter.1 hb0).1 hip) ?_ ht
        intro i hi
        rcases List.mem_append.1 hi with hi | hi
        · exact hlits 0 i hi
        · exact his i hi
      · obtain ⟨hip, rfl⟩ := h
        have := List.mem_filter.1 hb0
        exact hterm b this.1 (by simpa using this.2) hip
    · intro _
      simp only [map_id_blocksAfterInsert]
      induction L.blocks with
      | nil => rfl
      | cons x l ih =>
        simp only [List.filter_cons, List.map_cons]
        split <;> simp [ih]
    · intro h
      simp at h
  | false =>
    obtain ⟨sC, hsC⟩ := finishEntryPoint_used env SF.isAsyncContext L r rt rb err hrt hthrow hpe
      hrb herr hfresh hipfresh
    refine ⟨_, hsC, rfl, ?_, ?_, ?_⟩
    · intro b hb
      simp only at hb
      rcases List.mem_append.1 hb with hb | hb
      · obtain ⟨b1, hb1, rfl⟩ := List.mem_map.1 hb
        obtain ⟨b0, hb0, h | h⟩ := mem_blocksAfterInsert _ _ _ b1 hb1
        · obtain ⟨hip, rfl⟩ := h
          have hne : b0.id ≠ r := fun h2 => hipne (by rw [hip, h2])
          have hne2 : (b0.appendInsts (exitCodeInsts rt 0 ++
              [.branch L.nextBlock [exitCodeValue rt 0]])).id ≠ r := hne
          simp only [hne2, if_false]
          exact isTerminated_appendInsts b0 _ _ (hopen b0 hb0 hip) (hlits 0) rfl
        · obtain ⟨hip, rfl⟩ := h
          by_cases hbr : b1.id = r
          · simp only [hbr, if_true]
            have hempty : b1.isOpen = true := by
              simp [SILBasicBlock.isOpen, hrempty b1 hb0 hbr]
            have := isTerminated_appendInsts b1
              ([.builtin "errorInMain" SILType.getEmptyTupleType [err], .endLifetime err] ++
                env.cleanupsForReturn sC ++ exitCodeInsts rt 1)
              (.branch L.nextBlock [exitCodeValue rt 1]) hempty (by
                intro i hi
                rcases List.mem_append.1 hi with hi | hi
                · rcases List.mem_append.1 hi with hi | hi
                  · simp only [List.mem_cons, List.mem_singleton, List.not_mem_nil,
                      or_false] at hi
                    rcases hi with rfl | rfl <;> rfl
                  · exact hclean sC i hi
                · exact hlits 1 i hi) rfl
            simpa [List.append_assoc] using this
          · simp only [hbr, if_false]
            exact hterm b1 hb0 hbr hip
      · simp only [List.mem_singleton] at hb
        subst hb
        obtain ⟨is, t, hsplit, his, ht⟩ := exitSequence_split SF.isAsyncContext
          L.SGM.exitFunction.1.name (.phiArgument L.nextBlock 0 rt .owned)
        have := isTerminated_appendInsts ⟨L.nextBlock, [.phiArgument L.nextBlock 0 rt .owned], []⟩
          is t (by simp [SILBasicBlock.isOpen]) his ht
        simpa [SILBasicBlock.appendInsts, hsplit] using this
    · intro h
      simp at h
    · intro _
      simp only [List.map_append, List.map_cons, List.map_nil,
        map_id_modifyBlock r (SILBasicBlock.appendInsts _) (fun _ => rfl),
        map_id_blocksAfterInsert]

/-- Witness for C9: a synchronous source file whose top-level code may throw
and falls through; the function ends with four terminated blocks. -/
theorem emitEntryPoint_all_blocks_terminated_witness :
    ∃ final, emitEntryPoint (Examples.env Examples.bodyMayThrow []) ⟨false⟩ Examples.SGM
        Examples.TopLevel = some final ∧
      final.insertionBB = none ∧
      (∀ b ∈ final.blocks, b.isTerminated = true) ∧
      final.blocks.map (fun b => b.id) = [0, 1, 2, 3] := by
  obtain ⟨final, h1, h2, h3, -, h5⟩ :=
    emitEntryPoint_all_blocks_terminated (Examples.env Examples.bodyMayThrow []) ⟨false⟩
      Examples.SGM Examples.TopLevel (Examples.lowered Examples.bodyMayThrow false) 1
      ⟨1, [.phiArgument 1 0 ⟨.errorExistential, false⟩ .owned], []⟩
      (.phiArgument 1 0 ⟨.errorExistential, false⟩ .owned) Examples.Int32
      (by decide) (by decide) (by decide) (by decide) (by decide) (by decide) (by decide)
      (by decide) (by decide) (by decide) (by decide)
      (by intro s i hi; simp [Examples.env] at hi)
  exact ⟨final, h1, h2, h3, h5 (by decide)⟩

theorem find?_blocksAfterInsert (ip : Option BlockId) (is : List SILInstruction)
    (l : List SILBasicBlock) (x : BlockId) :
    (blocksAfterInsert ip is l).find? (fun b => b.id == x) =
      (l.find? (fun b => b.id == x)).map
        (fun b => if ip = some b.id then b.appendInsts is else b) := by
  cases ip with
  | none => simp [blocksAfterInsert_none]
  | some c =>
    rw [blocksAfterInsert_some, find?_modifyBlock c x (SILBasicBlock.appendInsts is) (fun _ => rfl)]
    congr 1
    funext b
    by_cases h : b.id = c
    · simp [h]
    · have : ¬ (c = b.id) := fun h2 => h h2.symm
      simp [h, this]

theorem exitSequence_successors (isAsync : Bool) (name : String) (v : SILValue) :
    ∀ i ∈ exitSequence isAsync name v, i.successors = [] := by
  intro i hi
  cases isAsync <;> simp [exitSequence] at hi
  · subst hi; rfl
  · rcases hi with rfl | rfl | rfl <;> rfl

theorem not_mem_successors_of_block (b : SILBasicBlock) (n : BlockId)
    (h : n ∉ b.successors) : ∀ i ∈ b.insts, n ∉ i.successors := by
  intro i hi hn
  exact h (List.mem_flatMap.2 ⟨i, hi, hn⟩)

/-- C4, as the code has it: when the rethrow block `r` has a predecessor after
top-level lowering, `emitEntryPoint` creates the unified return block `n` with
one block parameter, the exit code.  The only branches into `n` are the branch
that ends the insertion block of the lowered function (there is one exactly when
the insertion point was valid) and the branch that ends the rethrow block.  They
carry the exit-code values for 0 and for 1: the 32-bit integer literal, wrapped
in a struct of the exit-code type when that type is not `Builtin.Int32`.  The
instructions that build the value precede each branch: the rethrow block gets,
in this order, the `errorInMain` builtin on its error argument, `end_lifetime`
of that argument, the cleanups of the unwind path, the integer literal 1 (and
its struct wrapper when needed) and the branch. -/
theorem emitEntryPoint_rethrow_used (env : EntryPointEnv) (SF : SourceFile)
    (SGM : SILGenModule) (TopLevel : SILFunction) (L : SILGenFunction) (r : BlockId)
    (rb : SILBasicBlock) (err : SILValue) (rt : SILType)
    (hL : lowerTopLevel env SF SGM TopLevel = some L)
    (hrt : L.entryReturnType SF.isAsyncContext = some rt)
    (hthrow : L.ThrowDest = some r)
    (hused : L.pred_empty r = false)
    (hrb : L.findBlock r = some rb) (herr : rb.args.head? = some err)
    (hipne : L.insertionBB ≠ some r)
    (hipmem : ∀ c, L.insertionBB = some c → ∃ b ∈ L.blocks, b.id = c)
    (hfresh : ∀ b ∈ L.blocks, b.id ≠ L.nextBlock)
    (hnosucc : ∀ b ∈ L.blocks, L.nextBlock ∉ b.successors)
    (hclean : ∀ s, ∀ i ∈ env.cleanupsForReturn s, i.successors = []) :
    ∃ final sC, emitEntryPoint env SF SGM TopLevel = some final ∧
      final.findBlock L.nextBlock =
        some ⟨L.nextBlock, [.phiArgument L.nextBlock 0 rt .owned],
          exitSequence SF.isAsyncContext L.SGM.exitFunction.1.name
            (.phiArgument L.nextBlock 0 rt .owned)⟩ ∧
      (∀ b ∈ final.blocks, ∀ i ∈ b.insts, L.nextBlock ∈ i.successors →
        (L.insertionBB = some b.id ∧ i = .branch L.nextBlock [exitCodeValue rt 0]) ∨
        (b.id = r ∧ i = .branch L.nextBlock [exitCodeValue rt 1])) ∧
      (∀ c cb, L.insertionBB = some c → L.findBlock c = some cb →
        final.findBlock c = some (cb.appendInsts
          (exitCodeInsts rt 0 ++ [.branch L.nextBlock [exitCodeValue rt 0]]))) ∧
      final.findBlock r = some (rb.appendInsts
        ([.builtin "errorInMain" SILType.getEmptyTupleType [err], .endLifetime err] ++
          env.cleanupsForReturn sC ++ exitCodeInsts rt 1 ++
          [.branch L.nextBlock [exitCodeValue rt 1]])) := by
  have hipfresh : ∀ c, L.insertionBB = some c → c ≠ L.nextBlock := by
    intro c hc
    obtain ⟨b, hb, hid⟩ := hipmem c hc
    rw [← hid]
    exact hfresh b hb
  have hrid : rb.id = r := by
    simp only [findBlock] at hrb
    simpa using List.find?_some hrb
  have hrn : r ≠ L.nextBlock := by
    simp only [findBlock] at hrb
    rw [← hrid]
    exact hfresh rb (List.mem_of_find?_eq_some hrb)
  obtain ⟨sC, hsC⟩ := finishEntryPoint_used env SF.isAsyncContext L r rt rb err hrt hthrow hused
    hrb herr hfresh hipfresh
  rw [← emitEntryPoint_eq env SF SGM TopLevel L hL] at hsC
  refine ⟨_, sC, hsC, ?_, ?_, ?_, ?_⟩
  · -- the unified return block
    simp only [findBlock, List.find?_append]
    rw [find?_of_ne _ _ (by
      intro b hb
      obtain ⟨b1, hb1, hid1⟩ := modifyBlock_ids r (SILBasicBlock.appendInsts _) (fun _ => rfl) _ b hb
      obtain ⟨b2, hb2, hid2⟩ := blocksAfterInsert_ids _ _ _ b1 hb1
      rw [hid1, hid2]
      exact hfresh b2 hb2)]
    simp
  · -- the branches into it
    intro b hb i hi hn
    simp only at hb
    rcases List.mem_append.1 hb with hb | hb
    · obtain ⟨b1, hb1, rfl⟩ := List.mem_map.1 hb
      obtain ⟨b0, hb0, h | h⟩ := mem_blocksAfterInsert _ _ _ b1 hb1
      · obtain ⟨hip, rfl⟩ := h
        have hne : b0.id ≠ r := fun h2 => hipne (by rw [hip, h2])
        have hne2 : (b0.appendInsts (exitCodeInsts rt 0 ++
            [.branch L.nextBlock [exitCodeValue rt 0]])).id ≠ r := hne
        simp only [hne2, if_false] at hi ⊢
        simp only [SILBasicBlock.appendInsts, List.mem_append, List.mem_singleton] at hi
        rcases hi with hi | hi | hi
        · exact absurd hn (not_mem_successors_of_block b0 _ (hnosucc b0 hb0) i hi)
        · rw [(exitCodeInsts_successors rt 0 i hi).1] at hn
          simp at hn
        · exact Or.inl ⟨hip, hi⟩
      · obtain ⟨hip, rfl⟩ := h
        by_cases hbr : b1.id = r
        · simp only [hbr, if_true] at hi ⊢
          simp only [SILBasicBlock.appendInsts, List.mem_append, List.mem_singleton,
            List.mem_cons, List.not_mem_nil, or_false] at hi
          rcases hi with hi | ((((hi | hi) | hi) | hi) | hi)
          · exact absurd hn (not_mem_successors_of_block b1 _ (hnosucc b1 hb0) i hi)
          · subst hi; simp [SILInstruction.successors] at hn
          · subst hi; simp [SILInstruction.successors] at hn
          · rw [hclean sC i hi] at hn; simp at hn
          · rw [(exitCodeInsts_successors rt 1 i hi).1] at hn; simp at hn
          · exact Or.inr ⟨hbr, hi⟩
        · simp only [hbr, if_false] at hi
          exact absurd hn (not_mem_successors_of_block b1 _ (hnosucc b1 hb0) i hi)
    · simp only [List.mem_singleton] at hb
      subst hb
      rw [exitSequence_successors _ _ _ i hi] at hn
      simp at hn
  · -- the fallthrough branch
    intro c cb hip hcb
    have hcid : cb.id = c := by
      simp only [findBlock] at hcb
      simpa using List.find?_some hcb
    have hcr : c ≠ r := fun h => hipne (by rw [hip, h])
    simp only [findBlock] at hcb
    simp only [findBlock, List.find?_append,
      find?_modifyBlock r c (SILBasicBlock.appendInsts _) (fun _ => rfl),
      find?_blocksAfterInsert, hcb, Option.map_some', hip, hcid, if_true]
    have : (cb.appendInsts (exitCodeInsts rt 0 ++
        [.branch L.nextBlock [exitCodeValue rt 0]])).id ≠ r := by
      show cb.id ≠ r
      rw [hcid]; exact hcr
    simp [this]
  · -- the rethrow block
    simp only [findBlock] at hrb
    simp only [findBlock, List.find?_append,
      find?_modifyBlock r r (SILBasicBlock.appendInsts _) (fun _ => rfl),
      find?_blocksAfterInsert, hrb, Option.map_some', hrid, hipne, if_false, if_true]
    simp

/-- Witness for C4: a synchronous source file whose top-level code may throw
and falls through.  The unified return block is block 3, the rethrow block is
block 1. -/
theorem emitEntryPoint_rethrow_used_witness :
    ∃ final, emitEntryPoint (Examples.env Examples.bodyMayThrow []) ⟨false⟩ Examples.SGM
        Examples.TopLevel = some final ∧
      final.findBlock 3 =
        some ⟨3, [.phiArgument 3 0 Examples.Int32 .owned],
          [.ret (.phiArgument 3 0 Examples.Int32 .owned)]⟩ ∧
      final.findBlock 1 =
        some ⟨1, [.phiArgument 1 0 ⟨.errorExistential, false⟩ .owned],
          [.builtin "errorInMain" SILType.getEmptyTupleType
              [.phiArgument 1 0 ⟨.errorExistential, false⟩ .owned],
            .endLifetime (.phiArgument 1 0 ⟨.errorExistential, false⟩ .owned),
            .integerLiteral (SILType.getBuiltinIntegerType 32) 1,
            .struct Examples.Int32 (.integerLiteral (SILType.getBuiltinIntegerType 32) 1),
            .branch 3 [.struct Examples.Int32
              (.integerLiteral (SILType.getBuiltinIntegerType 32) 1)]]⟩ := by
  obtain ⟨final, sC, h1, h2, -, -, h5⟩ :=
    emitEntryPoint_rethrow_used (Examples.env Examples.bodyMayThrow []) ⟨false⟩
      Examples.SGM Examples.TopLevel (Examples.lowered Examples.bodyMayThrow false) 1
      ⟨1, [.phiArgument 1 0 ⟨.errorExistential, false⟩ .owned], []⟩
      (.phiArgument 1 0 ⟨.errorExistential, false⟩ .owned) Examples.Int32
      (by decide) (by decide) (by decide) (by decide) (by decide) (by decide) (by decide)
      (by decide) (by decide) (by decide)
      (by intro s i hi; simp [Examples.env] at hi)
  exact ⟨final, h1, h2, h5⟩

/-- Counterexample to C4 as stated: a synchronous source file whose top-level
code may throw and falls through, with result type `Int32` and no cleanups.
The rethrow block (block 1) is not just the `errorInMain` builtin,
`end_lifetime` and the branch: the integer literal 1 and its struct wrapper
stand before the branch; and the branches into the unified return block
(block 3) from the rethrow block and from the fallthrough block (block 2) carry
the struct values, not the integer literals 1 and 0. -/
theorem emitEntryPoint_rethrow_block_contents :
    ((emitEntryPoint (Examples.env Examples.bodyMayThrow []) ⟨false⟩ Examples.SGM
        Examples.TopLevel).bind (fun final => final.findBlock 1)).map (fun b => b.insts) =
      some [.builtin "errorInMain" SILType.getEmptyTupleType
              [.phiArgument 1 0 ⟨.errorExistential, false⟩ .owned],
            .endLifetime (.phiArgument 1 0 ⟨.errorExistential, false⟩ .owned),
            .integerLiteral (SILType.getBuiltinIntegerType 32) 1,
            .struct Examples.Int32 (.integerLiteral (SILType.getBuiltinIntegerType 32) 1),
            .branch 3 [.struct Examples.Int32
              (.integerLiteral (SILType.getBuiltinIntegerType 32) 1)]] ∧
    ((emitEntryPoint (Examples.env Examples.bodyMayThrow []) ⟨false⟩ Examples.SGM
        Examples.TopLevel).bind (fun final => final.findBlock 1)).map (fun b => b.insts) ≠
      some [.builtin "errorInMain" SILType.getEmptyTupleType
              [.phiArgument 1 0 ⟨.errorExistential, false⟩ .owned],
            .endLifetime (.phiArgument 1 0 ⟨.errorExistential, false⟩ .owned),
            .branch 3 [.integerLiteral (SILType.getBuiltinIntegerType 32) 1]] ∧
    ((emitEntryPoint (Examples.env Examples.bodyMayThrow []) ⟨false⟩ Examples.SGM
        Examples.TopLevel).bind (fun final => final.findBlock 2)).map (fun b => b.insts) =
      some [.integerLiteral (SILType.getBuiltinIntegerType 32) 0,
            .struct Examples.Int32 (.integerLiteral (SILType.getBuiltinIntegerType 32) 0),
            .branch 3 [.struct Examples.Int32
              (.integerLiteral (SILType.getBuiltinIntegerType 32) 0)]] := by
  decide

/-! ## Closed forms of `emitCallToMain` -/

theorem insertAll_insertAll (s : SILGenFunction) (a b : List SILInstruction) :
    (s.insertAll a).insertAll b = s.insertAll (a ++ b) := by
  simp [insertAll, List.foldl_append]

theorem insert_eq_insertAll (s : SILGenFunction) (i : SILInstruction) :
    s.insert i = s.insertAll [i] := rfl

theorem insertAll_SGM (s : SILGenFunction) (is : List SILInstruction) :
    (s.insertAll is).SGM = s.SGM := by
  rw [insertAll_eq]

theorem emitErrorInMain_eq (s : SILGenFunction) (errorType : SILType) (error : SILValue) :
    s.emitErrorInMain errorType error =
      s.insertAll (errorInMainInsts s.IndirectErrorResult s.SGM.getASTContext.errorInMainTyped
        errorType error) := by
  simp only [emitErrorInMain, errorInMainInsts]
  split
  · cases s.IndirectErrorResult <;> rfl
  · cases haddr : error.getType.isAddress
    · simp only [createAllocStack, emitSemanticStore, emitApplyOfLibraryIntrinsic,
        insert_eq_insertAll, insertAll_insertAll, insertAll_SGM, Bool.not_false,
        if_true, List.cons_append, List.nil_append]
    · simp only [emitApplyOfLibraryIntrinsic, insert_eq_insertAll, insertAll_insertAll,
        Bool.not_true, Bool.false_eq_true, if_false, List.cons_append,
        List.nil_append]

theorem errorInMainInsts_props (indirect : Option SILValue) (intrinsic : FuncDecl)
    (errorType : SILType) (error : SILValue) :
    ∀ i ∈ errorInMainInsts indirect intrinsic errorType error,
      i.successors = [] ∧ i.isTerminator = false := by
  intro i hi
  simp only [errorInMainInsts] at hi
  split at hi
  · cases indirect <;>
      simp only [List.mem_cons, List.mem_singleton, List.not_mem_nil, or_false] at hi
    · subst hi; exact ⟨rfl, rfl⟩
    · rcases hi with rfl | rfl <;> exact ⟨rfl, rfl⟩
  · split at hi <;>
      simp only [List.mem_cons, List.mem_singleton, List.not_mem_nil, or_false] at hi
    · rcases hi with rfl | rfl | rfl | rfl <;> exact ⟨rfl, rfl⟩
    · rcases hi with rfl | rfl <;> exact ⟨rfl, rfl⟩

theorem modifyBlock_nil (bb : BlockId) (f : SILBasicBlock → SILBasicBlock) :
    modifyBlock bb f [] = [] := rfl

theorem modifyBlock_cons (bb : BlockId) (f : SILBasicBlock → SILBasicBlock)
    (b : SILBasicBlock) (l : List SILBasicBlock) :
    modifyBlock bb f (b :: l) = (if b.id = bb then f b else b) :: modifyBlock bb f l := rfl

theorem emitMainExit_eq (s : SILGenFunction) (mainFunc : FuncDecl) (phi : SILValue)
    (n : BlockId) (p : CanType) (hip : s.insertionBB = some n)
    (hexit : mainFunc.hasAsync = true →
      s.SGM.exitFunction.1.loweredType.parameters.head? = some p) :
    s.emitMainExit mainFunc phi =
      some { s with
        SGM := if mainFunc.hasAsync then s.SGM.exitFunction.2 else s.SGM
        insertionBB := none
        blocks := modifyBlock n
          (SILBasicBlock.appendInsts (mainExitInsts mainFunc.hasAsync s.resultType
            s.SGM.exitFunction.1.name (SILType.getPrimitiveObjectType p) phi))
          s.blocks } := by
  cases hasync : mainFunc.hasAsync
  · simp only [emitMainExit, hasync, Bool.not_false, if_true, mainExitInsts,
      Bool.false_eq_true, if_false]
    split
    · simp only [createStruct, createReturn, insertTerminator, insert_eq, hip,
        blocksAfterInsert_some, clearInsertionPoint, modifyBlock_appendInsts_appendInsts,
        Option.pure_def, List.cons_append, List.nil_append]
    · simp only [createReturn, insertTerminator, insert_eq, hip,
        blocksAfterInsert_some, clearInsertionPoint, Option.pure_def]
  · have hp := hexit hasync
    simp only [SILGenModule.exitFunction] at hp ⊢
    simp only [emitMainExit, hasync, Bool.not_true, Bool.false_eq_true, if_false, hp,
      Option.pure_def, Option.bind_eq_bind, Option.some_bind, mainExitInsts, if_true,
      createStruct, createFunctionRef, createApply, createUnreachable, insertTerminator,
      insert_eq, hip, blocksAfterInsert_some, clearInsertionPoint,
      modifyBlock_appendInsts_appendInsts, List.cons_append, List.nil_append]

theorem formCallToMain_eq (s : SILGenFunction) (mainFunction : SILFunction)
    (ref metatype : SILValue) (e x : BlockId)
    (hfresh : ∀ b ∈ s.blocks, b.id < s.nextBlock)
    (he : e < s.nextBlock) :
    ∃ final, s.formCallToMain mainFunction ref metatype e x = some final ∧
      final.insertionBB = none ∧
      (mainFunction.loweredType.errorResult = none →
        final.blocks = modifyBlock e (SILBasicBlock.appendInsts
          [.apply ref [metatype], .integerLiteral (SILType.getBuiltinIntegerType 32) 0,
            .branch x [.integerLiteral (SILType.getBuiltinIntegerType 32) 0]]) s.blocks) ∧
      (∀ errorType, mainFunction.loweredType.errorResult = some errorType →
        final.blocks =
          modifyBlock e (SILBasicBlock.appendInsts
            [.tryApply ref [metatype] s.nextBlock (s.nextBlock + 1)]) s.blocks ++
          [⟨s.nextBlock, [.phiArgument s.nextBlock 0 SILType.getEmptyTupleType .none],
            [.integerLiteral (SILType.getBuiltinIntegerType 32) 0,
              .branch x [.integerLiteral (SILType.getBuiltinIntegerType 32) 0]]⟩,
          ⟨s.nextBlock + 1, failureArgs s.IndirectErrorResult (s.nextBlock + 1) errorType,
            errorInMainInsts s.IndirectErrorResult s.SGM.getASTContext.errorInMainTyped
              errorType (failureError s.IndirectErrorResult (s.nextBlock + 1) errorType) ++
              [.unreachable]⟩]) := by
  have hnone : ∀ (k : Nat), s.blocks.find? (fun b => b.id == s.nextBlock + k) = none := by
    intro k
    apply find?_of_ne
    intro b hb
    exact Nat.ne_of_lt (Nat.lt_of_lt_of_le (hfresh b hb) (Nat.le_add_right _ _))
  have hA : ∀ (k : Nat) (f : SILBasicBlock → SILBasicBlock),
      modifyBlock (s.nextBlock + k) f s.blocks = s.blocks := by
    intro k f
    apply modifyBlock_of_ne
    intro b hb
    exact Nat.ne_of_lt (Nat.lt_of_lt_of_le (hfresh b hb) (Nat.le_add_right _ _))
  have hnone0 := hnone 0
  have hA0 := fun f => hA 0 f
  simp only [Nat.add_zero] at hnone0 hA0
  have he0 : ¬ (s.nextBlock = e) := Nat.ne_of_gt he
  have he1 : ¬ (s.nextBlock + 1 = e) :=
    Nat.ne_of_gt (Nat.lt_of_lt_of_le he (Nat.le_add_right _ _))
  have hn01 : ¬ (s.nextBlock = s.nextBlock + 1) := Nat.ne_of_lt (Nat.lt_succ_self _)
  have hn10 : ¬ (s.nextBlock + 1 = s.nextBlock) := Nat.ne_of_gt (Nat.lt_succ_self _)
  have hb01 : (s.nextBlock == s.nextBlock + 1) = false := by simp
  cases herr : mainFunction.loweredType.errorResult with
  | none =>
    refine ⟨{ s with
      insertionBB := none
      blocks := modifyBlock e (SILBasicBlock.appendInsts
        [.apply ref [metatype], .integerLiteral (SILType.getBuiltinIntegerType 32) 0,
          .branch x [.integerLiteral (SILType.getBuiltinIntegerType 32) 0]]) s.blocks },
      ?_, ?_, fun _ => rfl, fun _ h => by simp at h⟩
    · simp only [formCallToMain, SILFunctionType.hasErrorResult, herr, Option.isSome_none,
        Bool.false_eq_true, if_false, Option.pure_def, setInsertionPoint, createApply,
        createIntegerLiteral, createBranch, insertTerminator, insert_eq, blocksAfterInsert_some,
        clearInsertionPoint, modifyBlock_appendInsts_appendInsts, List.cons_append,
        List.nil_append]
    · rfl
  | some errorType =>
    cases hind : s.IndirectErrorResult with
    | none =>
      simp only [formCallToMain, SILFunctionType.hasErrorResult, herr, Option.isSome_some,
        if_true, Option.pure_def, Option.bind_eq_bind, Option.some_bind, createBasicBlock,
        setInsertionPoint, createPhiArgument_eq, findBlock, List.find?_append, hnone0, hnone,
        Option.none_or, List.find?_cons, beq_self_eq_true, List.length_nil, modifyBlock_append,
        hA0, hA, createIntegerLiteral, createBranch, insertTerminator, insert_eq,
        blocksAfterInsert_some, clearInsertionPoint, hind, emitErrorInMain_eq, insertAll_eq,
        createUnreachable, createTryApply, modifyBlock_cons, modifyBlock_nil, if_true,
        SILBasicBlock.appendArg, SILBasicBlock.appendInsts, List.nil_append, List.cons_append,
        failureArgs, failureError, hn01, hn10, hb01, he0, he1, if_false, List.find?_nil,
        List.append_assoc]
      exact ⟨_, rfl, rfl, fun h => by simp at h, fun et het => by
        simp only [Option.some.injEq] at het
        subst het
        rfl⟩
    | some ind =>
      simp only [formCallToMain, SILFunctionType.hasErrorResult, herr, Option.isSome_some,
        if_true, Option.pure_def, Option.bind_eq_bind, Option.some_bind, createBasicBlock,
        setInsertionPoint, createPhiArgument_eq, findBlock, List.find?_append, hnone0, hnone,
        Option.none_or, List.find?_cons, beq_self_eq_true, List.length_nil, modifyBlock_append,
        hA0, hA, createIntegerLiteral, createBranch, insertTerminator, insert_eq,
        blocksAfterInsert_some, clearInsertionPoint, hind, emitErrorInMain_eq, insertAll_eq,
        createUnreachable, createTryApply, modifyBlock_cons, modifyBlock_nil, if_true,
        SILBasicBlock.appendArg, SILBasicBlock.appendInsts, List.nil_append, List.cons_append,
        failureArgs, failureError, hn01, hn10, hb01, he0, he1, if_false, List.find?_nil,
        List.append_assoc]
      exact ⟨_, rfl, rfl, fun h => by simp at h, fun et het => by
        simp only [Option.some.injEq] at het
        subst het
        rfl⟩

theorem getFunction_ctx (SGM : SILGenModule) (ref : SILDeclRef) :
    (SGM.getFunction ref).2.ctx = SGM.ctx := by
  simp only [SILGenModule.getFunction]
  split <;> rfl

theorem emitCallToMain_eq (s0 : SILGenFunction) (mainFunc : FuncDecl) (e : BlockId)
    (p : CanType)
    (hip : s0.insertionBB = some e)
    (hfresh : ∀ b ∈ s0.blocks, b.id < s0.nextBlock)
    (he : e < s0.nextBlock)
    (hexit : mainFunc.hasAsync = true →
      (s0.SGM.getFunction (SILDeclRef.ofFuncDecl mainFunc)).2.exitFunction.1.loweredType.parameters.head?
        = some p) :
    ∃ final, emitCallToMain s0 mainFunc = some final ∧ final.insertionBB = none ∧
      ((s0.SGM.getFunction (SILDeclRef.ofFuncDecl mainFunc)).1.loweredType.errorResult = none →
        final.blocks =
          modifyBlock e (SILBasicBlock.appendInsts
            [.metatype (SILType.getPrimitiveObjectType mainFunc.selfType),
              .functionRef (s0.SGM.getFunction (SILDeclRef.ofFuncDecl mainFunc)).1.name,
              .apply (.functionRef (s0.SGM.getFunction (SILDeclRef.ofFuncDecl mainFunc)).1.name)
                [.metatype (SILType.getPrimitiveObjectType mainFunc.selfType)],
              .integerLiteral (SILType.getBuiltinIntegerType 32) 0,
              .branch s0.nextBlock [.integerLiteral (SILType.getBuiltinIntegerType 32) 0]])
            s0.blocks ++
          [⟨s0.nextBlock, [.phiArgument s0.nextBlock 0 (SILType.getBuiltinIntegerType 32) .none],
            mainExitInsts mainFunc.hasAsync s0.resultType
              (s0.SGM.getFunction (SILDeclRef.ofFuncDecl mainFunc)).2.exitFunction.1.name
              (SILType.getPrimitiveObjectType p)
              (.phiArgument s0.nextBlock 0 (SILType.getBuiltinIntegerType 32) .none)⟩]) ∧
      (∀ errorType,
        (s0.SGM.getFunction (SILDeclRef.ofFuncDecl mainFunc)).1.loweredType.errorResult =
          some errorType →
        final.blocks =
          modifyBlock e (SILBasicBlock.appendInsts
            [.metatype (SILType.getPrimitiveObjectType mainFunc.selfType),
              .functionRef (s0.SGM.getFunction (SILDeclRef.ofFuncDecl mainFunc)).1.name,
              .tryApply
                (.functionRef (s0.SGM.getFunction (SILDeclRef.ofFuncDecl mainFunc)).1.name)
                [.metatype (SILType.getPrimitiveObjectType mainFunc.selfType)]
                (s0.nextBlock + 1) (s0.nextBlock + 2)])
            s0.blocks ++
          [⟨s0.nextBlock,
            [.phiArgument s0.nextBlock 0 (SILType.getBuiltinIntegerType 32) .none],
            mainExitInsts mainFunc.hasAsync s0.resultType
              (s0.SGM.getFunction (SILDeclRef.ofFuncDecl mainFunc)).2.exitFunction.1.name
              (SILType.getPrimitiveObjectType p)
              (.phiArgument s0.nextBlock 0 (SILType.getBuiltinIntegerType 32) .none)⟩,
          ⟨s0.nextBlock + 1,
            [.phiArgument (s0.nextBlock + 1) 0 SILType.getEmptyTupleType .none],
            [.integerLiteral (SILType.getBuiltinIntegerType 32) 0,
              .branch s0.nextBlock [.integerLiteral (SILType.getBuiltinIntegerType 32) 0]]⟩,
          ⟨s0.nextBlock + 2,
            failureArgs s0.IndirectErrorResult (s0.nextBlock + 2) errorType,
            errorInMainInsts s0.IndirectErrorResult s0.SGM.ctx.errorInMainTyped errorType
              (failureError s0.IndirectErrorResult (s0.nextBlock + 2) errorType) ++
              [.unreachable]⟩]) := by
  have hctx : ∀ b : Bool, (if b then
      (s0.SGM.getFunction (SILDeclRef.ofFuncDecl mainFunc)).2.exitFunction.2
      else (s0.SGM.getFunction (SILDeclRef.ofFuncDecl mainFunc)).2).getASTContext = s0.SGM.ctx := by
    intro b
    cases b
    · simp [SILGenModule.getASTContext, getFunction_ctx]
    · simp [SILGenModule.getASTContext, SILGenModule.exitFunction, getFunction_ctx]
  generalize hmf : s0.SGM.getFunction (SILDeclRef.ofFuncDecl mainFunc) = mfp at hexit hctx ⊢
  obtain ⟨mainFunction, SGM1⟩ := mfp
  simp only at hexit hctx ⊢
  have hids : ∀ (X : List SILInstruction),
      ∀ b ∈ modifyBlock e (SILBasicBlock.appendInsts X) s0.blocks, b.id < s0.nextBlock := by
    intro X b hb
    obtain ⟨b0, hb0, hid⟩ := modifyBlock_ids e (SILBasicBlock.appendInsts X) (fun _ => rfl) _ b hb
    rw [hid]
    exact hfresh b0 hb0
  have hnone0 : ∀ (X : List SILInstruction),
      (modifyBlock e (SILBasicBlock.appendInsts X) s0.blocks).find?
        (fun b => b.id == s0.nextBlock) = none := by
    intro X
    apply find?_of_ne
    intro b hb
    exact Nat.ne_of_lt (hids X b hb)
  have hA0 : ∀ (X : List SILInstruction) (f : SILBasicBlock → SILBasicBlock),
      modifyBlock s0.nextBlock f (modifyBlock e (SILBasicBlock.appendInsts X) s0.blocks) =
        modifyBlock e (SILBasicBlock.appendInsts X) s0.blocks := by
    intro X f
    apply modifyBlock_of_ne
    intro b hb
    exact Nat.ne_of_lt (hids X b hb)
  have he0 : ¬ (s0.nextBlock = e) := Nat.ne_of_gt he
  simp only [emitCallToMain, hip, hmf, Option.pure_def, Option.bind_eq_bind, Option.some_bind,
    createMetatype, createFunctionRef, createBasicBlock, createPhiArgument_eq, findBlock,
    setInsertionPoint, insert_eq, blocksAfterInsert_some, modifyBlock_appendInsts_appendInsts,
    List.find?_append, hnone0, Option.none_or, List.find?_cons, beq_self_eq_true,
    List.length_nil, modifyBlock_append, hA0, List.cons_append, List.nil_append,
    modifyBlock_cons, modifyBlock_nil, if_true, SILBasicBlock.appendArg]
  rw [emitMainExit_eq _ mainFunc _ s0.nextBlock p rfl hexit, Option.some_bind]
  simp only [modifyBlock_append, hA0, modifyBlock_cons, modifyBlock_nil, if_true,
    SILBasicBlock.appendInsts, List.nil_append]
  obtain ⟨final, hfinal, hipf, hnoerr, herr⟩ := formCallToMain_eq
    { s0 with
      SGM := if mainFunc.hasAsync = true then SGM1.exitFunction.2 else SGM1
      blocks := modifyBlock e (SILBasicBlock.appendInsts
          [.metatype (SILType.getPrimitiveObjectType mainFunc.selfType),
            .functionRef mainFunction.name]) s0.blocks ++
        [⟨s0.nextBlock,
          [.phiArgument s0.nextBlock 0 (SILType.getBuiltinIntegerType 32) .none],
          mainExitInsts mainFunc.hasAsync s0.resultType SGM1.exitFunction.1.name
            (SILType.getPrimitiveObjectType p)
            (.phiArgument s0.nextBlock 0 (SILType.getBuiltinIntegerType 32) .none)⟩]
      nextBlock := s0.nextBlock + 1
      insertionBB := none }
    mainFunction (.functionRef mainFunction.name)
    (.metatype (SILType.getPrimitiveObjectType mainFunc.selfType)) e s0.nextBlock
    (by
      intro b hb
      rcases List.mem_append.1 hb with hb | hb
      · exact Nat.lt_succ_of_lt (hids _ b hb)
      · simp only [List.mem_singleton] at hb
        subst hb
        exact Nat.lt_succ_self _)
    (Nat.lt_succ_of_lt he)
  refine ⟨final, hfinal, hipf, ?_, ?_⟩
  · intro h
    rw [hnoerr h]
    simp only [modifyBlock_append, modifyBlock_appendInsts_appendInsts, modifyBlock_cons,
      modifyBlock_nil, he0, if_false, List.cons_append, List.nil_append]
  · intro et h
    rw [herr et h]
    simp only [modifyBlock_append, modifyBlock_appendInsts_appendInsts, modifyBlock_cons,
      modifyBlock_nil, he0, if_false, List.cons_append, List.nil_append, List.append_assoc,
      hctx]

/-! ## Theorems: `emitCallToMain` -/

theorem mainExitInsts_successors (hasAsync : Bool) (rt : SILType) (name : String)
    (pt : SILType) (phi : SILValue) :
    ∀ i ∈ mainExitInsts hasAsync rt name pt phi, i.successors = [] := by
  intro i hi
  simp only [mainExitInsts] at hi
  split at hi
  · simp only [List.mem_cons, List.mem_singleton, List.not_mem_nil, or_false] at hi
    rcases hi with rfl | rfl | rfl | rfl <;> rfl
  · split at hi <;>
      simp only [List.mem_cons, List.mem_singleton, List.not_mem_nil, or_false] at hi
    · rcases hi with rfl | rfl <;> rfl
    · subst hi; rfl

theorem find?_entry_block (s0 : SILGenFunction) (e : BlockId) (eb : SILBasicBlock)
    (X : List SILInstruction) (tail : List SILBasicBlock)
    (heb : s0.findBlock e = some eb) :
    (modifyBlock e (SILBasicBlock.appendInsts X) s0.blocks ++ tail).find?
      (fun b => b.id == e) = some (eb.appendInsts X) := by
  simp only [findBlock] at heb
  have hid := List.find?_some heb
  simp only [beq_iff_eq] at hid
  rw [List.find?_append, find?_modifyBlock e e (SILBasicBlock.appendInsts X) (fun _ => rfl), heb]
  simp [hid]

/-- C7: in the function `emitCallToMain` builds (from an emitter whose
insertion block `e`, with contents `eb`, is a block of the function, where no
block has the identity of, or refers to, a block created later, and where `exit`
has a parameter if `main` is asynchronous), with `n` the exit block: every
instruction that has the exit block as successor is the branch carrying the
32-bit integer literal 0; when `main` has no error result the entry block gets
the call of `main`, the integer literal 0 and the unconditional branch to the
exit block with it; when `main` has an error result the entry block ends in the
`try_apply` of `main` with successors `n + 1` and `n + 2`, and the success
successor `n + 1` is the integer literal 0 and the branch to the exit block with
it. -/
theorem emitCallToMain_exit_code_zero (s0 : SILGenFunction) (mainFunc : FuncDecl)
    (e : BlockId) (eb : SILBasicBlock) (p : CanType)
    (hip : s0.insertionBB = some e) (heb : s0.findBlock e = some eb)
    (hfresh : ∀ b ∈ s0.blocks, b.id < s0.nextBlock)
    (hnosucc : ∀ b ∈ s0.blocks, s0.nextBlock ∉ b.successors)
    (hexit : mainFunc.hasAsync = true →
      (s0.SGM.getFunction (SILDeclRef.ofFuncDecl mainFunc)).2.exitFunction.1.loweredType.parameters.head?
        = some p) :
    ∃ final, emitCallToMain s0 mainFunc = some final ∧
      (∀ b ∈ final.blocks, ∀ i ∈ b.insts, s0.nextBlock ∈ i.successors →
        i = .branch s0.nextBlock [.integerLiteral (SILType.getBuiltinIntegerType 32) 0]) ∧
      ((s0.SGM.getFunction (SILDeclRef.ofFuncDecl mainFunc)).1.loweredType.errorResult = none →
        final.findBlock e = some (eb.appendInsts
          [.metatype (SILType.getPrimitiveObjectType mainFunc.selfType),
            .functionRef (s0.SGM.getFunction (SILDeclRef.ofFuncDecl mainFunc)).1.name,
            .apply (.functionRef (s0.SGM.getFunction (SILDeclRef.ofFuncDecl mainFunc)).1.name)
              [.metatype (SILType.getPrimitiveObjectType mainFunc.selfType)],
            .integerLiteral (SILType.getBuiltinIntegerType 32) 0,
            .branch s0.nextBlock [.integerLiteral (SILType.getBuiltinIntegerType 32) 0]])) ∧
      (∀ errorType,
        (s0.SGM.getFunction (SILDeclRef.ofFuncDecl mainFunc)).1.loweredType.errorResult =
          some errorType →
        final.findBlock e = some (eb.appendInsts
          [.metatype (SILType.getPrimitiveObjectType mainFunc.selfType),
            .functionRef (s0.SGM.getFunction (SILDeclRef.ofFuncDecl mainFunc)).1.name,
            .tryApply
              (.functionRef (s0.SGM.getFunction (SILDeclRef.ofFuncDecl mainFunc)).1.name)
              [.metatype (SILType.getPrimitiveObjectType mainFunc.selfType)]
              (s0.nextBlock + 1) (s0.nextBlock + 2)]) ∧
        final.findBlock (s0.nextBlock + 1) =
          some ⟨s0.nextBlock + 1,
            [.phiArgument (s0.nextBlock + 1) 0 SILType.getEmptyTupleType .none],
            [.integerLiteral (SILType.getBuiltinIntegerType 32) 0,
              .branch s0.nextBlock
                [.integerLiteral (SILType.getBuiltinIntegerType 32) 0]]⟩) := by
  have he : e < s0.nextBlock := by
    simp only [findBlock] at heb
    have hid := List.find?_some heb
    simp only [beq_iff_eq] at hid
    rw [← hid]
    exact hfresh eb (List.mem_of_find?_eq_some heb)
  obtain ⟨final, hfinal, -, hnoerr, herr⟩ := emitCallToMain_eq s0 mainFunc e p hip hfresh he hexit
  have hold : ∀ (X : List SILInstruction), (∀ i ∈ X, s0.nextBlock ∈ i.successors →
      i = .branch s0.nextBlock [.integerLiteral (SILType.getBuiltinIntegerType 32) 0]) →
      ∀ b ∈ modifyBlock e (SILBasicBlock.appendInsts X) s0.blocks, ∀ i ∈ b.insts,
        s0.nextBlock ∈ i.successors →
        i = .branch s0.nextBlock [.integerLiteral (SILType.getBuiltinIntegerType 32) 0] := by
    intro X hX b hb i hi hn
    obtain ⟨b0, hb0, rfl⟩ := List.mem_map.1 hb
    by_cases h0 : b0.id = e
    · simp only [h0, if_true, SILBasicBlock.appendInsts, List.mem_append] at hi
      rcases hi with hi | hi
      · exact absurd hn (not_mem_successors_of_block b0 _ (hnosucc b0 hb0) i hi)
      · exact hX i hi hn
    · simp only [h0, if_false] at hi
      exact absurd hn (not_mem_successors_of_block b0 _ (hnosucc b0 hb0) i hi)
  have hnone : ∀ (X : List SILInstruction) (k : Nat),
      (modifyBlock e (SILBasicBlock.appendInsts X) s0.blocks).find?
        (fun b => b.id == s0.nextBlock + k) = none := by
    intro X k
    apply find?_of_ne
    intro b hb
    obtain ⟨b0, hb0, hid⟩ := modifyBlock_ids e (SILBasicBlock.appendInsts X) (fun _ => rfl) _ b hb
    rw [hid]
    exact Nat.ne_of_lt (Nat.lt_of_lt_of_le (hfresh b0 hb0) (Nat.le_add_right _ _))
  refine ⟨final, hfinal, ?_, ?_, ?_⟩
  · cases hres : (s0.SGM.getFunction (SILDeclRef.ofFuncDecl mainFunc)).1.loweredType.errorResult with
    | none =>
      intro b hb i hi hn
      rw [hnoerr hres] at hb
      rcases List.mem_append.1 hb with hb | hb
      · refine hold _ ?_ b hb i hi hn
        intro j hj hjn
        simp only [List.mem_cons, List.mem_singleton, List.not_mem_nil, or_false] at hj
        rcases hj with rfl | rfl | rfl | rfl | rfl
        · simp [SILInstruction.successors] at hjn
        · simp [SILInstruction.successors] at hjn
        · simp [SILInstruction.successors] at hjn
        · simp [SILInstruction.successors] at hjn
        · rfl
      · simp only [List.mem_singleton] at hb
        subst hb
        rw [mainExitInsts_successors _ _ _ _ _ i hi] at hn
        simp at hn
    | some errorType =>
      intro b hb i hi hn
      rw [herr errorType hres] at hb
      rcases List.mem_append.1 hb with hb | hb
      · refine hold _ ?_ b hb i hi hn
        intro j hj hjn
        simp only [List.mem_cons, List.mem_singleton, List.not_mem_nil, or_false] at hj
        rcases hj with rfl | rfl | rfl
        · simp [SILInstruction.successors] at hjn
        · simp [SILInstruction.successors] at hjn
        · simp only [SILInstruction.successors, List.mem_cons, List.mem_singleton,
            List.not_mem_nil, or_false] at hjn
          rcases hjn with h | h
          · exact absurd h (Nat.ne_of_lt (Nat.lt_succ_self _))
          · exact absurd h (Nat.ne_of_lt (Nat.lt_of_lt_of_le (Nat.lt_succ_self _)
              (Nat.le_succ _)))
      · simp only [List.mem_cons, List.mem_singleton, List.not_mem_nil, or_false] at hb
        rcases hb with rfl | rfl | rfl
        · rw [mainExitInsts_successors _ _ _ _ _ i hi] at hn
          simp at hn
        · simp only [List.mem_cons, List.mem_singleton, List.not_mem_nil, or_false] at hi
          rcases hi with rfl | rfl
          · simp [SILInstruction.successors] at hn
          · rfl
        · simp only [List.mem_append, List.mem_singleton] at hi
          rcases hi with hi | rfl
          · rw [(errorInMainInsts_props _ _ _ _ i hi).1] at hn
            simp at hn
          · simp [SILInstruction.successors] at hn
  · intro h
    simp only [findBlock]
    rw [hnoerr h]
    exact find?_entry_block s0 e eb _ _ heb
  · intro et h
    simp only [findBlock]
    rw [herr et h]
    refine ⟨find?_entry_block s0 e eb _ _ heb, ?_⟩
    rw [List.find?_append, hnone _ 1]
    simp

/-- Witness for C7: a throwing synchronous `main`; the exit block is block 1,
the success block is block 2. -/
theorem emitCallToMain_exit_code_zero_witness :
    ∃ final, emitCallToMain Examples.SGF Examples.throwingMain = some final ∧
      (∀ b ∈ final.blocks, ∀ i ∈ b.insts, 1 ∈ i.successors →
        i = .branch 1 [.integerLiteral (SILType.getBuiltinIntegerType 32) 0]) ∧
      final.findBlock 2 =
        some ⟨2, [.phiArgument 2 0 SILType.getEmptyTupleType .none],
          [.integerLiteral (SILType.getBuiltinIntegerType 32) 0,
            .branch 1 [.integerLiteral (SILType.getBuiltinIntegerType 32) 0]]⟩ := by
  obtain ⟨final, h1, h2, -, h4⟩ :=
    emitCallToMain_exit_code_zero Examples.SGF Examples.throwingMain 0 ⟨0, [], []⟩
      (.nominal "Int32") rfl (by decide) (by decide) (by decide) (by decide)
  exact ⟨final, h1, h2, (h4 ⟨.errorExistential, false⟩ (by decide)).2⟩

/-- C6, as the code has it: for a synchronous `main` whose lowered type has the
error result `errorType`, with `n` the exit block, `n + 1` the success and
`n + 2` the failure successor of the `try_apply` of `main`: the failure block
logs the error and ends in `unreachable`; it has no successor, so the exit
block is not reachable from it and no exit code is supplied along the failure
path; the only instruction that has the exit block as successor is the branch
of the success block, which carries the integer literal 0. -/
theorem emitCallToMain_failure_is_unreachable (s0 : SILGenFunction) (mainFunc : FuncDecl)
    (e : BlockId) (eb : SILBasicBlock) (errorType : SILType)
    (hsync : mainFunc.hasAsync = false)
    (hthrows : (s0.SGM.getFunction (SILDeclRef.ofFuncDecl mainFunc)).1.loweredType.errorResult =
      some errorType)
    (hip : s0.insertionBB = some e) (heb : s0.findBlock e = some eb)
    (hfresh : ∀ b ∈ s0.blocks, b.id < s0.nextBlock)
    (hnosucc : ∀ b ∈ s0.blocks, s0.nextBlock ∉ b.successors) :
    ∃ final, emitCallToMain s0 mainFunc = some final ∧
      final.findBlock e = some (eb.appendInsts
        [.metatype (SILType.getPrimitiveObjectType mainFunc.selfType),
          .functionRef (s0.SGM.getFunction (SILDeclRef.ofFuncDecl mainFunc)).1.name,
          .tryApply
            (.functionRef (s0.SGM.getFunction (SILDeclRef.ofFuncDecl mainFunc)).1.name)
            [.metatype (SILType.getPrimitiveObjectType mainFunc.selfType)]
            (s0.nextBlock + 1) (s0.nextBlock + 2)]) ∧
      final.findBlock (s0.nextBlock + 2) =
        some ⟨s0.nextBlock + 2, failureArgs s0.IndirectErrorResult (s0.nextBlock + 2) errorType,
          errorInMainInsts s0.IndirectErrorResult s0.SGM.ctx.errorInMainTyped errorType
            (failureError s0.IndirectErrorResult (s0.nextBlock + 2) errorType) ++
            [.unreachable]⟩ ∧
      (∀ b ∈ final.blocks, b.id = s0.nextBlock + 2 → b.successors = []) ∧
      ¬ final.Reachable (s0.nextBlock + 2) s0.nextBlock ∧
      (∀ b ∈ final.blocks, ∀ i ∈ b.insts, s0.nextBlock ∈ i.successors →
        b.id = s0.nextBlock + 1 ∧
          i = .branch s0.nextBlock [.integerLiteral (SILType.getBuiltinIntegerType 32) 0]) := by
  have he : e < s0.nextBlock := by
    simp only [findBlock] at heb
    have hid := List.find?_some heb
    simp only [beq_iff_eq] at hid
    rw [← hid]
    exact hfresh eb (List.mem_of_find?_eq_some heb)
  obtain ⟨final, hfinal, -, -, herr⟩ := emitCallToMain_eq s0 mainFunc e (.nominal "Int32") hip
    hfresh he (by intro h; rw [hsync] at h; simp at h)
  have hblocks := herr errorType hthrows
  have hlt : ∀ (X : List SILInstruction),
      ∀ b ∈ modifyBlock e (SILBasicBlock.appendInsts X) s0.blocks, b.id < s0.nextBlock := by
    intro X b hb
    obtain ⟨b0, hb0, hid⟩ := modifyBlock_ids e (SILBasicBlock.appendInsts X) (fun _ => rfl) _ b hb
    rw [hid]
    exact hfresh b0 hb0
  have hnone : ∀ (X : List SILInstruction) (k : Nat),
      (modifyBlock e (SILBasicBlock.appendInsts X) s0.blocks).find?
        (fun b => b.id == s0.nextBlock + k) = none := by
    intro X k
    apply find?_of_ne
    intro b hb
    exact Nat.ne_of_lt (Nat.lt_of_lt_of_le (hlt X b hb) (Nat.le_add_right _ _))
  have hfailsucc : ∀ b ∈ final.blocks, b.id = s0.nextBlock + 2 → b.successors = [] := by
    intro b hb hid
    rw [hblocks] at hb
    rcases List.mem_append.1 hb with hb | hb
    · have := hlt _ b hb
      rw [hid] at this
      exact absurd this (Nat.not_lt.2 (Nat.le_add_right _ _))
    · simp only [List.mem_cons, List.mem_singleton, List.not_mem_nil, or_false] at hb
      rcases hb with rfl | rfl | rfl
      · exact absurd hid (Nat.ne_of_lt (Nat.lt_of_lt_of_le (Nat.lt_succ_self _)
          (Nat.le_succ _)))
      · exact absurd hid (Nat.ne_of_lt (Nat.lt_succ_self _))
      · simp only [SILBasicBlock.successors, List.flatMap_append, List.flatMap_cons,
          List.flatMap_nil, SILInstruction.successors, List.append_nil,
          List.flatMap_eq_nil_iff]
        intro i hi
        exact (errorInMainInsts_props _ _ _ _ i hi).1
  refine ⟨final, hfinal, ?_, ?_, hfailsucc, ?_, ?_⟩
  · simp only [findBlock]
    rw [hblocks]
    exact find?_entry_block s0 e eb _ _ heb
  · simp only [findBlock]
    rw [hblocks, List.find?_append, hnone _ 2]
    simp
  · intro hreach
    rcases Relation.ReflTransGen.cases_head hreach with h | ⟨c, ⟨blk, hblk, hid, hc⟩, -⟩
    · exact absurd h (Nat.ne_of_gt (Nat.lt_of_lt_of_le (Nat.lt_succ_self _) (Nat.le_succ _)))
    · rw [hfailsucc blk hblk hid] at hc
      simp at hc
  · intro b hb i hi hn
    rw [hblocks] at hb
    rcases List.mem_append.1 hb with hb | hb
    · obtain ⟨b0, hb0, rfl⟩ := List.mem_map.1 hb
      exfalso
      by_cases h0 : b0.id = e
      · simp only [h0, if_true, SILBasicBlock.appendInsts, List.mem_append, List.mem_cons,
          List.mem_singleton, List.not_mem_nil, or_false] at hi
        rcases hi with hi | rfl | rfl | rfl
        · exact not_mem_successors_of_block b0 _ (hnosucc b0 hb0) i hi hn
        · simp [SILInstruction.successors] at hn
        · simp [SILInstruction.successors] at hn
        · simp only [SILInstruction.successors, List.mem_cons, List.mem_singleton,
            List.not_mem_nil, or_false] at hn
          rcases hn with h | h
          · exact absurd h (Nat.ne_of_lt (Nat.lt_succ_self _))
          · exact absurd h (Nat.ne_of_lt (Nat.lt_of_lt_of_le (Nat.lt_succ_self _)
              (Nat.le_succ _)))
      · simp only [h0, if_false] at hi
        exact not_mem_successors_of_block b0 _ (hnosucc b0 hb0) i hi hn
    · simp only [List.mem_cons, List.mem_singleton, List.not_mem_nil, or_false] at hb
      rcases hb with rfl | rfl | rfl
      · rw [mainExitInsts_successors _ _ _ _ _ i hi] at hn
        simp at hn
      · simp only [List.mem_cons, List.mem_singleton, List.not_mem_nil, or_false] at hi
        rcases hi with rfl | rfl
        · simp [SILInstruction.successors] at hn
        · exact ⟨rfl, rfl⟩
      · simp only [List.mem_append, List.mem_singleton] at hi
        rcases hi with hi | rfl
        · rw [(errorInMainInsts_props _ _ _ _ i hi).1] at hn
          simp at hn
        · simp [SILInstruction.successors] at hn

/-- Witness for C6: a throwing synchronous `main`; the exit block is block 1
and the failure block is block 3. -/
theorem emitCallToMain_failure_is_unreachable_witness :
    ∃ final, emitCallToMain Examples.SGF Examples.throwingMain = some final ∧
      final.findBlock 3 =
        some ⟨3, [.phiArgument 3 0 ⟨.errorExistential, false⟩ .owned],
          [.builtin "errorInMain" SILType.getEmptyTupleType
              [.phiArgument 3 0 ⟨.errorExistential, false⟩ .owned],
            .unreachable]⟩ ∧
      ¬ final.Reachable 3 1 := by
  obtain ⟨final, h1, -, h3, -, h5, -⟩ :=
    emitCallToMain_failure_is_unreachable Examples.SGF Examples.throwingMain 0 ⟨0, [], []⟩
      ⟨.errorExistential, false⟩ rfl (by decide) rfl (by decide) (by decide) (by decide)
  exact ⟨final, h1, h3, h5⟩

/-- Counterexample to C6 as stated: for the throwing synchronous `main` of the
examples, the failure successor of the `try_apply` (block 3) consists of the
`errorInMain` builtin and `unreachable`; the block has no successor, the exit
block (block 1) is not reachable from it, and the only branch into the exit
block, in the success block (block 2), carries 0: exit code 1 is supplied
nowhere. -/
theorem emitCallToMain_failure_does_not_reach_exit :
    emitCallToMain Examples.SGF Examples.throwingMain = some Examples.throwingMainIR ∧
      Examples.throwingMainIR.findBlock 0 =
        some ⟨0, [], [.metatype (SILType.getPrimitiveObjectType (.nominal "App")),
          .functionRef "$main",
          .tryApply (.functionRef "$main")
            [.metatype (SILType.getPrimitiveObjectType (.nominal "App"))] 2 3]⟩ ∧
      Examples.throwingMainIR.findBlock 3 =
        some ⟨3, [.phiArgument 3 0 ⟨.errorExistential, false⟩ .owned],
          [.builtin "errorInMain" SILType.getEmptyTupleType
              [.phiArgument 3 0 ⟨.errorExistential, false⟩ .owned],
            .unreachable]⟩ ∧
      ¬ Examples.throwingMainIR.Reachable 3 1 ∧
      (∀ b ∈ Examples.throwingMainIR.blocks, ∀ i ∈ b.insts, 1 ∈ i.successors →
        i = .branch 1 [.integerLiteral (SILType.getBuiltinIntegerType 32) 0]) := by
  refine ⟨by decide, by decide, by decide, ?_, by decide⟩
  intro hreach
  rcases Relation.ReflTransGen.cases_head hreach with h | ⟨c, ⟨blk, hblk, hid, hc⟩, -⟩
  · exact absurd h (by decide)
  · have hall : ∀ b ∈ Examples.throwingMainIR.blocks, b.id = 3 → b.successors = [] := by decide
    rw [hall blk hblk hid] at hc
    simp at hc

/-- C5: the exit blocks.  For `emitEntryPoint`, when the rethrow block is used
(so that the unified return block `L.nextBlock` is built), and for
`emitCallToMain` (exit block `s0.nextBlock`): in the asynchronous case the
block ends with the reference to `exit`, the `apply` of it whose single argument
is the exit code (the block parameter in `emitEntryPoint`, the block parameter
wrapped in a struct of the parameter type of `exit` in `emitCallToMain`), and
`unreachable` right after it, and has no return; in the synchronous case the
block ends with the return of the exit code (in `emitCallToMain` wrapped in a
struct of the result type when that type is not `Builtin.Int32`) and has no
call. -/
theorem exit_block_return_or_exit (env : EntryPointEnv) (SF : SourceFile)
    (SGM : SILGenModule) (TopLevel : SILFunction) (L : SILGenFunction) (r : BlockId)
    (rb : SILBasicBlock) (err : SILValue) (rt : SILType)
    (s0 : SILGenFunction) (mainFunc : FuncDecl) (e : BlockId) (p : CanType)
    (hL : lowerTopLevel env SF SGM TopLevel = some L)
    (hrt : L.entryReturnType SF.isAsyncContext = some rt)
    (hthrow : L.ThrowDest = some r)
    (hused : L.pred_empty r = false)
    (hrb : L.findBlock r = some rb) (herr : rb.args.head? = some err)
    (hipmem : ∀ c, L.insertionBB = some c → ∃ b ∈ L.blocks, b.id = c)
    (hfresh : ∀ b ∈ L.blocks, b.id ≠ L.nextBlock)
    (hip0 : s0.insertionBB = some e) (he : e < s0.nextBlock)
    (hfresh0 : ∀ b ∈ s0.blocks, b.id < s0.nextBlock)
    (hexit : mainFunc.hasAsync = true →
      (s0.SGM.getFunction (SILDeclRef.ofFuncDecl mainFunc)).2.exitFunction.1.loweredType.parameters.head?
        = some p) :
    (∃ final, emitEntryPoint env SF SGM TopLevel = some final ∧
      (SF.isAsyncContext = true →
        final.findBlock L.nextBlock =
          some ⟨L.nextBlock, [.phiArgument L.nextBlock 0 rt .owned],
            [.functionRef L.SGM.exitFunction.1.name,
              .apply (.functionRef L.SGM.exitFunction.1.name)
                [.phiArgument L.nextBlock 0 rt .owned],
              .unreachable]⟩) ∧
      (SF.isAsyncContext = false →
        final.findBlock L.nextBlock =
          some ⟨L.nextBlock, [.phiArgument L.nextBlock 0 rt .owned],
            [.ret (.phiArgument L.nextBlock 0 rt .owned)]⟩)) ∧
    (∃ final, emitCallToMain s0 mainFunc = some final ∧
      (mainFunc.hasAsync = true →
        final.findBlock s0.nextBlock =
          some ⟨s0.nextBlock,
            [.phiArgument s0.nextBlock 0 (SILType.getBuiltinIntegerType 32) .none],
            [.struct (SILType.getPrimitiveObjectType p)
                (.phiArgument s0.nextBlock 0 (SILType.getBuiltinIntegerType 32) .none),
              .functionRef
                (s0.SGM.getFunction (SILDeclRef.ofFuncDecl mainFunc)).2.exitFunction.1.name,
              .apply (.functionRef
                  (s0.SGM.getFunction (SILDeclRef.ofFuncDecl mainFunc)).2.exitFunction.1.name)
                [.struct (SILType.getPrimitiveObjectType p)
                  (.phiArgument s0.nextBlock 0 (SILType.getBuiltinIntegerType 32) .none)],
              .unreachable]⟩) ∧
      (mainFunc.hasAsync = false → s0.resultType = SILType.getBuiltinIntegerType 32 →
        final.findBlock s0.nextBlock =
          some ⟨s0.nextBlock,
            [.phiArgument s0.nextBlock 0 (SILType.getBuiltinIntegerType 32) .none],
            [.ret (.phiArgument s0.nextBlock 0 (SILType.getBuiltinIntegerType 32) .none)]⟩) ∧
      (mainFunc.hasAsync = false → s0.resultType ≠ SILType.getBuiltinIntegerType 32 →
        final.findBlock s0.nextBlock =
          some ⟨s0.nextBlock,
            [.phiArgument s0.nextBlock 0 (SILType.getBuiltinIntegerType 32) .none],
            [.struct s0.resultType
                (.phiArgument s0.nextBlock 0 (SILType.getBuiltinIntegerType 32) .none),
              .ret (.struct s0.resultType
                (.phiArgument s0.nextBlock 0 (SILType.getBuiltinIntegerType 32) .none))]⟩)) := by
  constructor
  · have hipfresh : ∀ c, L.insertionBB = some c → c ≠ L.nextBlock := by
      intro c hc
      obtain ⟨b, hb, hid⟩ := hipmem c hc
      rw [← hid]
      exact hfresh b hb
    obtain ⟨sC, hsC⟩ := finishEntryPoint_used env SF.isAsyncContext L r rt rb err hrt hthrow
      hused hrb herr hfresh hipfresh
    rw [← emitEntryPoint_eq env SF SGM TopLevel L hL] at hsC
    have hfind : ∀ (X : List SILBasicBlock) (blk : SILBasicBlock), blk.id = L.nextBlock →
        (∀ b ∈ X, b.id ≠ L.nextBlock) →
        (X ++ [blk]).find? (fun b => b.id == L.nextBlock) = some blk := by
      intro X blk hid hX
      rw [List.find?_append, find?_of_ne _ _ hX]
      simp [hid]
    have hX : ∀ b ∈ modifyBlock r
        (SILBasicBlock.appendInsts
          ([.builtin "errorInMain" SILType.getEmptyTupleType [err], .endLifetime err] ++
            env.cleanupsForReturn sC ++ exitCodeInsts rt 1 ++
            [.branch L.nextBlock [exitCodeValue rt 1]]))
        (blocksAfterInsert L.insertionBB
          (exitCodeInsts rt 0 ++ [.branch L.nextBlock [exitCodeValue rt 0]]) L.blocks),
        b.id ≠ L.nextBlock := by
      intro b hb
      obtain ⟨b1, hb1, hid1⟩ := modifyBlock_ids r (SILBasicBlock.appendInsts _) (fun _ => rfl) _ b hb
      obtain ⟨b2, hb2, hid2⟩ := blocksAfterInsert_ids _ _ _ b1 hb1
      rw [hid1, hid2]
      exact hfresh b2 hb2
    refine ⟨_, hsC, ?_, ?_⟩
    · intro hasync
      simp only [findBlock]
      rw [hfind _ _ rfl hX]
      simp [exitSequence, hasync]
    · intro hsync
      simp only [findBlock]
      rw [hfind _ _ rfl hX]
      simp [exitSequence, hsync]
  · obtain ⟨final, hfinal, -, hnoerr, herr2⟩ :=
      emitCallToMain_eq s0 mainFunc e p hip0 hfresh0 he hexit
    have hnone : ∀ (X : List SILInstruction),
        (modifyBlock e (SILBasicBlock.appendInsts X) s0.blocks).find?
          (fun b => b.id == s0.nextBlock) = none := by
      intro X
      apply find?_of_ne
      intro b hb
      obtain ⟨b0, hb0, hid⟩ := modifyBlock_ids e (SILBasicBlock.appendInsts X) (fun _ => rfl) _ b hb
      rw [hid]
      exact Nat.ne_of_lt (hfresh0 b0 hb0)
    have hblk : final.findBlock s0.nextBlock =
        some ⟨s0.nextBlock,
          [.phiArgument s0.nextBlock 0 (SILType.getBuiltinIntegerType 32) .none],
          mainExitInsts mainFunc.hasAsync s0.resultType
            (s0.SGM.getFunction (SILDeclRef.ofFuncDecl mainFunc)).2.exitFunction.1.name
            (SILType.getPrimitiveObjectType p)
            (.phiArgument s0.nextBlock 0 (SILType.getBuiltinIntegerType 32) .none)⟩ := by
      simp only [findBlock]
      cases hres : (s0.SGM.getFunction (SILDeclRef.ofFuncDecl mainFunc)).1.loweredType.errorResult with
      | none =>
        rw [hnoerr hres, List.find?_append, hnone]
        simp
      | some errorType =>
        rw [herr2 errorType hres, List.find?_append, hnone]
        simp
    refine ⟨final, hfinal, ?_, ?_, ?_⟩
    · intro hasync
      rw [hblk]
      simp [mainExitInsts, hasync]
    · intro hsync hty
      rw [hblk]
      simp [mainExitInsts, hsync, hty, SILValue.getType]
    · intro hsync hty
      rw [hblk]
      have : (SILType.getBuiltinIntegerType 32 != s0.resultType) = true := by
        simpa using fun h => hty h.symm
      simp [mainExitInsts, hsync, SILValue.getType, this]

/-- Witness for C5: an asynchronous source file whose top-level code always
throws, and an asynchronous `main`. -/
theorem exit_block_return_or_exit_witness :
    (∃ final, emitEntryPoint (Examples.env Examples.bodyThrows []) ⟨true⟩ Examples.SGM
        Examples.TopLevel = some final ∧
      final.findBlock 2 =
        some ⟨2, [.phiArgument 2 0 Examples.Int32 .owned],
          [.functionRef "exit",
            .apply (.functionRef "exit") [.phiArgument 2 0 Examples.Int32 .owned],
            .unreachable]⟩) ∧
    (∃ final, emitCallToMain Examples.SGF Examples.asyncMain = some final ∧
      final.findBlock 1 =
        some ⟨1, [.phiArgument 1 0 (SILType.getBuiltinIntegerType 32) .none],
          [.struct Examples.Int32 (.phiArgument 1 0 (SILType.getBuiltinIntegerType 32) .none),
            .functionRef "exit",
            .apply (.functionRef "exit")
              [.struct Examples.Int32
                (.phiArgument 1 0 (SILType.getBuiltinIntegerType 32) .none)],
            .unreachable]⟩) := by
  obtain ⟨⟨f1, h1, h2, -⟩, ⟨f2, h3, h4, -, -⟩⟩ :=
    exit_block_return_or_exit (Examples.env Examples.bodyThrows []) ⟨true⟩ Examples.SGM
      Examples.TopLevel (Examples.lowered Examples.bodyThrows true) 1
      ⟨1, [.phiArgument 1 0 ⟨.errorExistential, false⟩ .owned], []⟩
      (.phiArgument 1 0 ⟨.errorExistential, false⟩ .owned) Examples.Int32
      Examples.SGF Examples.asyncMain 0 (.nominal "Int32")
      (by decide) (by decide) (by decide) (by decide) (by decide) (by decide) (by decide)
      (by decide) rfl (by decide) (by decide) (by decide)
  exact ⟨⟨f1, h1, h2 rfl⟩, ⟨f2, h3, h4 rfl⟩⟩

end Swift
